import Mathlib

/-!
# Box packing and viewport scrolling of go-ctk

A shallow embedding of the layout code of `box.go`, `viewport.go`,
`scrolled_viewport.go`, `scrollbar.go` and `alignment.go`, and theorems about
it.

Conventions of the embedding:

* Go `int` is modelled by `Int`; all statements are about runs in which no
  intermediate value leaves the range of a machine `int`.
* A widget is represented by the facts the layout code reads from it: its
  object id, its visibility, its size request and, when it implements
  `Alignable`, its alignment fractions.
* The effects of a resize pass (`SetOrigin`, `SetAllocation`, the canvas
  `SetOrigin`/`Resize`) are returned as a list of placements, one per child in
  layout order.  The recursive `child.widget.Resize()` and the emitted signals
  do not feed back into the pass and are not part of the model.
* `float64` alignment fractions are modelled by rationals.  In `Resize` the
  expression `int(float64(delta) * align)` is the exact product truncated toward
  zero (`floatMulToInt`); `ResizeBy` takes the expression as a parameter, and
  `float64MulToInt` is its value in float64 arithmetic.
* `utils.SolveSpaceAlloc` and `utils.Distribute` belong to the go-cdk module;
  the box code takes them as parameters `solve` and `distribute`.
* The float expression of the slider geometry is a parameter `ratio` of
  `GetSliderRegion`; `floatRatioToInt` is its value in exact arithmetic.
* The type item of go-cdk is represented by the tags it has been initialised
  for, a button pointer by whether it is set, and a call through a nil pointer
  by the result `none`.
* Signals are not modelled, except that the `changed` notifications of one
  `CViewport.Resize` are counted per adjustment.
-/

namespace Ctk

/-! ## Geometry -/

/-- Modelled from the spec: the integer point `cdk.Point2I` of go-cdk (§3, Point
`{x, y}`), with the field names the sources use. -/
structure Point2I where
  X : Int
  Y : Int
deriving DecidableEq, Repr

/-- Modelled from the spec: the size `cdk.Rectangle` of go-cdk, with the two
fields `W` and `H` that the sources read and that `cdk.MakeRectangle(w, h)`
sets. -/
structure Rectangle where
  W : Int
  H : Int
deriving DecidableEq, Repr

/-- Modelled from the spec: `Rectangle.Floor` of go-cdk, which raises each
dimension that is below the given minimum to that minimum (§3: "Floor clamps
negative dimensions to 0"). -/
def Rectangle.Floor (r : Rectangle) (minW minH : Int) : Rectangle :=
  { W := if r.W < minW then minW else r.W, H := if r.H < minH then minH else r.H }

/-- Modelled from the spec: `Point2I.Add` of go-cdk, component-wise addition. -/
def Point2I.Add (p : Point2I) (x y : Int) : Point2I :=
  { X := p.X + x, Y := p.Y + y }

/-- The value of `int(float64(delta) * align)` when the product is taken
exactly, without the rounding of float64: the product, truncated toward zero.
The fraction is a rational `num / den`, so the truncated product is the
T-division of `delta * num` by `den`.  The value in float64 arithmetic is
`float64MulToInt`. -/
def floatMulToInt (delta : Int) (align : ℚ) : Int :=
  Int.tdiv (delta * align.num) (align.den : Int)

/-! ## Widgets and box children -/

/-- Modelled from the spec: `cdk.Orientation` of go-cdk; the box only tests for
`ORIENTATION_VERTICAL`. -/
inductive Orientation where
  | ORIENTATION_NONE
  | ORIENTATION_HORIZONTAL
  | ORIENTATION_VERTICAL
deriving DecidableEq, Repr

/-- Modelled from the spec: the `PackType` of a box child (§3, packType:
Start|End); its declaration is not among the sources. -/
inductive PackType where
  | PackStart
  | PackEnd
deriving DecidableEq, Repr

/-- What a box reads from a child widget: `ObjectID()`, `IsVisible()`,
`GetSizeRequest()` and, for widgets implementing `Alignable`,
`GetAlignment()` as `(xAlign, yAlign)`. -/
structure Widget where
  objectID : Nat
  visible : Bool
  reqW : Int
  reqH : Int
  alignment : Option (ℚ × ℚ)
deriving DecidableEq

/-- The struct `cBoxChild` of `box.go`. -/
structure cBoxChild where
  widget : Widget
  expand : Bool
  fill : Bool
  padding : Int
  packType : PackType
deriving DecidableEq

/-- The state of a `CBox` that `Resize` reads.  `children` is the child list
`b.children` with the packing stored for each child (`QueryChildPacking`),
`canvases` holds the keys of the map `b.canvases`. -/
structure CBox where
  children : List cBoxChild
  canvases : List Nat
  spacing : Int
  origin : Point2I
  alloc : Rectangle
  orientation : Orientation
  homogeneous : Bool

/-- One entry of the `tracking` slice of `resizeHomogeneous` and
`resizeDynamicAlloc`. -/
structure Track where
  x : Int := 0
  y : Int := 0
  w : Int := 0
  h : Int := 0
  rw : Int := 0
  rh : Int := 0
  aw : Int := 0
  ah : Int := 0
  extra : Int := 0
  overflow : Int := 0
deriving DecidableEq, Repr

/-- What a resize pass does to one child: the argument of `SetOrigin`, the
argument of `SetAllocation`, and the origin and size given to the child's
canvas (`none` when the box has no canvas for the child). -/
structure Placement where
  widget : Nat
  origin : Point2I
  alloc : Rectangle
  canvas : Option (Point2I × Rectangle)
deriving DecidableEq, Repr

/-- What `utils.Distribute` hands back: `dist`, `gaps` and whether `err` is
non-nil. -/
structure DistResult where
  dist : List Int
  gaps : List Int
  err : Bool
deriving DecidableEq, Repr

/-! ## `getBoxChildren` -/

/-- `CBox.getBoxChildren`: the visible Start-packed children followed by the
visible End-packed children, each in child-list order. -/
def getBoxChildren (b : CBox) : List cBoxChild :=
  b.children.filter (fun c => c.widget.visible && c.packType == PackType.PackStart)
    ++ b.children.filter (fun c => c.widget.visible && c.packType == PackType.PackEnd)

/-! ## `resizeHomogeneous` -/

/-- First loop of `resizeHomogeneous`: the tracking entry of one child. -/
def trackHomogeneous (isVertical : Bool) (increment : Int) (alloc : Rectangle)
    (child : cBoxChild) : Track :=
  let req : Rectangle := ⟨child.widget.reqW, child.widget.reqH⟩
  if child.fill then
    let w := if isVertical then alloc.W else increment
    let h := if isVertical then increment else alloc.H
    let req := req.Floor 0 0
    { w := w, h := h, aw := w, ah := h, rw := req.W, rh := req.H }
  else if isVertical then
    if req.H ≤ -1 ∧ req.H > increment then
      let req := ({ req with H := increment } : Rectangle).Floor 0 0
      { w := alloc.W, aw := alloc.W, ah := increment, h := increment, rw := req.W, rh := req.H }
    else
      let h := req.H
      let req := req.Floor 0 0
      { w := alloc.W, aw := alloc.W, ah := increment, h := h, rw := req.W, rh := req.H }
  else
    if req.W ≤ -1 ∧ req.W > increment then
      let req := ({ req with W := increment } : Rectangle).Floor 0 0
      { h := alloc.H, aw := increment, ah := alloc.H, w := increment, rw := req.W, rh := req.H }
    else
      let w := req.W
      let req := req.Floor 0 0
      { h := alloc.H, aw := increment, ah := alloc.H, w := w, rw := req.W, rh := req.H }

/-- Second loop of `resizeHomogeneous` ("solve positions") for one child. -/
def alignHomogeneous (isVertical : Bool) (child : cBoxChild) (t : Track) : Track :=
  if isVertical then
    if t.h < t.ah then
      let delta := t.ah - t.h
      match child.widget.alignment with
      | some (_, yAlign) =>
        let pad := floatMulToInt delta yAlign
        { t with y := t.y + pad, overflow := t.overflow + (delta - pad) }
      | none => { t with overflow := t.overflow + delta }
    else t
  else
    if t.w < t.aw then
      let delta := t.aw - t.w
      match child.widget.alignment with
      | some (xAlign, _) =>
        let pad := floatMulToInt delta xAlign
        { t with x := t.x + pad, overflow := t.overflow + (delta - pad) }
      | none => { t with overflow := t.overflow + delta }
    else t

/-- The cursor update at the end of both allocation loops: advance the packing
axis by the child's size and overflow, then by `gaps[idx]` when there is
one. -/
def advance (isVertical : Bool) (gaps : List Int) (idx : Nat) (t : Track)
    (nextPoint : Point2I) : Point2I :=
  let p : Point2I :=
    if isVertical then { nextPoint with Y := nextPoint.Y + (t.h + t.overflow) }
    else { nextPoint with X := nextPoint.X + (t.w + t.overflow) }
  if gaps.length > idx then
    if isVertical then { p with Y := p.Y + gaps.getD idx 0 }
    else { p with X := p.X + gaps.getD idx 0 }
  else p

/-- Third loop of `resizeHomogeneous` ("allocate children and update canvas"),
from child index `idx` and cursor `nextPoint`. -/
def allocateHomogeneous (isVertical : Bool) (gaps : List Int) (canvases : List Nat)
    (origin : Point2I) : Nat → Point2I → List (cBoxChild × Track) → List Placement
  | _, _, [] => []
  | idx, nextPoint, (child, t) :: rest =>
    let nextPoint := nextPoint.Add t.x t.y
    let canvas : Option (Point2I × Rectangle) :=
      if child.widget.objectID ∈ canvases then
        some (⟨nextPoint.X - origin.X, nextPoint.Y - origin.Y⟩, ⟨t.aw, t.ah⟩)
      else none
    { widget := child.widget.objectID, origin := nextPoint, alloc := ⟨t.w, t.h⟩,
      canvas := canvas }
      :: allocateHomogeneous isVertical gaps canvases origin (idx + 1)
          (advance isVertical gaps idx t nextPoint) rest

/-- `CBox.resizeHomogeneous`.  `numChildren` only sizes the tracking slice; the
caller passes `len(children)`. -/
def resizeHomogeneous (canvases : List Nat) (isVertical : Bool) (gaps : List Int)
    (increment : Int) (_numChildren : Int) (origin nextPoint : Point2I) (alloc : Rectangle)
    (children : List cBoxChild) : List Placement :=
  let tracking := children.map fun child =>
    (child, alignHomogeneous isVertical child (trackHomogeneous isVertical increment alloc child))
  allocateHomogeneous isVertical gaps canvases origin 0 nextPoint tracking

/-! ## `resizeDynamicAlloc` -/

/-- First loop of `resizeDynamicAlloc` for one child: its tracking entry and
the amount the child adds to `extraSpace`. -/
def trackDynamic (isVertical : Bool) (increment : Int) (alloc : Rectangle)
    (child : cBoxChild) : Track × Int :=
  let req : Rectangle := ⟨child.widget.reqW, child.widget.reqH⟩
  if child.expand then
    if child.fill then
      let w := if isVertical then alloc.W else increment
      let h := if isVertical then increment else alloc.H
      ({ w := w, h := h, aw := w, ah := h, rw := req.W, rh := req.H }, 0)
    else if isVertical then
      let req : Rectangle :=
        if req.H ≤ -1 ∨ req.H > increment then { req with H := increment } else req
      ({ w := alloc.W, h := req.H, aw := alloc.W, ah := increment, rw := req.W, rh := req.H }, 0)
    else
      let req : Rectangle :=
        if req.W ≤ -1 ∨ req.W > increment then { req with W := increment } else req
      ({ w := req.W, h := alloc.H, aw := increment, ah := alloc.H, rw := req.W, rh := req.H }, 0)
  else if isVertical then
    let req : Rectangle := { req with W := alloc.W }
    let req : Rectangle :=
      if req.H ≤ -1 ∨ req.H > increment then { req with H := increment } else req
    let delta := if req.H < increment then increment - req.H else 0
    ({ w := req.W, h := req.H, aw := req.W, ah := req.H, rw := req.W, rh := req.H }, delta)
  else
    let req : Rectangle := { req with H := alloc.H }
    let req : Rectangle :=
      if req.W ≤ -1 ∨ req.W > increment then { req with W := increment } else req
    let delta := if req.W < increment then increment - req.W else 0
    ({ w := req.W, h := req.H, aw := req.W, ah := req.H, rw := req.W, rh := req.H }, delta)

/-- The loop of `resizeDynamicAlloc` that hands `dist[di]` to the expanding
children, from distribution index `di`. -/
def applyDist (isVertical : Bool) (dist : List Int) :
    Nat → List (cBoxChild × Track) → List (cBoxChild × Track)
  | _, [] => []
  | di, (child, t) :: rest =>
    if child.expand then
      if di < dist.length then
        let d := dist.getD di 0
        let t : Track :=
          if child.fill then
            if isVertical then { t with ah := t.ah + d, h := t.ah + d }
            else { t with aw := t.aw + d, w := t.aw + d }
          else
            if isVertical then { t with ah := t.ah + d }
            else { t with aw := t.aw + d }
        (child, t) :: applyDist isVertical dist (di + 1) rest
      else (child, t) :: applyDist isVertical dist di rest
    else (child, t) :: applyDist isVertical dist di rest

/-- The "solve positions" loop of `resizeDynamicAlloc` for one child: only an
`Alignable` child is touched. -/
def alignDynamic (isVertical : Bool) (child : cBoxChild) (t : Track) : Track :=
  match child.widget.alignment with
  | some (xAlign, yAlign) =>
    if isVertical then
      if t.h < t.ah then
        let delta := t.ah - t.h
        let inc := floatMulToInt delta yAlign
        { t with y := t.y + inc, overflow := t.overflow + (delta - inc) }
      else t
    else
      if t.w < t.aw then
        let delta := t.aw - t.w
        let inc := floatMulToInt delta xAlign
        { t with x := t.x + inc, overflow := t.overflow + (delta - inc) }
      else t
  | none => t

/-- The last loop of `resizeDynamicAlloc` ("allocate space and update
canvas"), from child index `idx` and cursor `nextPoint`. -/
def allocateDynamic (isVertical : Bool) (gaps : List Int) (canvases : List Nat)
    (origin : Point2I) : Nat → Point2I → List (cBoxChild × Track) → List Placement
  | _, _, [] => []
  | idx, nextPoint, (child, track) :: rest =>
    let nextPoint : Point2I := { X := nextPoint.X + track.x, Y := nextPoint.Y + track.y }
    let canvas : Option (Point2I × Rectangle) :=
      if child.widget.objectID ∈ canvases then
        some (⟨nextPoint.X - origin.X, nextPoint.Y - origin.Y⟩, ⟨track.w, track.h⟩)
      else none
    { widget := child.widget.objectID, origin := nextPoint, alloc := ⟨track.w, track.h⟩,
      canvas := canvas }
      :: allocateDynamic isVertical gaps canvases origin (idx + 1)
          (advance isVertical gaps idx track nextPoint) rest

/-- The tracking slice of `resizeDynamicAlloc` and the gaps in force when the
positions are solved: after the first loop, the call of `distribute` (made
only when `extraSpace > 0`; it replaces `gaps` even when it fails) and the
loop that applies `dist`. -/
def dynamicTracking (distribute : Int → Int → Int → Int → Int → DistResult)
    (isVertical : Bool) (gaps : List Int) (increment spacing numChildren : Int)
    (alloc : Rectangle) (children : List cBoxChild) :
    List (cBoxChild × Track) × List Int :=
  let built := children.map fun child => (child, trackDynamic isVertical increment alloc child)
  let tracking : List (cBoxChild × Track) := built.map fun e => (e.1, e.2.1)
  let extraSpace : Int := (built.map fun e => e.2.2).sum
  let numExpanding : Int := ((children.filter fun child => child.expand).length : Int)
  let consumed : Int := (tracking.map fun e => if isVertical then e.2.ah else e.2.aw).sum
  let total : Int := if isVertical then alloc.H - consumed else alloc.W - consumed
  if extraSpace > 0 then
    let r := distribute total extraSpace numExpanding numChildren spacing
    if r.err then (tracking, r.gaps)
    else (applyDist isVertical r.dist 0 tracking, r.gaps)
  else (tracking, gaps)

/-- `CBox.resizeDynamicAlloc`. -/
def resizeDynamicAlloc (distribute : Int → Int → Int → Int → Int → DistResult)
    (canvases : List Nat) (isVertical : Bool) (gaps : List Int)
    (increment spacing numChildren : Int) (origin nextPoint : Point2I) (alloc : Rectangle)
    (children : List cBoxChild) : List Placement :=
  let tg := dynamicTracking distribute isVertical gaps increment spacing numChildren alloc children
  let tracking := tg.1.map fun e => (e.1, alignDynamic isVertical e.1 e.2)
  allocateDynamic isVertical tg.2 canvases origin 0 nextPoint tracking

/-! ## `Resize` -/

/-- `CBox.Resize`: the placements of the visible children in layout order
(none when the box has no visible child).  `solve` stands for
`utils.SolveSpaceAlloc` and `distribute` for `utils.Distribute`. -/
def Resize (solve : Int → Int → Int → Int × List Int)
    (distribute : Int → Int → Int → Int → Int → DistResult) (b : CBox) : List Placement :=
  let children := getBoxChildren b
  let numChildren : Int := (children.length : Int)
  if numChildren = 0 then []
  else
    let spacing := b.spacing
    let origin := b.origin
    let alloc := b.alloc
    let isVertical : Bool := b.orientation == Orientation.ORIENTATION_VERTICAL
    let sg := if isVertical then solve numChildren alloc.H spacing
      else solve numChildren alloc.W spacing
    let increment := sg.1
    let gaps := sg.2
    let nextPoint := origin
    if b.homogeneous then
      resizeHomogeneous b.canvases isVertical gaps increment numChildren origin nextPoint alloc
        children
    else
      resizeDynamicAlloc distribute b.canvases isVertical gaps increment spacing numChildren
        origin nextPoint alloc children

/-! ## The space allocator and the distributor -/

/-- Adds `unit` to entry `i` of a gap list. -/
def addAt (unit : Int) : Nat → List Int → List Int
  | _, [] => []
  | 0, g :: gs => (g + unit) :: gs
  | i + 1, g :: gs => g :: addAt unit i gs

/-- Hands out `k` units, one at a time, to the entries of a gap list, starting
at index `i` and going round from the low indices. -/
def spreadUnits (unit : Int) : Nat → Nat → List Int → List Int
  | 0, _, gaps => gaps
  | k + 1, i, gaps =>
    spreadUnits unit k (if i + 1 < gaps.length then i + 1 else 0) (addAt unit i gaps)

/-- Modelled from the spec: `utils.SolveSpaceAlloc` of the go-cdk module, which
is not among the sources.  Following §4.1: `count ≤ 0` gives `(0, [])`; a
negative `total` is treated as 0; `increment` is the floor of
`(total - spacing*(count-1)) / count`, clamped to be at least 0; the remainder
`total - spacing*(count-1) - increment*count` is handed out one unit at a time
into a gap list of length `count`, low indices first (a negative remainder, which
arises only when the increment was clamped, is handed out in units of -1). -/
def SolveSpaceAlloc (count total spacing : Int) : Int × List Int :=
  if count ≤ 0 then (0, [])
  else
    let total := if total < 0 then 0 else total
    let available := total - spacing * (count - 1)
    let increment := max (available / count) 0
    let remainder := available - increment * count
    (increment,
      spreadUnits (if remainder < 0 then -1 else 1) remainder.natAbs 0
        (List.replicate count.toNat 0))

/-- Modelled from the spec: `utils.Distribute` of the go-cdk module, which is
not among the sources.  Following §4.2: it fails when `numExpanding == 0`,
`extra > 0` and `total < extra`; otherwise `dist` has length `numExpanding` and
shares `total - extra` equally, the remainder of the division going to the
lowest indices, and is all zero when `total < extra`.  The gap list has one
entry per child and, as nothing is left over for it, holds zeros; the
statements below evaluate it only for spacing 0. -/
def Distribute (total extra numExpanding numChildren _spacing : Int) : DistResult :=
  if numExpanding = 0 ∧ extra > 0 ∧ total < extra then
    { dist := [], gaps := [], err := true }
  else
    let share : Int := if total ≥ extra then total - extra else 0
    let n := numExpanding.toNat
    let dist := (List.range n).map fun (i : Nat) =>
      share / numExpanding + (if (i : Int) < share % numExpanding then 1 else 0)
    { dist := dist, gaps := List.replicate numChildren.toNat 0, err := false }

/-! ## Adjustments -/

/-- Modelled from the spec: the `PolicyType` of a scrollbar (§4.5: Always,
Never, Automatic); its declaration is not among the sources. -/
inductive PolicyType where
  | PolicyAlways
  | PolicyAutomatic
  | PolicyNever
deriving DecidableEq, Repr

/-- Modelled from the spec: the six settings of a `CAdjustment` (§3), in the
order in which `Settings()` and `Configure` list them in the sources;
`adjustment.go` is not among the sources. -/
structure Adjustment where
  value : Int
  lower : Int
  upper : Int
  stepIncrement : Int
  pageIncrement : Int
  pageSize : Int
deriving DecidableEq, Repr

/-- Modelled from the spec: `utils.ClampI` of go-cdk, which brings a value
into the range from `lo` to `hi`. -/
def ClampI (v lo hi : Int) : Int :=
  if v < lo then lo else if v > hi then hi else v

/-- Modelled from the spec: `utils.EqInts` of go-cdk, equality of two integer
slices. -/
def EqInts (a b : List Int) : Bool := a == b

/-- Modelled from the spec: `CAdjustment.Configure` of `adjustment.go`, which is
not among the sources.  Following §4.5 it replaces all six settings, the value
being clamped into the range from `lower` to `upper` before it is stored. -/
def Adjustment.Configure (_a : Adjustment)
    (value lower upper stepIncrement pageIncrement pageSize : Int) : Adjustment :=
  { value := ClampI value lower upper, lower := lower, upper := upper,
    stepIncrement := stepIncrement, pageIncrement := pageIncrement, pageSize := pageSize }

/-- Modelled from the spec: `CAdjustment.Settings` of `adjustment.go`, the six
settings as a list. -/
def Adjustment.Settings (a : Adjustment) : List Int :=
  [a.value, a.lower, a.upper, a.stepIncrement, a.pageIncrement, a.pageSize]

/-- Modelled from the spec: `CAdjustment.GetValue` of `adjustment.go`. -/
def Adjustment.GetValue (a : Adjustment) : Int := a.value

/-- Modelled from the spec: `CAdjustment.ShowByPolicy` of `adjustment.go`.
Following §4.5: Always gives true, Never gives false, Automatic gives true
exactly when `upper > lower`. -/
def Adjustment.ShowByPolicy (a : Adjustment) (policy : PolicyType) : Bool :=
  match policy with
  | PolicyType.PolicyAlways => true
  | PolicyType.PolicyNever => false
  | PolicyType.PolicyAutomatic => decide (a.upper > a.lower)

/-- Modelled from the spec: `CAdjustment.Moot` of `adjustment.go`; following
§4.5 it is true when `upper == lower`. -/
def Adjustment.Moot (a : Adjustment) : Bool := decide (a.upper = a.lower)

/-! ## `CScrolledViewport` -/

/-- The state of a `CScrolledViewport` that its resize pass reads: origin,
allocation, the two adjustments (`none` for nil), the two scrollbar policies
and the child returned by `GetChild()`. -/
structure CScrolledViewport where
  origin : Point2I
  alloc : Rectangle
  hAdjustment : Option Adjustment
  vAdjustment : Option Adjustment
  hScrollbarPolicy : PolicyType
  vScrollbarPolicy : PolicyType
  child : Option Widget

/-- Modelled from the spec: `cdk.Region` of go-cdk, an origin and a size, as
built by `cdk.MakeRegion(x, y, w, h)`. -/
structure Region where
  X : Int
  Y : Int
  W : Int
  H : Int
deriving DecidableEq, Repr

/-- `CScrolledViewport.GetPolicy`: the horizontal policy first, the vertical
policy second. -/
def CScrolledViewport.GetPolicy (s : CScrolledViewport) : PolicyType × PolicyType :=
  (s.hScrollbarPolicy, s.vScrollbarPolicy)

/-- `CScrolledViewport.VerticalShowByPolicy`.  The source binds the first
result of `GetPolicy()` to `vPolicy`. -/
def CScrolledViewport.VerticalShowByPolicy (s : CScrolledViewport) : Bool :=
  let vPolicy := s.GetPolicy.1
  match s.vAdjustment with
  | some vertical =>
    let shown := vertical.ShowByPolicy vPolicy
    if !shown && vPolicy == PolicyType.PolicyAutomatic && vertical.Moot then
      match s.child with
      | some child =>
        if child.reqH > 0 then
          if child.reqH > s.alloc.H then true else shown
        else shown
      | none => shown
    else shown
  | none => false

/-- `CScrolledViewport.HorizontalShowByPolicy`.  The source binds the second
result of `GetPolicy()` to `hPolicy`. -/
def CScrolledViewport.HorizontalShowByPolicy (s : CScrolledViewport) : Bool :=
  let hPolicy := s.GetPolicy.2
  match s.hAdjustment with
  | some horizontal =>
    let shown := horizontal.ShowByPolicy hPolicy
    if !shown && hPolicy == PolicyType.PolicyAutomatic && horizontal.Moot then
      match s.child with
      | some child =>
        if child.reqW > 0 then
          if child.reqW > s.alloc.W then true else shown
        else shown
      | none => shown
    else shown
  | none => false

/-- The result of `makeAdjustments`: the returned region and `changed` flag,
and the two adjustments as the call leaves them. -/
structure Adjusted where
  region : Region
  changed : Bool
  hAdjustment : Option Adjustment
  vAdjustment : Option Adjustment
deriving DecidableEq, Repr

/-- The six values `makeAdjustments` computes for the horizontal axis from the
child's size `sizeW`: `hValue, hLower, hUpper, hStepIncrement, hPageIncrement,
hPageSize`. -/
def hSettings (s : CScrolledViewport) (sizeW : Int) : List Int :=
  if sizeW ≥ s.alloc.W then
    let hUpper := (sizeW - s.alloc.W) + (if s.VerticalShowByPolicy then 1 else 0)
    let hValue := match s.hAdjustment with
      | some horizontal => ClampI horizontal.GetValue 0 hUpper
      | none => 0
    [hValue, 0, hUpper, 1, Int.tdiv s.alloc.W 2, s.alloc.W]
  else [0, 0, 0, 0, 0, 0]

/-- The six values `makeAdjustments` computes for the vertical axis from the
child's size `sizeH`. -/
def vSettings (s : CScrolledViewport) (sizeH : Int) : List Int :=
  if sizeH ≥ s.alloc.H then
    let vUpper := (sizeH - s.alloc.H) + (if s.HorizontalShowByPolicy then 1 else 0)
    let vValue := match s.vAdjustment with
      | some vertical => ClampI vertical.GetValue 0 vUpper
      | none => 0
    [vValue, 0, vUpper, 1, Int.tdiv s.alloc.H 2, s.alloc.H]
  else [0, 0, 0, 0, 0, 0]

/-- The tail of `makeAdjustments` for one axis: the adjustment is configured
with the six computed values when they differ from its settings; the second
component tells whether that happened. -/
def reconfigure (a : Option Adjustment) (b : List Int) : Option Adjustment × Bool :=
  match a with
  | some adj =>
    if !EqInts adj.Settings b then
      (some (adj.Configure (b.getD 0 0) (b.getD 1 0) (b.getD 2 0) (b.getD 3 0) (b.getD 4 0)
        (b.getD 5 0)), true)
    else (some adj, false)
  | none => (none, false)

/-- `CScrolledViewport.makeAdjustments`. -/
def CScrolledViewport.makeAdjustments (s : CScrolledViewport) : Adjusted :=
  if s.alloc.W = 0 ∨ s.alloc.H = 0 then
    let changed : Bool := match s.hAdjustment with
      | some horizontal => EqInts horizontal.Settings [0, 0, 0, 0, 0, 0]
      | none => false
    let changed : Bool := match s.vAdjustment with
      | some vertical => changed || EqInts vertical.Settings [0, 0, 0, 0, 0, 0]
      | none => changed
    { region := ⟨0, 0, 0, 0⟩, changed := changed,
      hAdjustment := s.hAdjustment.map fun a => a.Configure 0 0 0 0 0 0,
      vAdjustment := s.vAdjustment.map fun a => a.Configure 0 0 0 0 0 0 }
  else
    match s.child with
    | some child =>
      let sizeW : Int :=
        if child.reqW ≤ -1 then s.alloc.W - (if s.VerticalShowByPolicy then 1 else 0)
        else child.reqW
      let sizeH : Int :=
        if child.reqH ≤ -1 then s.alloc.H - (if s.HorizontalShowByPolicy then 1 else 0)
        else child.reqH
      let bh := hSettings s sizeW
      let bv := vSettings s sizeH
      let h := reconfigure s.hAdjustment bh
      let v := reconfigure s.vAdjustment bv
      { region := ⟨s.origin.X - bh.getD 0 0, s.origin.Y - bv.getD 0 0, sizeW, sizeH⟩,
        changed := h.2 || v.2, hAdjustment := h.1, vAdjustment := v.1 }
    | none =>
      let h := reconfigure s.hAdjustment [0, 0, 0, 0, 0, 0]
      let v := reconfigure s.vAdjustment [0, 0, 0, 0, 0, 0]
      { region := ⟨0, 0, 0, 0⟩, changed := h.2 || v.2, hAdjustment := h.1, vAdjustment := v.1 }

/-- What a viewport resize pass leaves behind: the two adjustments, and the
origin and allocation it set on the child (`none` when it set none). -/
structure ViewportPass where
  hAdjustment : Option Adjustment
  vAdjustment : Option Adjustment
  childOrigin : Option Point2I
  childAlloc : Option Rectangle
deriving DecidableEq, Repr

/-- `CScrolledViewport.resizeViewport`: `makeAdjustments`, then the child is
given the region's origin and size. -/
def CScrolledViewport.resizeViewport (s : CScrolledViewport) : ViewportPass :=
  let m := s.makeAdjustments
  match s.child with
  | some _ =>
    { hAdjustment := m.hAdjustment, vAdjustment := m.vAdjustment,
      childOrigin := some ⟨m.region.X, m.region.Y⟩,
      childAlloc := some ⟨m.region.W, m.region.H⟩ }
  | none =>
    { hAdjustment := m.hAdjustment, vAdjustment := m.vAdjustment,
      childOrigin := none, childAlloc := none }

/-! ## `CViewport` -/

/-- The state of a `CViewport` that `Resize` reads: origin, allocation, the two
adjustments (`none` for nil) and, when there is a child, the child with its
current origin. -/
structure CViewport where
  origin : Point2I
  alloc : Rectangle
  hAdjustment : Option Adjustment
  vAdjustment : Option Adjustment
  child : Option (Widget × Point2I)

/-- `CViewport.Resize`. -/
def CViewport.Resize (v : CViewport) : ViewportPass :=
  if v.alloc.W = 0 ∨ v.alloc.H = 0 then
    { hAdjustment := v.hAdjustment.map fun a => a.Configure 0 0 0 0 0 0,
      vAdjustment := v.vAdjustment.map fun a => a.Configure 0 0 0 0 0 0,
      childOrigin := none,
      childAlloc := v.child.map fun _ => ⟨0, 0⟩ }
  else
    match v.child with
    | some (child, childOrigin) =>
      let childSizeW : Int := if child.reqW ≤ -1 then v.alloc.W else child.reqW
      let childSizeH : Int := if child.reqH ≤ -1 then v.alloc.H else child.reqH
      let hChanged : Bool := decide (childSizeW ≥ v.alloc.W)
      let vChanged : Bool := decide (childSizeH ≥ v.alloc.H)
      let hUpper := childSizeW - v.alloc.W
      let vUpper := childSizeH - v.alloc.H
      let hValue : Int :=
        if hChanged then
          match v.hAdjustment with
          | some horizontal => ClampI horizontal.GetValue 0 hUpper
          | none => 0
        else 0
      let vValue : Int :=
        if vChanged then
          match v.vAdjustment with
          | some vertical => ClampI vertical.GetValue 0 vUpper
          | none => 0
        else 0
      let horizontal :=
        if hChanged then
          v.hAdjustment.map fun a =>
            a.Configure hValue 0 hUpper 1 (Int.tdiv v.alloc.W 2) v.alloc.W
        else v.hAdjustment
      let vertical :=
        if vChanged then
          v.vAdjustment.map fun a =>
            a.Configure vValue 0 vUpper 1 (Int.tdiv v.alloc.H 2) v.alloc.H
        else v.vAdjustment
      { hAdjustment := horizontal, vAdjustment := vertical,
        childOrigin := some
          ⟨if hChanged then v.origin.X - hValue else childOrigin.X,
           if vChanged then v.origin.Y - vValue else childOrigin.Y⟩,
        childAlloc := some ⟨childSizeW, childSizeH⟩ }
    | none =>
      { hAdjustment := v.hAdjustment, vAdjustment := v.vAdjustment,
        childOrigin := none, childAlloc := none }

/-! ## Auxiliary notions for the statements -/

/-- Moves a point by `d` along the packing axis. -/
def shiftMain (isVertical : Bool) (p : Point2I) (d : Int) : Point2I :=
  if isVertical then { p with Y := p.Y + d } else { p with X := p.X + d }

/-- The coordinate of a point on the packing axis. -/
def mainPos (isVertical : Bool) (p : Point2I) : Int :=
  if isVertical then p.Y else p.X

/-- The extent of a size on the packing axis. -/
def mainSize (isVertical : Bool) (r : Rectangle) : Int :=
  if isVertical then r.H else r.W

/-- The leading offset of a tracking entry on the packing axis. -/
def mainPad (isVertical : Bool) (t : Track) : Int :=
  if isVertical then t.y else t.x

/-- The box moved by `(dx, dy)`: only its origin changes. -/
def CBox.moveBy (b : CBox) (dx dy : Int) : CBox :=
  { b with origin := b.origin.Add dx dy }

/-- A placement whose absolute origin is moved by `(dx, dy)`; the allocation and
the canvas origin and size are kept. -/
def Placement.moveBy (p : Placement) (dx dy : Int) : Placement :=
  { p with origin := p.origin.Add dx dy }

/-- The child with its padding replaced by `f child`. -/
def setPadding (f : cBoxChild → Int) (c : cBoxChild) : cBoxChild :=
  { c with padding := f c }

/-- The box in which every child's padding is replaced by `f child`. -/
def CBox.withPadding (b : CBox) (f : cBoxChild → Int) : CBox :=
  { b with children := b.children.map (setPadding f) }

/-! ## Sample boxes -/

/-- A visible widget without alignment capability, with the given id and size
request. -/
def plainWidget (objectID : Nat) (reqW reqH : Int) : Widget :=
  { objectID := objectID, visible := true, reqW := reqW, reqH := reqH, alignment := none }

/-- A horizontal homogeneous box of width 30 and height 1 at the origin, with
spacing 0 and three visible filling children. -/
def homogeneousBox3 : CBox :=
  { children :=
      [⟨plainWidget 1 (-1) (-1), false, true, 0, PackType.PackStart⟩,
       ⟨plainWidget 2 (-1) (-1), false, true, 0, PackType.PackStart⟩,
       ⟨plainWidget 3 (-1) (-1), false, true, 0, PackType.PackStart⟩],
    canvases := [1, 2, 3], spacing := 0, origin := ⟨0, 0⟩, alloc := ⟨30, 1⟩,
    orientation := Orientation.ORIENTATION_HORIZONTAL, homogeneous := true }

/-- A horizontal non-homogeneous box of width `W` and height `H` at `origin`, with
spacing 0 and two Start-packed visible children: `A` with expand = false and the
given fill flag, followed by `B` with expand = true and fill = true. -/
def expandBox (origin : Point2I) (W H : Int) (canvases : List Nat) (A B : Widget)
    (fillA : Bool) : CBox :=
  { children :=
      [⟨A, false, fillA, 0, PackType.PackStart⟩, ⟨B, true, true, 0, PackType.PackStart⟩],
    canvases := canvases, spacing := 0, origin := origin, alloc := ⟨W, H⟩,
    orientation := Orientation.ORIENTATION_HORIZONTAL, homogeneous := false }

/-- A horizontal homogeneous box of width 30 and height 1 at the origin with one
visible Start-packed child that has fill = false and no size request set
(`GetSizeRequest` returns -1, -1). -/
def unsetRequestBox : CBox :=
  { children := [⟨plainWidget 1 (-1) (-1), false, false, 0, PackType.PackStart⟩],
    canvases := [1], spacing := 0, origin := ⟨0, 0⟩, alloc := ⟨30, 1⟩,
    orientation := Orientation.ORIENTATION_HORIZONTAL, homogeneous := true }

/-- A horizontal box of width 20 and height 1 at the origin with spacing 0 whose
only children are two visible End-packed children, widget 1 packed before
widget 2, both with expand = true and fill = true. -/
def endPackedBox (homogeneous : Bool) : CBox :=
  { children :=
      [⟨plainWidget 1 (-1) (-1), true, true, 0, PackType.PackEnd⟩,
       ⟨plainWidget 2 (-1) (-1), true, true, 0, PackType.PackEnd⟩],
    canvases := [1, 2], spacing := 0, origin := ⟨0, 0⟩, alloc := ⟨20, 1⟩,
    orientation := Orientation.ORIENTATION_HORIZONTAL, homogeneous := homogeneous }

/-- A horizontal box of width 30 and height 1 at the origin with spacing 0 and two
visible Start-packed children with expand = true and fill = true, the first
packed with padding `p`. -/
def paddedBox (homogeneous : Bool) (p : Int) : CBox :=
  { children :=
      [⟨plainWidget 1 (-1) (-1), true, true, p, PackType.PackStart⟩,
       ⟨plainWidget 2 (-1) (-1), true, true, 0, PackType.PackStart⟩],
    canvases := [1, 2], spacing := 0, origin := ⟨0, 0⟩, alloc := ⟨30, 1⟩,
    orientation := Orientation.ORIENTATION_HORIZONTAL, homogeneous := homogeneous }

/-- A horizontal non-homogeneous box of width 20 and height 1 at the origin with
spacing 0 and two visible Start-packed children: an `Alignable` widget with
alignment (1/2, 1/2) requesting width 4, packed with expand = true and
fill = false, and a plain widget packed with expand = true and fill = true. -/
def alignedBox : CBox :=
  { children :=
      [⟨{ objectID := 1, visible := true, reqW := 4, reqH := -1,
          alignment := some (mkRat 1 2, mkRat 1 2) }, true, false, 0, PackType.PackStart⟩,
       ⟨plainWidget 2 (-1) (-1), true, true, 0, PackType.PackStart⟩],
    canvases := [1, 2], spacing := 0, origin := ⟨0, 0⟩, alloc := ⟨20, 1⟩,
    orientation := Orientation.ORIENTATION_HORIZONTAL, homogeneous := false }

/-! ## Sample viewports -/

/-- A scrolled viewport at the origin with allocation 40x20, both policies
Always, both adjustments holding the value 500 in a stale range, and a child
requesting 100x50. -/
def scrolledViewport100x50 : CScrolledViewport :=
  { origin := ⟨0, 0⟩, alloc := ⟨40, 20⟩,
    hAdjustment := some ⟨500, 0, 900, 1, 5, 10⟩,
    vAdjustment := some ⟨500, 0, 900, 1, 5, 10⟩,
    hScrollbarPolicy := PolicyType.PolicyAlways,
    vScrollbarPolicy := PolicyType.PolicyAlways,
    child := some (plainWidget 1 100 50) }

/-- A viewport at the origin with allocation 40x20 whose adjustments still hold
the settings of an earlier, larger child (value 3 and 2, upper 60 and 30), and a
child requesting 10x5. -/
def staleViewport : CViewport :=
  { origin := ⟨0, 0⟩, alloc := ⟨40, 20⟩,
    hAdjustment := some ⟨3, 0, 60, 1, 20, 40⟩,
    vAdjustment := some ⟨2, 0, 30, 1, 10, 20⟩,
    child := some (plainWidget 1 10 5, ⟨-3, -2⟩) }

/-! ## `ReorderChild` -/

/-- The loop of `CBox.ReorderChild` from child index `idx`: at `position` the
given child is appended, everywhere else the list's own child is appended unless
it has the given child's object id. -/
def reorderLoop (child : cBoxChild) (position : Int) : Nat → List cBoxChild → List cBoxChild
  | _, [] => []
  | idx, c :: rest =>
    if (idx : Int) = position then
      child :: reorderLoop child position (idx + 1) rest
    else if c.widget.objectID ≠ child.widget.objectID then
      c :: reorderLoop child position (idx + 1) rest
    else reorderLoop child position (idx + 1) rest

/-- `CBox.ReorderChild`: a negative `position` is first replaced by
`len(b.children) - 1 + position`. -/
def CBox.ReorderChild (b : CBox) (child : cBoxChild) (position : Int) : CBox :=
  let position : Int :=
    if position < 0 then (b.children.length : Int) - 1 + position else position
  { b with children := reorderLoop child position 0 b.children }

/-! ## More auxiliary notions and sample boxes -/

/-- The child with its fill flag replaced by `g child` when it is packed with
expand = false; an expanding child is left as it is. -/
def setFillOfFixed (g : cBoxChild → Bool) (c : cBoxChild) : cBoxChild :=
  if c.expand then c else { c with fill := g c }

/-- The box in which the fill flag of every child packed with expand = false is
replaced by `g child`. -/
def CBox.withFillOfFixed (b : CBox) (g : cBoxChild → Bool) : CBox :=
  { b with children := b.children.map (setFillOfFixed g) }

/-- A horizontal box of width 30 and height 1 at the origin with spacing 0 and one
visible Start-packed child requesting width 4, packed with expand = false and
the given fill flag. -/
def fixedChildBox (homogeneous fill : Bool) : CBox :=
  { children := [⟨plainWidget 1 4 (-1), false, fill, 0, PackType.PackStart⟩],
    canvases := [1], spacing := 0, origin := ⟨0, 0⟩, alloc := ⟨30, 1⟩,
    orientation := Orientation.ORIENTATION_HORIZONTAL, homogeneous := homogeneous }

/-- A horizontal box of width 20 and height 1 at the origin with spacing 0 and two
visible Start-packed children: a widget without alignment capability requesting
width 4, packed with expand = true and fill = false, and a widget packed with
expand = true and fill = true. -/
def unalignedBox (homogeneous : Bool) : CBox :=
  { children :=
      [⟨plainWidget 1 4 (-1), true, false, 0, PackType.PackStart⟩,
       ⟨plainWidget 2 (-1) (-1), true, true, 0, PackType.PackStart⟩],
    canvases := [1, 2], spacing := 0, origin := ⟨0, 0⟩, alloc := ⟨20, 1⟩,
    orientation := Orientation.ORIENTATION_HORIZONTAL, homogeneous := homogeneous }

/-- A vertical non-homogeneous box of width 7 and height 12 at (2, 3) with spacing
0 and three visible children of every packing kind. -/
def mixedVerticalBox : CBox :=
  { children :=
      [⟨plainWidget 1 3 2, false, false, 0, PackType.PackStart⟩,
       ⟨plainWidget 2 50 50, true, false, 0, PackType.PackStart⟩,
       ⟨plainWidget 3 (-1) (-1), true, true, 0, PackType.PackEnd⟩],
    canvases := [1, 2, 3], spacing := 0, origin := ⟨2, 3⟩, alloc := ⟨7, 12⟩,
    orientation := Orientation.ORIENTATION_VERTICAL, homogeneous := false }

/-- A box child for the plain widget with the given id, packed at the start with
expand = false and fill = true. -/
def plainChild (objectID : Nat) : cBoxChild :=
  ⟨plainWidget objectID (-1) (-1), false, true, 0, PackType.PackStart⟩

/-- A box whose child list holds the plain children with the ids 1, 2 and 3, in
that order. -/
def threeChildBox : CBox :=
  { children := [plainChild 1, plainChild 2, plainChild 3],
    canvases := [1, 2, 3], spacing := 0, origin := ⟨0, 0⟩, alloc := ⟨30, 1⟩,
    orientation := Orientation.ORIENTATION_HORIZONTAL, homogeneous := false }

/-- The extent of a size across the packing axis. -/
def crossSize (isVertical : Bool) (r : Rectangle) : Int :=
  if isVertical then r.W else r.H

/-- The size of a tracking entry across the packing axis. -/
def crossOf (isVertical : Bool) (t : Track) : Int :=
  if isVertical then t.w else t.h

/-! ## `SetPolicy` -/

/-- `CScrolledViewport.SetPolicy`: stores the horizontal and the vertical
scrollbar policy. -/
def CScrolledViewport.SetPolicy (s : CScrolledViewport)
    (hScrollbarPolicy vScrollbarPolicy : PolicyType) : CScrolledViewport :=
  { s with hScrollbarPolicy := hScrollbarPolicy, vScrollbarPolicy := vScrollbarPolicy }

/-! ## `CScrollbar` -/

/-- The type tags of the scrollbar family and of the range below it
(`TypeScrollbar`, `TypeVScrollbar`, `TypeHScrollbar` of the sources, `TypeRange`
of `range.go`). -/
inductive CTypeTag where
  | TypeRange
  | TypeScrollbar
  | TypeHScrollbar
  | TypeVScrollbar
deriving DecidableEq, Repr

/-- The state of a `CScrollbar` that its region functions read: origin and
allocation of the widget, the orientation, the slider settings (`sliderSizeFixed`
and `sliderLength` are fields of the embedded `CRange`), the four stepper flags
and the adjustment (`none` for nil).  For `Init` and the stepper setters the
state also holds the tags for which the embedded type item has been initialised
and, for the slider and the four stepper buttons, whether the pointer is set
(`true`) or nil (`false`); a zero-valued `CScrollbar` has no tag and no
button. -/
structure CScrollbar where
  origin : Point2I
  alloc : Rectangle
  orientation : Orientation
  minSliderLength : Int
  sliderSizeFixed : Bool
  sliderLength : Int
  hasBackwardStepper : Bool
  hasForwardStepper : Bool
  hasSecondaryBackwardStepper : Bool
  hasSecondaryForwardStepper : Bool
  adjustment : Option Adjustment
  typeTags : List CTypeTag := []
  slider : Bool := false
  backwardStepper : Bool := false
  forwardStepper : Bool := false
  secondaryBackwardStepper : Bool := false
  secondaryForwardStepper : Bool := false
deriving DecidableEq

/-- Modelled from the spec: `Region.Floor` of go-cdk, which raises a width or
height that is below the given minimum to that minimum (§3: "Floor clamps
negative dimensions to 0"). -/
def Region.Floor (r : Region) (minW minH : Int) : Region :=
  { r with W := if r.W < minW then minW else r.W, H := if r.H < minH then minH else r.H }

/-- Modelled from the spec: `utils.FloorI` of go-cdk, the value raised to the
given minimum. -/
def FloorI (v min : Int) : Int :=
  if v < min then min else v

/-- The value of `int((float64(a) / float64(b)) * float64(c))` in exact
arithmetic: the quotient times `c`, truncated toward zero. -/
def floatRatioToInt (a b c : Int) : Int :=
  Int.tdiv (a * c) b

/-- `CScrollbar.GetStepperRegions`. -/
def CScrollbar.GetStepperRegions (s : CScrollbar) : Region × Region :=
  if s.orientation = Orientation.ORIENTATION_HORIZONTAL then
    let startW : Int :=
      (if s.hasForwardStepper then 1 else 0) + (if s.hasSecondaryBackwardStepper then 1 else 0)
    let endN : Int :=
      (if s.hasBackwardStepper then 1 else 0) + (if s.hasSecondaryForwardStepper then 1 else 0)
    (⟨s.origin.X, s.origin.Y, startW, 1⟩,
     ⟨s.origin.X + s.alloc.W - endN, s.origin.Y, endN, 1⟩)
  else
    let startH : Int :=
      (if s.hasBackwardStepper then 1 else 0) + (if s.hasSecondaryForwardStepper then 1 else 0)
    let endN : Int :=
      (if s.hasForwardStepper then 1 else 0) + (if s.hasSecondaryBackwardStepper then 1 else 0)
    (⟨s.origin.X, s.origin.Y, 1, startH⟩,
     ⟨s.origin.X, s.origin.Y + s.alloc.H - endN, 1, endN⟩)

/-- `CScrollbar.GetTroughRegion`. -/
def CScrollbar.GetTroughRegion (s : CScrollbar) : Region :=
  let se := s.GetStepperRegions
  let region : Region := ⟨se.1.X, se.1.Y, 1, 1⟩
  let region : Region :=
    if s.orientation = Orientation.ORIENTATION_HORIZONTAL then
      { region with X := region.X + se.1.W, W := s.alloc.W - se.1.W - se.2.W }
    else
      { region with Y := region.Y + se.1.H, H := s.alloc.H - se.1.H - se.2.H }
  region.Floor 0 0

/-- The slider length and offset that `GetSliderRegion` computes along the
scrollbar axis for a trough of length `troughLen` starting at `troughStart`,
when `upper` is not 0: the length and the start coordinate of the slider. -/
def sliderAlong (ratio : Int → Int → Int → Int) (s : CScrollbar)
    (upper page value troughStart troughLen : Int) : Int × Int :=
  let fullSize := FloorI (troughLen - 2) 1
  let size : Int :=
    if s.sliderSizeFixed then ClampI s.sliderLength s.minSliderLength troughLen
    else if fullSize > 1 then ratio page upper fullSize
    else if s.minSliderLength > 0 then s.minSliderLength
    else 1
  let len := ClampI size 1 (troughLen - 1)
  let inc := ratio value upper (troughLen - len)
  let inc : Int :=
    if inc = 0 ∧ value > 0 then 1
    else if inc = upper ∧ value < upper then inc - 1
    else inc
  (len, ClampI (troughStart + inc) 0 (troughStart + troughLen - 1))

/-- `CScrollbar.GetSliderRegion`.  `ratio a b c` stands for
`int((float64(a) / float64(b)) * float64(c))`. -/
def CScrollbar.GetSliderRegion (ratio : Int → Int → Int → Int) (s : CScrollbar) : Region :=
  let trough := s.GetTroughRegion
  let upper : Int := match s.adjustment with
    | some adjustment => adjustment.upper
    | none => 0
  let page : Int := match s.adjustment with
    | some adjustment => adjustment.pageIncrement
    | none => 0
  let value : Int := match s.adjustment with
    | some adjustment => adjustment.value
    | none => 0
  let region : Region := ⟨trough.X, trough.Y, 1, 1⟩
  let region : Region :=
    if s.orientation = Orientation.ORIENTATION_HORIZONTAL then
      if upper = 0 then { region with W := trough.W }
      else
        let lx := sliderAlong ratio s upper page value trough.X trough.W
        { region with W := lx.1, X := lx.2 }
    else
      if upper = 0 then { region with H := trough.H }
      else
        let ly := sliderAlong ratio s upper page value trough.Y trough.H
        { region with H := ly.1, Y := ly.2 }
  region.Floor 0 0

/-! ## `CAlignment` -/

/-- The state of a `CAlignment` that the functions below read: origin and
allocation, the four float properties, the four padding properties and the
child (`none` for nil). -/
structure CAlignment where
  origin : Point2I
  alloc : Rectangle
  xAlign : ℚ
  yAlign : ℚ
  xScale : ℚ
  yScale : ℚ
  topPadding : Int
  bottomPadding : Int
  leftPadding : Int
  rightPadding : Int
  child : Option Widget

/-- `CAlignment.GetPadding`: top, bottom, left and right padding. -/
def CAlignment.GetPadding (a : CAlignment) : Int × Int × Int × Int :=
  (a.topPadding, a.bottomPadding, a.leftPadding, a.rightPadding)

/-- `CAlignment.SetPadding`.  When the paddings differ from the stored ones, the
source calls `SetIntProperty` on `PropertyXAlign`, `PropertyYAlign`,
`PropertyXScale` and `PropertyYScale`; `setIntProperty old v` stands for what
such a float property holds after the go-cdk property store was asked to put the
integer `v` into it. -/
def CAlignment.SetPadding (setIntProperty : ℚ → Int → ℚ) (a : CAlignment)
    (paddingTop paddingBottom paddingLeft paddingRight : Int) : CAlignment :=
  if a.topPadding ≠ paddingTop ∨ a.bottomPadding ≠ paddingBottom
      ∨ a.leftPadding ≠ paddingLeft ∨ a.rightPadding ≠ paddingRight then
    { a with
      xAlign := setIntProperty a.xAlign paddingTop
      yAlign := setIntProperty a.yAlign paddingBottom
      xScale := setIntProperty a.xScale paddingLeft
      yScale := setIntProperty a.yScale paddingRight }
  else a

/-- What `CAlignment.Resize` does to the child: the origin and the allocation it
sets (`none` when it sets none). -/
structure BinPass where
  childOrigin : Option Point2I
  childAlloc : Option Rectangle
deriving DecidableEq, Repr

/-- `CAlignment.Resize`. -/
def CAlignment.Resize (a : CAlignment) : BinPass :=
  if a.alloc.W ≤ 0 ∧ a.alloc.H ≤ 0 then
    { childOrigin := none, childAlloc := a.child.map fun _ => ⟨0, 0⟩ }
  else
    let alloc := a.alloc.Floor 0 0
    match a.child with
    | some child =>
      let sizeW : Int := if child.reqW ≤ -1 then alloc.W else child.reqW
      let sizeH : Int := if child.reqH ≤ -1 then alloc.H else child.reqH
      if sizeW = alloc.W ∧ sizeH = alloc.H then
        { childOrigin := some a.origin, childAlloc := some ⟨sizeW, sizeH⟩ }
      else
        let xDelta := alloc.W - sizeW
        let yDelta := alloc.H - sizeH
        let xSize := floatMulToInt xDelta a.xScale
        let ySize := floatMulToInt yDelta a.yScale
        let xDelta := xDelta - xSize
        let yDelta := yDelta - ySize
        { childOrigin := some
            ⟨a.origin.X + floatMulToInt xDelta a.xAlign,
             a.origin.Y + floatMulToInt yDelta a.yAlign⟩,
          childAlloc := some ⟨sizeW + xSize, sizeH + ySize⟩ }
    | none => { childOrigin := none, childAlloc := none }

/-! ## Sample scrollbars and alignments -/

/-- A horizontal scrollbar at the origin, 12 cells long, with the default
steppers and a free slider size, whose adjustment is the one a scrolled viewport
of width 40 configures for a child of width 50: value 5, upper 11, page
increment 20. -/
def longSliderScrollbar : CScrollbar :=
  { origin := ⟨0, 0⟩, alloc := ⟨12, 1⟩,
    orientation := Orientation.ORIENTATION_HORIZONTAL,
    minSliderLength := 0, sliderSizeFixed := false, sliderLength := 0,
    hasBackwardStepper := true, hasForwardStepper := true,
    hasSecondaryBackwardStepper := false, hasSecondaryForwardStepper := false,
    adjustment := some ⟨5, 0, 11, 1, 20, 40⟩ }

/-- An alignment at (2, 3) with allocation 20x10, the default float properties,
all paddings 0 and a child requesting 4x2. -/
def sampleAlignment : CAlignment :=
  { origin := ⟨2, 3⟩, alloc := ⟨20, 10⟩,
    xAlign := mkRat 1 2, yAlign := 1, xScale := mkRat 1 2, yScale := 1,
    topPadding := 0, bottomPadding := 0, leftPadding := 0, rightPadding := 0,
    child := some (plainWidget 1 4 2) }

/-- An alignment at (2, 3) with allocation 20x10, both scales 1, alignment
fractions 1/2 and a child requesting 4x2. -/
def fullScaleAlignment : CAlignment :=
  { origin := ⟨2, 3⟩, alloc := ⟨20, 10⟩,
    xAlign := mkRat 1 2, yAlign := mkRat 1 2, xScale := 1, yScale := 1,
    topPadding := 0, bottomPadding := 0, leftPadding := 0, rightPadding := 0,
    child := some (plainWidget 1 4 2) }

/-- A horizontal scrollbar at the origin, 12 cells long, with the default
steppers and a free slider size, whose adjustment is the one a scrolled viewport
of width 40 configures for a child of width 100 scrolled by one cell: value 1,
upper 60, page increment 20. -/
def shortSliderScrollbar : CScrollbar :=
  { origin := ⟨0, 0⟩, alloc := ⟨12, 1⟩,
    orientation := Orientation.ORIENTATION_HORIZONTAL,
    minSliderLength := 0, sliderSizeFixed := false, sliderLength := 0,
    hasBackwardStepper := true, hasForwardStepper := true,
    hasSecondaryBackwardStepper := false, hasSecondaryForwardStepper := false,
    adjustment := some ⟨1, 0, 60, 1, 20, 40⟩ }

/-! ## `Init` and the stepper setters of the scrollbars -/

/-- Modelled from the spec: `InitTypeItem` of the go-cdk type item, which is not
among the sources; the spec leaves the object model to go-cdk (§1), so the model
follows what every `Init` of the sources relies on ("Only the first call will
result in any effect"): it reports whether the item was already initialised for
the tag and records the tag when it was not. -/
def InitTypeItem (tags : List CTypeTag) (tag : CTypeTag) : Bool × List CTypeTag :=
  if tag ∈ tags then (true, tags) else (false, tag :: tags)

/-- Modelled from the spec: `CRange.Init` of `range.go`, which is not among the
sources.  Like every `Init` of the sources it runs `InitTypeItem` for its own
tag; what else it sets up lies in the embedded range and widget, outside the
state modelled here. -/
def CRange.Init (tags : List CTypeTag) : List CTypeTag :=
  (InitTypeItem tags CTypeTag.TypeRange).2

/-- `CScrollbar.resizeStepper`, as far as the button pointer goes: when the flag
is set a missing button is created; the button is returned as it is
otherwise. -/
def resizeStepper (has b : Bool) : Bool :=
  if has then (if b = false then true else b) else b

/-- `CScrollbar.Resize`, as far as the button pointers go: `resizeSteppers`
runs `resizeStepper` for the four steppers and `resizeSlider` creates a missing
slider.  The geometry given to the buttons is not part of the state. -/
def CScrollbar.Resize (s : CScrollbar) : CScrollbar :=
  { s with
    forwardStepper := resizeStepper s.hasForwardStepper s.forwardStepper
    backwardStepper := resizeStepper s.hasBackwardStepper s.backwardStepper
    secondaryForwardStepper :=
      resizeStepper s.hasSecondaryForwardStepper s.secondaryForwardStepper
    secondaryBackwardStepper :=
      resizeStepper s.hasSecondaryBackwardStepper s.secondaryBackwardStepper
    slider := true }

/-- `CScrollbar.Init`: the returned `already` and the scrollbar as the call
leaves it.  The widget flags, the theme and the focused button are not part of
the state. -/
def CScrollbar.Init (s : CScrollbar) : Bool × CScrollbar :=
  let r := InitTypeItem s.typeTags CTypeTag.TypeScrollbar
  if r.1 then (true, { s with typeTags := r.2 })
  else
    let s : CScrollbar := { s with typeTags := CRange.Init r.2 }
    let s : CScrollbar :=
      if s.orientation = Orientation.ORIENTATION_NONE then
        { s with orientation := Orientation.ORIENTATION_VERTICAL }
      else s
    let s : CScrollbar :=
      { s with
        hasBackwardStepper := true
        hasForwardStepper := true
        hasSecondaryBackwardStepper := false
        hasSecondaryForwardStepper := false }
    (false, s.Resize)

/-- `CScrollbar.GetHasBackwardStepper`. -/
def CScrollbar.GetHasBackwardStepper (s : CScrollbar) : Bool :=
  s.hasBackwardStepper

/-- `CScrollbar.SetHasBackwardStepper`.  The source stores the flag, calls
`Destroy()` through `s.backwardStepper` and sets the pointer to nil, for either
value of the flag.  The call through a nil pointer is a run-time failure of the
Go program, which is the result `none`. -/
def CScrollbar.SetHasBackwardStepper (s : CScrollbar) (hasBackwardStepper : Bool) :
    Option CScrollbar :=
  let s : CScrollbar := { s with hasBackwardStepper := hasBackwardStepper }
  if s.backwardStepper = false then none
  else some { s with backwardStepper := false }

/-- `CVScrollbar.Init`; a `CVScrollbar` is a `CScrollbar` and nothing else, so
its state is the state of the embedded scrollbar.  Flags and theme are not part
of the state. -/
def CVScrollbar.Init (v : CScrollbar) : Bool × CScrollbar :=
  let r := InitTypeItem v.typeTags CTypeTag.TypeVScrollbar
  if r.1 then (true, { v with typeTags := r.2 })
  else (false, (CScrollbar.Init { v with typeTags := r.2 }).2)

/-- The zero value `&CScrollbar{}`: every integer 0, every flag false, every
pointer nil, the orientation `ORIENTATION_NONE` (0). -/
def zeroScrollbar : CScrollbar :=
  { origin := ⟨0, 0⟩, alloc := ⟨0, 0⟩, orientation := Orientation.ORIENTATION_NONE,
    minSliderLength := 0, sliderSizeFixed := false, sliderLength := 0,
    hasBackwardStepper := false, hasForwardStepper := false,
    hasSecondaryBackwardStepper := false, hasSecondaryForwardStepper := false,
    adjustment := none }

/-- `NewVScrollbar`: a zero-valued scrollbar whose orientation is set to
vertical and which is then initialised. -/
def NewVScrollbar : CScrollbar :=
  (CVScrollbar.Init { zeroScrollbar with orientation := Orientation.ORIENTATION_VERTICAL }).2

/-! ## Auxiliary notions for the alignment inside a slot -/

/-- The alignment fraction of the packing axis: `yAlign` in a vertical box,
`xAlign` otherwise. -/
def mainAlign (isVertical : Bool) (a : ℚ × ℚ) : ℚ :=
  if isVertical then a.2 else a.1

/-- The size of the slot of a tracking entry on the packing axis (`ah` or
`aw`). -/
def slotSize (isVertical : Bool) (t : Track) : Int :=
  if isVertical then t.ah else t.aw

/-- The size of the child of a tracking entry on the packing axis (`h` or
`w`). -/
def childSize (isVertical : Bool) (t : Track) : Int :=
  if isVertical then t.h else t.w

/-- The gap the allocation loops add after child `idx`: `gaps[idx]` when the
slice is long enough, nothing otherwise. -/
def gapAfter (gaps : List Int) (idx : Nat) : Int :=
  if gaps.length > idx then gaps.getD idx 0 else 0

/-- The leading offset the claim names for an aligned child: `floor(delta * a)`,
where `delta` is slot size minus child size on the packing axis and `a` the
alignment fraction of that axis. -/
def leadingOffset (isVertical : Bool) (t : Track) (a : ℚ × ℚ) : Int :=
  ⌊((slotSize isVertical t - childSize isVertical t : Int) : ℚ) * mainAlign isVertical a⌋

/-! ## `changed` notifications of `CViewport.Resize` -/

/-- Modelled from the spec: the number of `changed` notifications that
`CAdjustment.Configure` of `adjustment.go` (not among the sources) emits.
Following §3 and §4.5: one when any of the six fields differs from its previous
value, none otherwise. -/
def Adjustment.ConfigureChanged (a : Adjustment)
    (value lower upper stepIncrement pageIncrement pageSize : Int) : Nat :=
  if a.Configure value lower upper stepIncrement pageIncrement pageSize = a then 0 else 1

/-- Modelled from the spec: the number of `changed` notifications of one call of
`CAdjustment.Changed` of `adjustment.go` (not among the sources): it announces
`changed` on the signal bus (§6), as `CScrollbar.Changed` of the sources does with
`SignalChanged`. -/
def Adjustment.Changed (_a : Adjustment) : Nat := 1

/-- The `changed` notifications that one call of `CViewport.Resize` causes on
the horizontal and on the vertical adjustment: those of the `Configure` calls and
those of the `Changed()` calls the source makes under `hChanged` and
`vChanged`. -/
def CViewport.ResizeChanged (v : CViewport) : Nat × Nat :=
  if v.alloc.W = 0 ∨ v.alloc.H = 0 then
    (match v.hAdjustment with
      | some horizontal => horizontal.ConfigureChanged 0 0 0 0 0 0
      | none => 0,
     match v.vAdjustment with
      | some vertical => vertical.ConfigureChanged 0 0 0 0 0 0
      | none => 0)
  else
    match v.child with
    | some (child, _) =>
      let childSizeW : Int := if child.reqW ≤ -1 then v.alloc.W else child.reqW
      let childSizeH : Int := if child.reqH ≤ -1 then v.alloc.H else child.reqH
      let hUpper := childSizeW - v.alloc.W
      let vUpper := childSizeH - v.alloc.H
      (if childSizeW ≥ v.alloc.W then
          match v.hAdjustment with
          | some horizontal =>
            let hValue := ClampI horizontal.GetValue 0 hUpper
            horizontal.ConfigureChanged hValue 0 hUpper 1 (Int.tdiv v.alloc.W 2) v.alloc.W
              + (horizontal.Configure hValue 0 hUpper 1 (Int.tdiv v.alloc.W 2)
                  v.alloc.W).Changed
          | none => 0
        else 0,
       if childSizeH ≥ v.alloc.H then
          match v.vAdjustment with
          | some vertical =>
            let vValue := ClampI vertical.GetValue 0 vUpper
            vertical.ConfigureChanged vValue 0 vUpper 1 (Int.tdiv v.alloc.H 2) v.alloc.H
              + (vertical.Configure vValue 0 vUpper 1 (Int.tdiv v.alloc.H 2)
                  v.alloc.H).Changed
          | none => 0
        else 0)
    | none => (0, 0)

/-- The viewport as one call of `Resize` leaves it: the adjustments and the
child origin are those of the pass, everything else is kept. -/
def CViewport.afterResize (v : CViewport) : CViewport :=
  { v with
    hAdjustment := v.Resize.hAdjustment
    vAdjustment := v.Resize.vAdjustment
    child := v.child.map fun c => (c.1, v.Resize.childOrigin.getD c.2) }

/-- A viewport at the origin with allocation 40x20, two adjustments scrolled to
(7, 3) in a stale range and a child requesting 100x50. -/
def scrollingViewport : CViewport :=
  { origin := ⟨0, 0⟩, alloc := ⟨40, 20⟩,
    hAdjustment := some ⟨7, 0, 10, 1, 5, 10⟩,
    vAdjustment := some ⟨3, 0, 10, 1, 5, 10⟩,
    child := some (plainWidget 1 100 50, ⟨0, 0⟩) }

/-! ## The scrolled viewport after its resize pass -/

/-- The scrolled viewport as `resizeViewport` leaves it: the adjustments are
those of the pass, everything else is kept. -/
def CScrolledViewport.afterResizeViewport (s : CScrolledViewport) : CScrolledViewport :=
  { s with
    hAdjustment := s.resizeViewport.hAdjustment
    vAdjustment := s.resizeViewport.vAdjustment }

/-- A scrolled viewport at the origin with allocation 40x20 and both policies
Automatic, as a pass over a child of 100x50 scrolled fully to the right left it
(horizontal value 61 of upper 61, vertical upper 31), whose child now requests
100x10. -/
def shrunkChildViewport : CScrolledViewport :=
  { origin := ⟨0, 0⟩, alloc := ⟨40, 20⟩,
    hAdjustment := some ⟨61, 0, 61, 1, 20, 40⟩,
    vAdjustment := some ⟨0, 0, 31, 1, 10, 20⟩,
    hScrollbarPolicy := PolicyType.PolicyAutomatic,
    vScrollbarPolicy := PolicyType.PolicyAutomatic,
    child := some (plainWidget 1 100 10) }

/-! ## A sample distributor -/

/-- A distributor that hands the whole of `extra` to the expanding children, in
equal shares with the remainder going to the lowest indices, never fails and
returns one zero gap per child.  It is a sample for evaluating the layout, not a
model of `utils.Distribute`. -/
def extraToExpanding (_total extra numExpanding numChildren _spacing : Int) : DistResult :=
  { dist := (List.range numExpanding.toNat).map fun (i : Nat) =>
      extra / numExpanding + (if (i : Int) < extra % numExpanding then 1 else 0),
    gaps := List.replicate numChildren.toNat 0, err := false }

/-! ## The layout with the float expression as a parameter -/

/-- Second loop of `resizeHomogeneous` ("solve positions") for one child, with
the float expression of the source as a parameter: `mul delta align` stands for
`int(float64(delta) * align)`. -/
def alignHomogeneousBy (mul : Int → ℚ → Int) (isVertical : Bool) (child : cBoxChild)
    (t : Track) : Track :=
  if isVertical then
    if t.h < t.ah then
      let delta := t.ah - t.h
      match child.widget.alignment with
      | some (_, yAlign) =>
        let pad := mul delta yAlign
        { t with y := t.y + pad, overflow := t.overflow + (delta - pad) }
      | none => { t with overflow := t.overflow + delta }
    else t
  else
    if t.w < t.aw then
      let delta := t.aw - t.w
      match child.widget.alignment with
      | some (xAlign, _) =>
        let pad := mul delta xAlign
        { t with x := t.x + pad, overflow := t.overflow + (delta - pad) }
      | none => { t with overflow := t.overflow + delta }
    else t

/-- The "solve positions" loop of `resizeDynamicAlloc` for one child, with the
float expression of the source as a parameter: `mul delta align` stands for
`int(float64(delta) * align)`. -/
def alignDynamicBy (mul : Int → ℚ → Int) (isVertical : Bool) (child : cBoxChild)
    (t : Track) : Track :=
  match child.widget.alignment with
  | some (xAlign, yAlign) =>
    if isVertical then
      if t.h < t.ah then
        let delta := t.ah - t.h
        let inc := mul delta yAlign
        { t with y := t.y + inc, overflow := t.overflow + (delta - inc) }
      else t
    else
      if t.w < t.aw then
        let delta := t.aw - t.w
        let inc := mul delta xAlign
        { t with x := t.x + inc, overflow := t.overflow + (delta - inc) }
      else t
  | none => t

/-- `CBox.resizeHomogeneous` with the float expression as the parameter `mul`. -/
def resizeHomogeneousBy (mul : Int → ℚ → Int) (canvases : List Nat) (isVertical : Bool)
    (gaps : List Int) (increment : Int) (_numChildren : Int) (origin nextPoint : Point2I)
    (alloc : Rectangle) (children : List cBoxChild) : List Placement :=
  let tracking := children.map fun child =>
    (child,
      alignHomogeneousBy mul isVertical child (trackHomogeneous isVertical increment alloc child))
  allocateHomogeneous isVertical gaps canvases origin 0 nextPoint tracking

/-- `CBox.resizeDynamicAlloc` with the float expression as the parameter
`mul`. -/
def resizeDynamicAllocBy (mul : Int → ℚ → Int)
    (distribute : Int → Int → Int → Int → Int → DistResult)
    (canvases : List Nat) (isVertical : Bool) (gaps : List Int)
    (increment spacing numChildren : Int) (origin nextPoint : Point2I) (alloc : Rectangle)
    (children : List cBoxChild) : List Placement :=
  let tg := dynamicTracking distribute isVertical gaps increment spacing numChildren alloc children
  let tracking := tg.1.map fun e => (e.1, alignDynamicBy mul isVertical e.1 e.2)
  allocateDynamic isVertical tg.2 canvases origin 0 nextPoint tracking

/-- `CBox.Resize` with the float expression as the parameter `mul`; `Resize` is
the instance in which the product is taken exactly. -/
def ResizeBy (mul : Int → ℚ → Int) (solve : Int → Int → Int → Int × List Int)
    (distribute : Int → Int → Int → Int → Int → DistResult) (b : CBox) : List Placement :=
  let children := getBoxChildren b
  let numChildren : Int := (children.length : Int)
  if numChildren = 0 then []
  else
    let spacing := b.spacing
    let origin := b.origin
    let alloc := b.alloc
    let isVertical : Bool := b.orientation == Orientation.ORIENTATION_VERTICAL
    let sg := if isVertical then solve numChildren alloc.H spacing
      else solve numChildren alloc.W spacing
    let increment := sg.1
    let gaps := sg.2
    let nextPoint := origin
    if b.homogeneous then
      resizeHomogeneousBy mul b.canvases isVertical gaps increment numChildren origin nextPoint
        alloc children
    else
      resizeDynamicAllocBy mul distribute b.canvases isVertical gaps increment spacing
        numChildren origin nextPoint alloc children

/-! ## float64 arithmetic -/

/-- The index of the highest set bit of `n`, found by halving at most `fuel`
times. -/
def log2Fuel : Nat → Nat → Nat
  | 0, _ => 0
  | fuel + 1, n => if n < 2 then 0 else log2Fuel fuel (n / 2) + 1

/-- The integer part of the binary logarithm of a positive natural number. -/
def floorLog2 (n : Nat) : Nat := log2Fuel n n

/-- The float64 nearest to a rational, as Go's conversions and float64
operations round: IEEE 754 binary64 with a significand of 53 bits, rounding to
nearest, ties to the even significand.  For a value `n/d ≠ 0` with
`2^e ≤ |n/d| < 2^(e+1)` the significand is `|n/d| / 2^(e-52)` rounded to an
integer.  Values outside the normal range of float64 (overflow, subnormal
numbers) are not part of the model. -/
def float64Round (q : ℚ) : ℚ :=
  if q.num = 0 then 0
  else
    let n : Nat := q.num.natAbs
    let d : Nat := q.den
    let e0 : Int := (floorLog2 n : Int) - (floorLog2 d : Int)
    let e : Int :=
      if (if 0 ≤ e0 then d * 2 ^ e0.toNat ≤ n else d ≤ n * 2 ^ (-e0).toNat) then e0 else e0 - 1
    let k : Int := e - 52
    let num : Nat := if k < 0 then n * 2 ^ (-k).toNat else n
    let den : Nat := if k < 0 then d else d * 2 ^ k.toNat
    let f : Nat := num / den
    let rem : Nat := num % den
    let r : Nat :=
      if 2 * rem < den then f
      else if den < 2 * rem then f + 1
      else if f % 2 = 0 then f
      else f + 1
    let m : ℚ := if k < 0 then mkRat r (2 ^ (-k).toNat) else ((r * 2 ^ k.toNat : Nat) : ℚ)
    if q.num < 0 then -m else m

/-- The value of `int(float64(delta) * align)` in float64 arithmetic: the
integer is converted to float64, the fraction is a float64 (a rational that is
not one is first brought to the nearest float64, as a Go constant is), the exact
product of the two, `mkRat (x.num * y.num) (x.den * y.den)`, is rounded to
float64, and the conversion to `int` discards the fraction. -/
def float64MulToInt (delta : Int) (align : ℚ) : Int :=
  let x := float64Round (delta : ℚ)
  let y := float64Round align
  let p := float64Round (mkRat (x.num * y.num) (x.den * y.den))
  Int.tdiv p.num (p.den : Int)

/-- The float64 value of the Go expression `1.0 / 3.0`: 6004799503160661 / 2^54,
a little less than one third. -/
def oneThirdFloat64 : ℚ := mkRat 6004799503160661 18014398509481984

/-- A Start-packed child with expand = true and fill = false whose widget is
`Alignable` with both alignment fractions `a` and requests width `reqW`. -/
def alignedChild (a : ℚ) (reqW : Int) : cBoxChild :=
  ⟨{ objectID := 1, visible := true, reqW := reqW, reqH := -1, alignment := some (a, a) },
    true, false, 0, PackType.PackStart⟩

/-- A horizontal box of width `W` and height 1 at the origin with spacing 0 and
two visible Start-packed children: `alignedChild a reqW` and a plain widget
packed with expand = true and fill = true. -/
def alignedRow (homogeneous : Bool) (W : Int) (a : ℚ) (reqW : Int) : CBox :=
  { children := [alignedChild a reqW, ⟨plainWidget 2 (-1) (-1), true, true, 0, PackType.PackStart⟩],
    canvases := [1, 2], spacing := 0, origin := ⟨0, 0⟩, alloc := ⟨W, 1⟩,
    orientation := Orientation.ORIENTATION_HORIZONTAL, homogeneous := homogeneous }

/-! # Theorems -/

/-! ## The space allocator -/

theorem addAt_length (u : Int) (i : Nat) (gs : List Int) :
    (addAt u i gs).length = gs.length := by
  induction gs generalizing i with
  | nil => cases i <;> rfl
  | cons g gs ih =>
    cases i with
    | zero => rfl
    | succ i => simp [addAt, ih]

theorem addAt_sum (u : Int) (i : Nat) (gs : List Int) (hi : i < gs.length) :
    (addAt u i gs).sum = gs.sum + u := by
  induction gs generalizing i with
  | nil => simp at hi
  | cons g gs ih =>
    cases i with
    | zero => simp [addAt]; ring
    | succ i =>
      have hlt : i < gs.length := by simpa using hi
      simp [addAt, ih i hlt]; ring

theorem spreadUnits_sum (u : Int) (k i : Nat) (gaps : List Int) (hi : i < gaps.length) :
    (spreadUnits u k i gaps).sum = gaps.sum + k * u := by
  induction k generalizing i gaps with
  | zero => simp [spreadUnits]
  | succ k ih =>
    have hnext : (if i + 1 < gaps.length then i + 1 else 0) < (addAt u i gaps).length := by
      rw [addAt_length]
      split <;> omega
    rw [spreadUnits, ih _ _ hnext, addAt_sum u i gaps hi]
    push_cast
    ring

/-- C5.  For every `count > 0`, `total ≥ 0` and `spacing ≥ 0` the increment and
gaps returned by the space allocator satisfy
`sum(gaps) + increment*count + spacing*(count-1) = total`. -/
theorem SolveSpaceAlloc_conserves (count total spacing : Int) (hc : 0 < count)
    (ht : 0 ≤ total) (_hs : 0 ≤ spacing) :
    (SolveSpaceAlloc count total spacing).2.sum
      + (SolveSpaceAlloc count total spacing).1 * count + spacing * (count - 1) = total := by
  have hcn : ¬ count ≤ 0 := by omega
  have htn : ¬ total < 0 := by omega
  have hlen : 0 < (List.replicate count.toNat (0 : Int)).length := by
    simp only [List.length_replicate]
    omega
  simp only [SolveSpaceAlloc, hcn, htn, if_false]
  rw [spreadUnits_sum _ _ _ _ hlen]
  simp only [List.sum_replicate, smul_zero, zero_add]
  set r := total - spacing * (count - 1) - max ((total - spacing * (count - 1)) / count) 0 * count
    with hr
  have hunit : (r.natAbs : Int) * (if r < 0 then -1 else 1) = r := by
    split
    · omega
    · omega
  rw [hunit, hr]
  ring

/-- The conservation law at a concrete call: 3 slots in 32 cells with spacing 1. -/
theorem SolveSpaceAlloc_conserves_witness :
    (0 : Int) < 3 ∧ (0 : Int) ≤ 32 ∧ (0 : Int) ≤ 1 ∧
    (SolveSpaceAlloc 3 32 1).2.sum + (SolveSpaceAlloc 3 32 1).1 * 3 + 1 * (3 - 1) = 32 :=
  ⟨by decide, by decide, by decide,
    SolveSpaceAlloc_conserves 3 32 1 (by decide) (by decide) (by decide)⟩

/-! ## Homogeneous layout of filling children -/

theorem sum_take_succ_drop (gaps : List Int) (idx k : Nat) :
    ((gaps.drop idx).take (k + 1)).sum
      = (if gaps.length > idx then gaps.getD idx 0 else 0)
        + ((gaps.drop (idx + 1)).take k).sum := by
  by_cases h : idx < gaps.length
  · have hd : gaps.drop idx = gaps[idx] :: gaps.drop (idx + 1) := List.drop_eq_getElem_cons h
    have hg : gaps.getD idx 0 = gaps[idx] := by
      simp [List.getD_eq_getElem?_getD, List.getElem?_eq_getElem h]
    rw [hd, List.take_succ_cons, List.sum_cons, if_pos h, hg]
  · have h1 : gaps.length ≤ idx := by omega
    have h2 : gaps.length ≤ idx + 1 := by omega
    simp [List.drop_eq_nil_of_le h1, List.drop_eq_nil_of_le h2, h]

theorem advance_eq_shiftMain (isVertical : Bool) (gaps : List Int) (idx : Nat) (t : Track)
    (p : Point2I) :
    advance isVertical gaps idx t p
      = shiftMain isVertical p
          ((if isVertical then t.h else t.w) + t.overflow
            + (if gaps.length > idx then gaps.getD idx 0 else 0)) := by
  cases isVertical <;> by_cases h : gaps.length > idx <;>
    simp [advance, shiftMain, h, add_assoc]

theorem shiftMain_shiftMain (isVertical : Bool) (p : Point2I) (d e : Int) :
    shiftMain isVertical (shiftMain isVertical p d) e = shiftMain isVertical p (d + e) := by
  cases isVertical <;> simp [shiftMain, add_assoc]

theorem allocateHomogeneous_uniform (isVertical : Bool) (gaps : List Int) (canvases : List Nat)
    (origin : Point2I) (W H : Int) (L : List (cBoxChild × Track))
    (hL : ∀ e ∈ L, e.2.x = 0 ∧ e.2.y = 0 ∧ e.2.overflow = 0 ∧ e.2.w = W ∧ e.2.h = H)
    (idx : Nat) (np : Point2I) (k : Nat) (hk : k < L.length) :
    ((allocateHomogeneous isVertical gaps canvases origin idx np L)[k]?).map
        (fun p => (p.origin, p.alloc))
      = some (shiftMain isVertical np
          ((k : Int) * (if isVertical then H else W) + ((gaps.drop idx).take k).sum), ⟨W, H⟩) := by
  induction L generalizing idx np k with
  | nil => simp at hk
  | cons e rest ih =>
    obtain ⟨child, t⟩ := e
    obtain ⟨hx, hy, ho, hw, hh⟩ := hL (child, t) (List.mem_cons_self _ _)
    simp only at hx hy ho hw hh
    have hadd : np.Add t.x t.y = np := by simp [Point2I.Add, hx, hy]
    cases k with
    | zero =>
      cases isVertical <;> simp [allocateHomogeneous, hadd, shiftMain, hw, hh]
    | succ k =>
      have hk2 : k < rest.length := by simpa using hk
      have hrest : ∀ e ∈ rest,
          e.2.x = 0 ∧ e.2.y = 0 ∧ e.2.overflow = 0 ∧ e.2.w = W ∧ e.2.h = H :=
        fun e he => hL e (List.mem_cons_of_mem _ he)
      simp only [allocateHomogeneous, hadd, List.getElem?_cons_succ]
      rw [ih hrest (idx + 1) _ k hk2, advance_eq_shiftMain, shiftMain_shiftMain,
        sum_take_succ_drop gaps idx k, ho, hw, hh]
      congr 3
      push_cast
      cases isVertical <;> simp <;> ring

theorem mem_getBoxChildren (b : CBox) (c : cBoxChild) (hc : c ∈ getBoxChildren b) :
    c ∈ b.children ∧ c.widget.visible = true := by
  simp only [getBoxChildren, List.mem_append, List.mem_filter, Bool.and_eq_true] at hc
  rcases hc with ⟨h1, h2, _⟩ | ⟨h1, h2, _⟩ <;> exact ⟨h1, h2⟩

theorem trackHomogeneous_fill (isVertical : Bool) (increment : Int) (alloc : Rectangle)
    (child : cBoxChild) (hf : child.fill = true) :
    let t := alignHomogeneous isVertical child (trackHomogeneous isVertical increment alloc child)
    t.x = 0 ∧ t.y = 0 ∧ t.overflow = 0
      ∧ t.w = (if isVertical then alloc.W else increment)
      ∧ t.h = (if isVertical then increment else alloc.H) := by
  cases isVertical <;> simp [trackHomogeneous, alignHomogeneous, hf]

/-- C1.  In a homogeneous box whose visible children all have fill = true, the
`k`-th child in layout order is allocated `increment` on the packing axis and
the box's full allocation on the other axis, at the box origin moved along the
packing axis by `k*increment + gaps[0] + ... + gaps[k-1]`, where
`(increment, gaps)` is what the space allocator returned for the number of
visible children, the box's packing-axis allocation and the spacing; this for
the horizontal and, with the axes swapped, the vertical orientation. -/
theorem Resize_homogeneous_fill (solve : Int → Int → Int → Int × List Int)
    (distribute : Int → Int → Int → Int → Int → DistResult) (b : CBox)
    (hh : b.homogeneous = true)
    (hfill : ∀ c ∈ b.children, c.widget.visible = true → c.fill = true)
    (k : Nat) (hk : k < (getBoxChildren b).length) :
    ((Resize solve distribute b)[k]?).map (fun p => (p.origin, p.alloc))
      = some
        (if b.orientation = Orientation.ORIENTATION_VERTICAL then
          (⟨b.origin.X,
            b.origin.Y + (k : Int) * (solve (getBoxChildren b).length b.alloc.H b.spacing).1
              + ((solve (getBoxChildren b).length b.alloc.H b.spacing).2.take k).sum⟩,
           ⟨b.alloc.W, (solve (getBoxChildren b).length b.alloc.H b.spacing).1⟩)
        else
          (⟨b.origin.X + (k : Int) * (solve (getBoxChildren b).length b.alloc.W b.spacing).1
              + ((solve (getBoxChildren b).length b.alloc.W b.spacing).2.take k).sum,
            b.origin.Y⟩,
           ⟨(solve (getBoxChildren b).length b.alloc.W b.spacing).1, b.alloc.H⟩)) := by
  have hn : ((getBoxChildren b).length : Int) ≠ 0 := by omega
  have huni : ∀ (isVertical : Bool) (increment : Int),
      ∀ e ∈ (getBoxChildren b).map (fun child =>
          (child, alignHomogeneous isVertical child
            (trackHomogeneous isVertical increment b.alloc child))),
        e.2.x = 0 ∧ e.2.y = 0 ∧ e.2.overflow = 0
          ∧ e.2.w = (if isVertical then b.alloc.W else increment)
          ∧ e.2.h = (if isVertical then increment else b.alloc.H) := by
    intro isVertical increment e he
    obtain ⟨c, hc, rfl⟩ := List.mem_map.mp he
    obtain ⟨hmem, hvis⟩ := mem_getBoxChildren b c hc
    exact trackHomogeneous_fill isVertical increment b.alloc c (hfill c hmem hvis)
  simp only [Resize, hn, if_false, hh, if_true, resizeHomogeneous]
  by_cases hv : b.orientation = Orientation.ORIENTATION_VERTICAL
  · simp only [hv, beq_self_eq_true, if_true]
    rw [allocateHomogeneous_uniform true _ _ _ _ _ _ (huni true _) 0 b.origin k
      (by simpa using hk)]
    simp [shiftMain, add_assoc]
  · have hb : (b.orientation == Orientation.ORIENTATION_VERTICAL) = false := by
      simpa using hv
    simp only [hv, hb, if_false, Bool.false_eq_true]
    rw [allocateHomogeneous_uniform false _ _ _ _ _ _ (huni false _) 0 b.origin k
      (by simpa using hk)]
    simp [shiftMain, add_assoc]

/-- The example of C1: three filling children in a horizontal homogeneous box of
width 30 with spacing 0 each get width 10, at x = 0, 10 and 20. -/
theorem Resize_homogeneous_fill_witness :
    ((Resize SolveSpaceAlloc Distribute homogeneousBox3)[0]?).map (fun p => (p.origin, p.alloc))
        = some (⟨0, 0⟩, ⟨10, 1⟩)
    ∧ ((Resize SolveSpaceAlloc Distribute homogeneousBox3)[1]?).map (fun p => (p.origin, p.alloc))
        = some (⟨10, 0⟩, ⟨10, 1⟩)
    ∧ ((Resize SolveSpaceAlloc Distribute homogeneousBox3)[2]?).map (fun p => (p.origin, p.alloc))
        = some (⟨20, 0⟩, ⟨10, 1⟩) :=
  ⟨(Resize_homogeneous_fill SolveSpaceAlloc Distribute homogeneousBox3 rfl (by decide) 0
      (by decide)).trans (by decide),
   (Resize_homogeneous_fill SolveSpaceAlloc Distribute homogeneousBox3 rfl (by decide) 1
      (by decide)).trans (by decide),
   (Resize_homogeneous_fill SolveSpaceAlloc Distribute homogeneousBox3 rfl (by decide) 2
      (by decide)).trans (by decide)⟩

/-! ## Dynamic layout of a fixed child followed by an expanding child -/

theorem SolveSpaceAlloc_two_even (W : Int) (hW : W % 2 = 0) (h0 : 0 ≤ W) :
    SolveSpaceAlloc 2 W 0 = (W / 2, [0, 0]) := by
  have h1 : ¬ W < 0 := by omega
  have h2 : max (W / 2) 0 = W / 2 := max_eq_left (by omega)
  have h3 : W - W / 2 * 2 = 0 := by omega
  simp [SolveSpaceAlloc, h1, h2, h3, spreadUnits, List.replicate]

/-- How the layout of C2 depends on the distributor, with the space allocator of
§4.1.  In a horizontal non-homogeneous box of even width `W` with spacing 0 and
two Start-packed visible children, `A` with expand = false and requested width
`r` (`0 ≤ r ≤ W/2`) followed by `B` with expand = true and fill = true, `A` gets
width `r` at the box origin and `B` gets width `W/2 + d` at x = box origin x +
`r + g`, where `d` is the share and `g` the first gap that the distributor
returned for the call `(W/2 - r, W/2 - r, 1, 2, 0)`; the call is made only when
`r < W/2`, otherwise `d = g = 0`. -/
theorem Resize_expand_pair (distribute : Int → Int → Int → Int → Int → DistResult)
    (origin : Point2I) (W H r : Int) (canvases : List Nat) (A B : Widget) (fillA : Bool)
    (hA : A.visible = true) (hB : B.visible = true) (hreq : A.reqW = r)
    (hW : W % 2 = 0) (hr0 : 0 ≤ r) (hr : r ≤ W / 2) :
    (Resize SolveSpaceAlloc distribute (expandBox origin W H canvases A B fillA)).map
        (fun p => (p.widget, p.origin, p.alloc))
      = [(A.objectID, origin, ⟨r, H⟩),
         (B.objectID,
          ⟨origin.X + r
            + (if r < W / 2 then (distribute (W / 2 - r) (W / 2 - r) 1 2 0).gaps.getD 0 0 else 0),
           origin.Y⟩,
          ⟨W / 2
            + (if r < W / 2 ∧ (distribute (W / 2 - r) (W / 2 - r) 1 2 0).err = false then
                (distribute (W / 2 - r) (W / 2 - r) 1 2 0).dist.getD 0 0 else 0),
           H⟩)] := by
  have hsolve := SolveSpaceAlloc_two_even W hW (by omega)
  have hc1 : ¬ (r ≤ -1 ∨ r > W / 2) := by omega
  have hkids : getBoxChildren (expandBox origin W H canvases A B fillA)
      = [⟨A, false, fillA, 0, PackType.PackStart⟩, ⟨B, true, true, 0, PackType.PackStart⟩] := by
    simp [getBoxChildren, expandBox, hA, hB]
  have hal : (expandBox origin W H canvases A B fillA).alloc = ⟨W, H⟩ := rfl
  have hsp : (expandBox origin W H canvases A B fillA).spacing = 0 := rfl
  have hor : (expandBox origin W H canvases A B fillA).orientation
      = Orientation.ORIENTATION_HORIZONTAL := rfl
  have hho : (expandBox origin W H canvases A B fillA).homogeneous = false := rfl
  have hog : (expandBox origin W H canvases A B fillA).origin = origin := rfl
  have hv : (Orientation.ORIENTATION_HORIZONTAL == Orientation.ORIENTATION_VERTICAL) = false :=
    rfl
  have htot : W - (r + W / 2) = W / 2 - r := by omega
  have hlen : (((2 : Nat) : Int)) = 2 := rfl
  simp only [Resize, hkids, hal, hsp, hor, hho, hog, hv, List.length_cons, List.length_nil,
    zero_add, Nat.reduceAdd, hlen, hsolve]
  obtain ⟨ox, oy⟩ := origin
  by_cases hlt : r < W / 2
  · have hpos : 0 < W / 2 - r := by omega
    generalize hres : distribute (W / 2 - r) (W / 2 - r) 1 2 0 = res
    obtain ⟨dist, gaps, err⟩ := res
    rcases hAa : A.alignment with _ | ⟨xa, ya⟩ <;>
    rcases hBa : B.alignment with _ | ⟨xb, yb⟩ <;>
    cases err <;> rcases gaps with _ | ⟨g, gs⟩ <;> rcases dist with _ | ⟨d, ds⟩ <;>
    simp [resizeDynamicAlloc, dynamicTracking, trackDynamic, hreq, hc1, hlt, hpos, htot, hres,
      allocateDynamic, alignDynamic, advance, applyDist, add_assoc, hAa, hBa]
  · have heq : r = W / 2 := by omega
    rcases hAa : A.alignment with _ | ⟨xa, ya⟩ <;>
    rcases hBa : B.alignment with _ | ⟨xb, yb⟩ <;>
    simp [resizeDynamicAlloc, dynamicTracking, trackDynamic, hreq, hc1, hlt, heq,
      allocateDynamic, alignDynamic, advance, applyDist, add_assoc, hAa, hBa]

/-- C2.  In a horizontal non-homogeneous box of even width `W` with spacing 0 and
two Start-packed visible children, `A` with expand = false and requested width
`r` (`0 ≤ r ≤ W/2`) followed by `B` with expand = true and fill = true,
`Resize` gives `A` width `r` at the box origin and `B` width `W - r` at x = box
origin x + `r`.  The space allocator and the distributor belong to go-cdk and
are parameters: the allocator is taken to return the increment `W/2` with no
first gap for two children in `W`, and the distributor, asked to hand out the
`W/2 - r` cells that `A` leaves of its slot (the call `(W/2 - r, W/2 - r, 1, 2,
0)`, made only when `r < W/2`), to hand them to the one expanding child without
an error and with no first gap. -/
theorem Resize_fixed_then_expanding (solve : Int → Int → Int → Int × List Int)
    (distribute : Int → Int → Int → Int → Int → DistResult)
    (origin : Point2I) (W H r : Int) (canvases : List Nat) (A B : Widget) (fillA : Bool)
    (hA : A.visible = true) (hB : B.visible = true) (hreq : A.reqW = r)
    (hW : W % 2 = 0) (hr0 : 0 ≤ r) (hr : r ≤ W / 2)
    (hinc : (solve 2 W 0).1 = W / 2) (hgap : (solve 2 W 0).2.getD 0 0 = 0)
    (hdist : r < W / 2 →
      (distribute (W / 2 - r) (W / 2 - r) 1 2 0).err = false
      ∧ (distribute (W / 2 - r) (W / 2 - r) 1 2 0).dist.head? = some (W / 2 - r)
      ∧ (distribute (W / 2 - r) (W / 2 - r) 1 2 0).gaps.getD 0 0 = 0) :
    (Resize solve distribute (expandBox origin W H canvases A B fillA)).map
        (fun p => (p.widget, p.origin, p.alloc))
      = [(A.objectID, origin, ⟨r, H⟩),
         (B.objectID, ⟨origin.X + r, origin.Y⟩, ⟨W - r, H⟩)] := by
  have hc1 : ¬ (r ≤ -1 ∨ r > W / 2) := by omega
  have hkids : getBoxChildren (expandBox origin W H canvases A B fillA)
      = [⟨A, false, fillA, 0, PackType.PackStart⟩, ⟨B, true, true, 0, PackType.PackStart⟩] := by
    simp [getBoxChildren, expandBox, hA, hB]
  have hal : (expandBox origin W H canvases A B fillA).alloc = ⟨W, H⟩ := rfl
  have hsp : (expandBox origin W H canvases A B fillA).spacing = 0 := rfl
  have hor : (expandBox origin W H canvases A B fillA).orientation
      = Orientation.ORIENTATION_HORIZONTAL := rfl
  have hho : (expandBox origin W H canvases A B fillA).homogeneous = false := rfl
  have hog : (expandBox origin W H canvases A B fillA).origin = origin := rfl
  have hv : (Orientation.ORIENTATION_HORIZONTAL == Orientation.ORIENTATION_VERTICAL) = false :=
    rfl
  have htot : W - (r + W / 2) = W / 2 - r := by omega
  have hsum : W / 2 + (W / 2 - r) = W - r := by omega
  have hlen : (((2 : Nat) : Int)) = 2 := rfl
  generalize hs : solve 2 W 0 = sg at hinc hgap
  obtain ⟨inc, gs⟩ := sg
  simp only at hinc hgap
  subst hinc
  simp only [Resize, hkids, hal, hsp, hor, hho, hog, hv, List.length_cons, List.length_nil,
    zero_add, Nat.reduceAdd, hlen, hs]
  obtain ⟨ox, oy⟩ := origin
  by_cases hlt : r < W / 2
  · have hpos : 0 < W / 2 - r := by omega
    obtain ⟨he, hd, hg⟩ := hdist hlt
    generalize hres : distribute (W / 2 - r) (W / 2 - r) 1 2 0 = res at he hd hg
    obtain ⟨dist, gaps, err⟩ := res
    simp only at he hd hg
    subst he
    rcases dist with _ | ⟨d, ds⟩
    · simp at hd
    · simp only [List.head?_cons, Option.some.injEq] at hd
      subst hd
      rcases hAa : A.alignment with _ | ⟨xa, ya⟩ <;>
      rcases hBa : B.alignment with _ | ⟨xb, yb⟩ <;>
      rcases gaps with _ | ⟨g, gs2⟩ <;>
      simp only [List.getD_cons_zero, List.getD_nil] at hg <;>
      simp [resizeDynamicAlloc, dynamicTracking, trackDynamic, hreq, hc1, hlt, hpos, htot,
        hres, allocateDynamic, alignDynamic, advance, applyDist, add_assoc, hAa, hBa, hg,
        hsum]
  · have heq : r = W / 2 := by omega
    have hsum2 : W / 2 = W - r := by omega
    rcases hAa : A.alignment with _ | ⟨xa, ya⟩ <;>
    rcases hBa : B.alignment with _ | ⟨xb, yb⟩ <;>
    rcases gs with _ | ⟨g, gs2⟩ <;>
    simp only [List.getD_cons_zero, List.getD_nil] at hgap <;>
    simp [resizeDynamicAlloc, dynamicTracking, trackDynamic, hreq, hc1, hlt, heq,
      allocateDynamic, alignDynamic, advance, applyDist, add_assoc, hAa, hBa, hgap] <;>
    omega

/-- The example of C2: with `W = 20` and `r = 5`, `A` gets width 5 at x = 0 and
`B` gets width 15 at x = 5, here with the allocator of §4.1 and a distributor
that hands the extra to the expanding child. -/
theorem Resize_fixed_then_expanding_witness :
    (Resize SolveSpaceAlloc extraToExpanding
        (expandBox ⟨0, 0⟩ 20 1 [1, 2] (plainWidget 1 5 (-1)) (plainWidget 2 (-1) (-1)) true)).map
        (fun p => (p.widget, p.origin, p.alloc))
      = [(1, ⟨0, 0⟩, ⟨5, 1⟩), (2, ⟨5, 0⟩, ⟨15, 1⟩)] :=
  Resize_fixed_then_expanding SolveSpaceAlloc extraToExpanding ⟨0, 0⟩ 20 1 5 [1, 2]
    (plainWidget 1 5 (-1)) (plainWidget 2 (-1) (-1)) true rfl rfl rfl (by decide) (by decide)
    (by decide) (by decide) (by decide) (fun _ => by decide)

/-! ## Viewport adjustments -/

theorem ClampI_eq_max_min (v upper : Int) (hu : 0 ≤ upper) :
    ClampI v 0 upper = max 0 (min v upper) := by
  unfold ClampI
  split_ifs <;> omega

theorem ClampI_idem (v upper : Int) (hu : 0 ≤ upper) :
    ClampI (ClampI v 0 upper) 0 upper = ClampI v 0 upper := by
  unfold ClampI
  split_ifs <;> omega

theorem reconfigure_some (a : Adjustment) (v lo up st pg ps : Int)
    (hv : ClampI v lo up = v) :
    (reconfigure (some a) [v, lo, up, st, pg, ps]).1 = some ⟨v, lo, up, st, pg, ps⟩ := by
  unfold reconfigure
  by_cases h : EqInts a.Settings [v, lo, up, st, pg, ps] = true
  · obtain ⟨a1, a2, a3, a4, a5, a6⟩ := a
    simp [EqInts, Adjustment.Settings] at h
    simp [EqInts, Adjustment.Settings, h]
  · simp [h, Adjustment.Configure, hv]

theorem reconfigure_none (b : List Int) : (reconfigure none b).1 = none := rfl

/-- C3.  In the resize pass of a scrolled viewport with a non-zero allocation,
on an axis where the child's requested size (a set request, not the -1 of an
unset one) is at least the allocation, the axis's adjustment ends with lower 0,
upper = requested size - allocation (+1 when the cross-axis scrollbar is
reported as shown), step increment 1, page increment allocation/2 (Go integer
division), page size = allocation and value = the previous value clamped into
[0, upper]; the child is placed at container origin - value on that axis and is
allocated its requested size.  The first half is the horizontal axis, the
second the vertical axis. -/
theorem resizeViewport_scrollable (s : CScrolledViewport) (child : Widget)
    (hchild : s.child = some child) (hW : s.alloc.W ≠ 0) (hH : s.alloc.H ≠ 0) :
    (s.alloc.W ≤ child.reqW → 0 ≤ child.reqW →
      (∀ a, s.hAdjustment = some a →
        s.resizeViewport.hAdjustment
            = some ⟨max 0 (min a.value
                  (child.reqW - s.alloc.W + (if s.VerticalShowByPolicy then 1 else 0))),
                0, child.reqW - s.alloc.W + (if s.VerticalShowByPolicy then 1 else 0),
                1, Int.tdiv s.alloc.W 2, s.alloc.W⟩
        ∧ s.resizeViewport.childOrigin.map (fun p => p.X)
            = some (s.origin.X - max 0 (min a.value
                (child.reqW - s.alloc.W + (if s.VerticalShowByPolicy then 1 else 0)))))
      ∧ (s.hAdjustment = none →
          s.resizeViewport.childOrigin.map (fun p => p.X) = some s.origin.X)
      ∧ s.resizeViewport.childAlloc.map (fun r => r.W) = some child.reqW)
    ∧ (s.alloc.H ≤ child.reqH → 0 ≤ child.reqH →
      (∀ a, s.vAdjustment = some a →
        s.resizeViewport.vAdjustment
            = some ⟨max 0 (min a.value
                  (child.reqH - s.alloc.H + (if s.HorizontalShowByPolicy then 1 else 0))),
                0, child.reqH - s.alloc.H + (if s.HorizontalShowByPolicy then 1 else 0),
                1, Int.tdiv s.alloc.H 2, s.alloc.H⟩
        ∧ s.resizeViewport.childOrigin.map (fun p => p.Y)
            = some (s.origin.Y - max 0 (min a.value
                (child.reqH - s.alloc.H + (if s.HorizontalShowByPolicy then 1 else 0)))))
      ∧ (s.vAdjustment = none →
          s.resizeViewport.childOrigin.map (fun p => p.Y) = some s.origin.Y)
      ∧ s.resizeViewport.childAlloc.map (fun r => r.H) = some child.reqH) := by
  have hz : ¬ (s.alloc.W = 0 ∨ s.alloc.H = 0) := by tauto
  constructor
  · intro hge h0
    have hreq : ¬ child.reqW ≤ -1 := by omega
    have hup : 0 ≤ child.reqW - s.alloc.W + (if s.VerticalShowByPolicy then 1 else 0) := by
      split <;> omega
    refine ⟨?_, ?_, ?_⟩
    · intro a ha
      have hcl := ClampI_eq_max_min a.value _ hup
      have hid := ClampI_idem a.value _ hup
      constructor
      · simp only [CScrolledViewport.resizeViewport, CScrolledViewport.makeAdjustments, hz,
          hchild, if_false, hreq, hSettings, ha, ge_iff_le, hge, if_true, Adjustment.GetValue]
        rw [reconfigure_some a _ _ _ _ _ _ hid, hcl]
      · simp [CScrolledViewport.resizeViewport, CScrolledViewport.makeAdjustments, hz,
          hchild, hreq, hSettings, ha, hge, Adjustment.GetValue, hcl]
    · intro ha
      simp [CScrolledViewport.resizeViewport, CScrolledViewport.makeAdjustments, hz,
        hchild, hreq, hSettings, ha, hge]
    · simp [CScrolledViewport.resizeViewport, CScrolledViewport.makeAdjustments, hz,
        hchild, hreq]
  · intro hge h0
    have hreq : ¬ child.reqH ≤ -1 := by omega
    have hup : 0 ≤ child.reqH - s.alloc.H + (if s.HorizontalShowByPolicy then 1 else 0) := by
      split <;> omega
    refine ⟨?_, ?_, ?_⟩
    · intro a ha
      have hcl := ClampI_eq_max_min a.value _ hup
      have hid := ClampI_idem a.value _ hup
      constructor
      · simp only [CScrolledViewport.resizeViewport, CScrolledViewport.makeAdjustments, hz,
          hchild, if_false, hreq, vSettings, ha, ge_iff_le, hge, if_true, Adjustment.GetValue]
        rw [reconfigure_some a _ _ _ _ _ _ hid, hcl]
      · simp [CScrolledViewport.resizeViewport, CScrolledViewport.makeAdjustments, hz,
          hchild, hreq, vSettings, ha, hge, Adjustment.GetValue, hcl]
    · intro ha
      simp [CScrolledViewport.resizeViewport, CScrolledViewport.makeAdjustments, hz,
        hchild, hreq, vSettings, ha, hge]
    · simp [CScrolledViewport.resizeViewport, CScrolledViewport.makeAdjustments, hz,
        hchild, hreq]

/-- The example of C3: a child of 100x50 in an allocation of 40x20 with both
scrollbars reported as shown gets horizontal upper 61 and vertical upper 31, and
the stale value 500 of each adjustment becomes the upper bound. -/
theorem resizeViewport_scrollable_witness :
    scrolledViewport100x50.resizeViewport.hAdjustment = some ⟨61, 0, 61, 1, 20, 40⟩
    ∧ scrolledViewport100x50.resizeViewport.vAdjustment = some ⟨31, 0, 31, 1, 10, 20⟩ :=
  ⟨((((resizeViewport_scrollable scrolledViewport100x50 (plainWidget 1 100 50) rfl
        (by decide) (by decide)).1 (by decide) (by decide)).1 _ rfl).1).trans (by decide),
   ((((resizeViewport_scrollable scrolledViewport100x50 (plainWidget 1 100 50) rfl
        (by decide) (by decide)).2 (by decide) (by decide)).1 _ rfl).1).trans (by decide)⟩

/-- The scrolled-viewport half of C4: with a non-zero allocation and a child
whose non-negative requested width is smaller than the allocated width, the
resize pass leaves the horizontal adjustment with all six settings 0; likewise
for the height and the vertical adjustment. -/
theorem resizeViewport_collapsed (s : CScrolledViewport) (child : Widget)
    (hchild : s.child = some child) (hW : s.alloc.W ≠ 0) (hH : s.alloc.H ≠ 0) :
    (0 ≤ child.reqW → child.reqW < s.alloc.W → ∀ a, s.hAdjustment = some a →
        s.resizeViewport.hAdjustment = some ⟨0, 0, 0, 0, 0, 0⟩)
    ∧ (0 ≤ child.reqH → child.reqH < s.alloc.H → ∀ a, s.vAdjustment = some a →
        s.resizeViewport.vAdjustment = some ⟨0, 0, 0, 0, 0, 0⟩) := by
  have hz : ¬ (s.alloc.W = 0 ∨ s.alloc.H = 0) := by tauto
  constructor
  · intro h0 hlt a ha
    have hreq : ¬ child.reqW ≤ -1 := by omega
    have hge : ¬ s.alloc.W ≤ child.reqW := by omega
    simp only [CScrolledViewport.resizeViewport, CScrolledViewport.makeAdjustments, hz,
      hchild, if_false, hreq, hSettings, ha, ge_iff_le, hge]
    exact reconfigure_some a 0 0 0 0 0 0 (by decide)
  · intro h0 hlt a ha
    have hreq : ¬ child.reqH ≤ -1 := by omega
    have hge : ¬ s.alloc.H ≤ child.reqH := by omega
    simp only [CScrolledViewport.resizeViewport, CScrolledViewport.makeAdjustments, hz,
      hchild, if_false, hreq, vSettings, ha, ge_iff_le, hge]
    exact reconfigure_some a 0 0 0 0 0 0 (by decide)

/-- C4, the defect.  `CViewport.Resize` with allocation 40x20 and a child
requesting 10x5 (smaller than the allocation on both axes) leaves both
adjustments exactly as they were, here with value 3 and upper 60, and value 2
and upper 30, instead of resetting all six settings to 0. -/
theorem CViewport_Resize_keeps_stale_adjustment :
    staleViewport.Resize.hAdjustment = some ⟨3, 0, 60, 1, 20, 40⟩
    ∧ staleViewport.Resize.vAdjustment = some ⟨2, 0, 30, 1, 10, 20⟩
    ∧ staleViewport.Resize.hAdjustment ≠ some ⟨0, 0, 0, 0, 0, 0⟩ := by
  decide

/-- Whenever the child is smaller than the allocation on the horizontal axis,
`CViewport.Resize` returns the horizontal adjustment it was given. -/
theorem CViewport_Resize_untouched (v : CViewport) (child : Widget) (o : Point2I)
    (hchild : v.child = some (child, o)) (hW : v.alloc.W ≠ 0) (hH : v.alloc.H ≠ 0)
    (h0 : 0 ≤ child.reqW) (hlt : child.reqW < v.alloc.W) :
    v.Resize.hAdjustment = v.hAdjustment := by
  have hz : ¬ (v.alloc.W = 0 ∨ v.alloc.H = 0) := by tauto
  have hreq : ¬ child.reqW ≤ -1 := by omega
  have hge : ¬ v.alloc.W ≤ child.reqW := by omega
  simp [CViewport.Resize, hz, hchild, hreq, hge]

/-! ## Canvas origins are relative to the box -/

theorem advance_Add (isVertical : Bool) (gaps : List Int) (idx : Nat) (t : Track)
    (p : Point2I) (dx dy : Int) :
    advance isVertical gaps idx t (p.Add dx dy) = (advance isVertical gaps idx t p).Add dx dy := by
  cases isVertical <;> by_cases h : gaps.length > idx <;>
    simp [advance, Point2I.Add, h] <;> ring

theorem allocateHomogeneous_moveBy (isVertical : Bool) (gaps : List Int) (canvases : List Nat)
    (origin : Point2I) (dx dy : Int) (L : List (cBoxChild × Track)) (idx : Nat)
    (np : Point2I) :
    allocateHomogeneous isVertical gaps canvases (origin.Add dx dy) idx (np.Add dx dy) L
      = (allocateHomogeneous isVertical gaps canvases origin idx np L).map
          (fun p => p.moveBy dx dy) := by
  induction L generalizing idx np with
  | nil => rfl
  | cons e rest ih =>
    obtain ⟨child, t⟩ := e
    have hcomm : (np.Add dx dy).Add t.x t.y = (np.Add t.x t.y).Add dx dy := by
      simp [Point2I.Add]; constructor <;> ring
    simp only [allocateHomogeneous, List.map_cons, hcomm, advance_Add, ih]
    congr 1
    simp [Placement.moveBy, Point2I.Add]

theorem allocateDynamic_moveBy (isVertical : Bool) (gaps : List Int) (canvases : List Nat)
    (origin : Point2I) (dx dy : Int) (L : List (cBoxChild × Track)) (idx : Nat)
    (np : Point2I) :
    allocateDynamic isVertical gaps canvases (origin.Add dx dy) idx (np.Add dx dy) L
      = (allocateDynamic isVertical gaps canvases origin idx np L).map
          (fun p => p.moveBy dx dy) := by
  induction L generalizing idx np with
  | nil => rfl
  | cons e rest ih =>
    obtain ⟨child, t⟩ := e
    have hcomm : ({ X := (np.Add dx dy).X + t.x, Y := (np.Add dx dy).Y + t.y } : Point2I)
        = ({ X := np.X + t.x, Y := np.Y + t.y } : Point2I).Add dx dy := by
      simp [Point2I.Add]; constructor <;> ring
    simp only [allocateDynamic, List.map_cons, hcomm, advance_Add, ih]
    congr 1
    by_cases hm : child.widget.objectID ∈ canvases
    · simp only [Placement.moveBy, Point2I.Add, hm, if_true]
      congr 4 <;> ring
    · simp [Placement.moveBy, Point2I.Add, hm]

theorem allocateHomogeneous_canvas (isVertical : Bool) (gaps : List Int) (canvases : List Nat)
    (origin : Point2I) (L : List (cBoxChild × Track)) (idx : Nat) (np : Point2I) :
    ∀ p ∈ allocateHomogeneous isVertical gaps canvases origin idx np L, ∀ c,
      p.canvas = some c → c.1 = ⟨p.origin.X - origin.X, p.origin.Y - origin.Y⟩ := by
  induction L generalizing idx np with
  | nil => intro p hp; simp [allocateHomogeneous] at hp
  | cons e rest ih =>
    obtain ⟨child, t⟩ := e
    intro p hp c hc
    simp only [allocateHomogeneous, List.mem_cons] at hp
    rcases hp with rfl | hp
    · by_cases hm : child.widget.objectID ∈ canvases
      · simp [hm] at hc
        rw [← hc]
      · simp [hm] at hc
    · exact ih _ _ p hp c hc

theorem allocateDynamic_canvas (isVertical : Bool) (gaps : List Int) (canvases : List Nat)
    (origin : Point2I) (L : List (cBoxChild × Track)) (idx : Nat) (np : Point2I) :
    ∀ p ∈ allocateDynamic isVertical gaps canvases origin idx np L, ∀ c,
      p.canvas = some c → c.1 = ⟨p.origin.X - origin.X, p.origin.Y - origin.Y⟩ := by
  induction L generalizing idx np with
  | nil => intro p hp; simp [allocateDynamic] at hp
  | cons e rest ih =>
    obtain ⟨child, t⟩ := e
    intro p hp c hc
    simp only [allocateDynamic, List.mem_cons] at hp
    rcases hp with rfl | hp
    · by_cases hm : child.widget.objectID ∈ canvases
      · simp [hm] at hc
        rw [← hc]
      · simp [hm] at hc
    · exact ih _ _ p hp c hc

/-- C6.  After `Resize`, in both layout modes, the origin given to each child's
canvas is the child's origin minus the box's origin; and `Resize` on the same
box with its origin moved by any `(dx, dy)` gives every child the same
allocation and the same canvas origin and size, and moves every child's
absolute origin by exactly `(dx, dy)`. -/
theorem Resize_canvas_relative (solve : Int → Int → Int → Int × List Int)
    (distribute : Int → Int → Int → Int → Int → DistResult) (b : CBox) :
    (∀ p ∈ Resize solve distribute b, ∀ c, p.canvas = some c →
        c.1 = ⟨p.origin.X - b.origin.X, p.origin.Y - b.origin.Y⟩)
    ∧ ∀ dx dy : Int,
        Resize solve distribute (b.moveBy dx dy)
          = (Resize solve distribute b).map (fun p => p.moveBy dx dy) := by
  constructor
  · intro p hp c hc
    unfold Resize at hp
    by_cases h0 : ((getBoxChildren b).length : Int) = 0
    · simp [h0] at hp
    · by_cases hh : b.homogeneous = true
      · simp only [h0, hh, if_false, if_true, resizeHomogeneous] at hp
        exact allocateHomogeneous_canvas _ _ _ _ _ _ _ p hp c hc
      · simp only [h0, hh, if_false, resizeDynamicAlloc] at hp
        exact allocateDynamic_canvas _ _ _ _ _ _ _ p hp c hc
  · intro dx dy
    have hk : getBoxChildren (b.moveBy dx dy) = getBoxChildren b := rfl
    unfold Resize
    simp only [hk]
    by_cases h0 : ((getBoxChildren b).length : Int) = 0
    · simp [h0]
    · simp only [h0, if_false]
      by_cases hh : b.homogeneous = true
      · have hh2 : (b.moveBy dx dy).homogeneous = true := hh
        simp only [hh, hh2, if_true, resizeHomogeneous]
        exact allocateHomogeneous_moveBy _ _ _ _ _ _ _ _ _
      · have hh2 : ¬ (b.moveBy dx dy).homogeneous = true := hh
        simp only [hh, hh2, if_false, resizeDynamicAlloc]
        exact allocateDynamic_moveBy _ _ _ _ _ _ _ _ _

/-! ## Defects of the box layout -/

/-- C7, the defect.  In a homogeneous horizontal box of width 30, a child with
fill = false and no size request set is allocated width -1, whatever
non-negative increment the space allocator returns: the guard
`req.W <= -1 && req.W > increment` of `resizeHomogeneous` never fires, where
`resizeDynamicAlloc` tests `req.W <= -1 || req.W > increment`. -/
theorem Resize_homogeneous_negative_width (solve : Int → Int → Int → Int × List Int)
    (distribute : Int → Int → Int → Int → Int → DistResult)
    (hinc : 0 ≤ (solve 1 30 0).1) :
    (Resize solve distribute unsetRequestBox).map (fun p => p.alloc) = [⟨-1, 1⟩] := by
  have h1 : ¬ (solve 1 30 0).1 < -1 := by omega
  have h2 : (-1 : Int) < (solve 1 30 0).1 := by omega
  simp [Resize, unsetRequestBox, getBoxChildren, plainWidget, resizeHomogeneous,
    trackHomogeneous, alignHomogeneous, allocateHomogeneous, h1, h2]

/-- The defect of C7 with the space allocator of §4.1, which returns the
increment 30 for one child in 30 cells. -/
theorem Resize_homogeneous_negative_width_witness :
    (0 : Int) ≤ (SolveSpaceAlloc 1 30 0).1
    ∧ (Resize SolveSpaceAlloc Distribute unsetRequestBox).map (fun p => p.alloc) = [⟨-1, 1⟩] :=
  ⟨by decide, Resize_homogeneous_negative_width SolveSpaceAlloc Distribute (by decide)⟩

/-- C9, the defect.  In a box of width 20 whose only children are two End-packed
children, `Resize` (both layout modes) places the first End-packed child at the
leading edge, x = 0 with its far edge at 10 and not at the trailing edge 20, and
the later End-packed child after it at x = 10, farther from the leading
edge. -/
theorem Resize_end_packed_from_leading_edge :
    (Resize SolveSpaceAlloc Distribute (endPackedBox true)).map
        (fun p => (p.widget, p.origin.X, p.alloc.W)) = [(1, 0, 10), (2, 10, 10)]
    ∧ (Resize SolveSpaceAlloc Distribute (endPackedBox false)).map
        (fun p => (p.widget, p.origin.X, p.alloc.W)) = [(1, 0, 10), (2, 10, 10)] := by
  decide

theorem getBoxChildren_withPadding (b : CBox) (f : cBoxChild → Int) :
    getBoxChildren (b.withPadding f) = (getBoxChildren b).map (setPadding f) := by
  simp only [getBoxChildren, CBox.withPadding, List.filter_map, List.map_append]
  rfl

theorem allocateHomogeneous_setPadding (f : cBoxChild → Int) (isVertical : Bool)
    (gaps : List Int) (canvases : List Nat) (origin : Point2I) (L : List (cBoxChild × Track))
    (idx : Nat) (np : Point2I) :
    allocateHomogeneous isVertical gaps canvases origin idx np
        (L.map fun e => (setPadding f e.1, e.2))
      = allocateHomogeneous isVertical gaps canvases origin idx np L := by
  induction L generalizing idx np with
  | nil => rfl
  | cons e rest ih =>
    obtain ⟨child, t⟩ := e
    simp only [List.map_cons, allocateHomogeneous, ih]
    rfl

theorem allocateDynamic_setPadding (f : cBoxChild → Int) (isVertical : Bool)
    (gaps : List Int) (canvases : List Nat) (origin : Point2I) (L : List (cBoxChild × Track))
    (idx : Nat) (np : Point2I) :
    allocateDynamic isVertical gaps canvases origin idx np
        (L.map fun e => (setPadding f e.1, e.2))
      = allocateDynamic isVertical gaps canvases origin idx np L := by
  induction L generalizing idx np with
  | nil => rfl
  | cons e rest ih =>
    obtain ⟨child, t⟩ := e
    simp only [List.map_cons, allocateDynamic, ih]
    rfl

theorem applyDist_setPadding (f : cBoxChild → Int) (isVertical : Bool) (dist : List Int)
    (L : List (cBoxChild × Track)) (di : Nat) :
    applyDist isVertical dist di (L.map fun e => (setPadding f e.1, e.2))
      = (applyDist isVertical dist di L).map fun e => (setPadding f e.1, e.2) := by
  induction L generalizing di with
  | nil => rfl
  | cons e rest ih =>
    obtain ⟨child, t⟩ := e
    have he : (setPadding f child).expand = child.expand := rfl
    have hf : (setPadding f child).fill = child.fill := rfl
    simp only [List.map_cons, applyDist, he, hf]
    by_cases hx : child.expand = true
    · by_cases hd : di < dist.length
      · simp [hx, hd, ih]
      · simp [hx, hd, ih]
    · simp [hx, ih]

theorem dynamicTracking_setPadding (f : cBoxChild → Int)
    (distribute : Int → Int → Int → Int → Int → DistResult) (isVertical : Bool)
    (gaps : List Int) (increment spacing numChildren : Int) (alloc : Rectangle)
    (children : List cBoxChild) :
    dynamicTracking distribute isVertical gaps increment spacing numChildren alloc
        (children.map (setPadding f))
      = ((dynamicTracking distribute isVertical gaps increment spacing numChildren alloc
            children).1.map (fun e => (setPadding f e.1, e.2)),
         (dynamicTracking distribute isVertical gaps increment spacing numChildren alloc
            children).2) := by
  have hfilter : ((children.map (setPadding f)).filter fun child => child.expand).length
      = (children.filter fun child => child.expand).length := by
    rw [List.filter_map, List.length_map]
    rfl
  have htrack : ∀ c, trackDynamic isVertical increment alloc (setPadding f c)
      = trackDynamic isVertical increment alloc c := fun _ => rfl
  have hpre : ∀ T : cBoxChild → Track,
      List.map (fun x => (setPadding f x, T x)) children
        = (List.map (fun x => (x, T x)) children).map (fun e => (setPadding f e.1, e.2)) := by
    intro T
    simp [List.map_map, Function.comp_def]
  simp only [dynamicTracking, List.map_map, hfilter, Function.comp_def, htrack]
  split_ifs <;> simp only [hpre, applyDist_setPadding]

/-- C10, the defect.  `Resize` never reads the padding a child was packed with:
replacing the paddings of the children of any box by any other paddings leaves
every placement unchanged; so the first Start-packed child of a box of width 30
packed with padding 2 is placed at the box origin x = 0 and not at x = 2, and
its neighbour directly after it at x = 15, in both layout modes. -/
theorem Resize_ignores_padding :
    (∀ (solve : Int → Int → Int → Int × List Int)
        (distribute : Int → Int → Int → Int → Int → DistResult) (b : CBox)
        (f : cBoxChild → Int),
        Resize solve distribute (b.withPadding f) = Resize solve distribute b)
    ∧ (Resize SolveSpaceAlloc Distribute (paddedBox true 2)).map
        (fun q => (q.widget, q.origin.X, q.alloc.W)) = [(1, 0, 15), (2, 15, 15)]
    ∧ (Resize SolveSpaceAlloc Distribute (paddedBox false 2)).map
        (fun q => (q.widget, q.origin.X, q.alloc.W)) = [(1, 0, 15), (2, 15, 15)] := by
  refine ⟨?_, by decide, by decide⟩
  intro solve distribute b f
  have hb1 : (b.withPadding f).spacing = b.spacing := rfl
  have hb2 : (b.withPadding f).origin = b.origin := rfl
  have hb3 : (b.withPadding f).alloc = b.alloc := rfl
  have hb4 : (b.withPadding f).orientation = b.orientation := rfl
  have hb5 : (b.withPadding f).homogeneous = b.homogeneous := rfl
  have hb6 : (b.withPadding f).canvases = b.canvases := rfl
  have hH : ∀ (isVertical : Bool) (increment : Int),
      ((getBoxChildren b).map (setPadding f)).map (fun child =>
          (child, alignHomogeneous isVertical child
            (trackHomogeneous isVertical increment b.alloc child)))
        = ((getBoxChildren b).map (fun child =>
          (child, alignHomogeneous isVertical child
            (trackHomogeneous isVertical increment b.alloc child)))).map
            (fun e => (setPadding f e.1, e.2)) := by
    intro isVertical increment
    simp only [List.map_map, Function.comp_def]
    rfl
  have hD : ∀ (isVertical : Bool) (L : List (cBoxChild × Track)),
      (L.map fun e => (setPadding f e.1, e.2)).map
          (fun e => (e.1, alignDynamic isVertical e.1 e.2))
        = (L.map fun e => (e.1, alignDynamic isVertical e.1 e.2)).map
            (fun e => (setPadding f e.1, e.2)) := by
    intro isVertical L
    simp only [List.map_map, Function.comp_def]
    rfl
  simp only [Resize, getBoxChildren_withPadding, List.length_map, hb1, hb2, hb3, hb4, hb5, hb6,
    resizeHomogeneous, resizeDynamicAlloc, dynamicTracking_setPadding, hH, hD,
    allocateHomogeneous_setPadding, allocateDynamic_setPadding]

/-! ## Children do not overlap on the packing axis -/

theorem floatMulToInt_bounds (delta : Int) (a : ℚ) (hd : 0 ≤ delta) (h0 : 0 ≤ a)
    (h1 : a ≤ 1) : 0 ≤ floatMulToInt delta a ∧ floatMulToInt delta a ≤ delta := by
  have hnum : 0 ≤ a.num := Rat.num_nonneg.mpr h0
  have hden : (0 : Int) < a.den := by exact_mod_cast a.den_pos
  have hle : a.num ≤ a.den := by
    have h2 : (a.num : ℚ) / (a.den : ℚ) ≤ 1 := by rw [Rat.num_div_den]; exact h1
    have h3 : (0 : ℚ) < (a.den : ℚ) := by exact_mod_cast a.den_pos
    have h4 : (a.num : ℚ) ≤ (a.den : ℚ) := (div_le_one h3).mp h2
    exact_mod_cast h4
  have hprod : 0 ≤ delta * a.num := mul_nonneg hd hnum
  unfold floatMulToInt
  rw [Int.tdiv_eq_ediv hprod (le_of_lt hden)]
  constructor
  · exact Int.ediv_nonneg hprod (le_of_lt hden)
  · have h5 : delta * a.num ≤ delta * a.den := mul_le_mul_of_nonneg_left hle hd
    calc delta * a.num / a.den ≤ delta * a.den / a.den := Int.ediv_le_ediv hden h5
      _ = delta := Int.mul_ediv_cancel _ (ne_of_gt hden)

theorem gap_nonneg (gaps : List Int) (hg : ∀ g ∈ gaps, 0 ≤ g) (idx : Nat) :
    0 ≤ (if gaps.length > idx then gaps.getD idx 0 else 0) := by
  split
  · rename_i h
    have h2 : gaps.getD idx 0 = gaps[idx] := by
      simp [List.getD_eq_getElem?_getD, List.getElem?_eq_getElem h]
    rw [h2]
    exact hg _ (List.getElem_mem _)
  · exact le_refl 0

theorem mainPos_shiftMain (isVertical : Bool) (p : Point2I) (d : Int) :
    mainPos isVertical (shiftMain isVertical p d) = mainPos isVertical p + d := by
  cases isVertical <;> simp [mainPos, shiftMain]

theorem mainPos_Add (isVertical : Bool) (p : Point2I) (t : Track) :
    mainPos isVertical (p.Add t.x t.y) = mainPos isVertical p + mainPad isVertical t := by
  cases isVertical <;> simp [mainPos, mainPad, Point2I.Add]

theorem allocateHomogeneous_ordered (isVertical : Bool) (gaps : List Int)
    (canvases : List Nat) (origin : Point2I) (hg : ∀ g ∈ gaps, 0 ≤ g)
    (L : List (cBoxChild × Track))
    (hL : ∀ e ∈ L, 0 ≤ mainPad isVertical e.2 ∧ 0 ≤ e.2.overflow)
    (idx : Nat) (np : Point2I) (i : Nat) (p q : Placement)
    (hp : (allocateHomogeneous isVertical gaps canvases origin idx np L)[i]? = some p)
    (hq : (allocateHomogeneous isVertical gaps canvases origin idx np L)[i + 1]? = some q) :
    mainPos isVertical p.origin + mainSize isVertical p.alloc ≤ mainPos isVertical q.origin := by
  induction L generalizing idx np i with
  | nil => simp [allocateHomogeneous] at hp
  | cons e rest ih =>
    obtain ⟨child, t⟩ := e
    have hrest : ∀ e ∈ rest, 0 ≤ mainPad isVertical e.2 ∧ 0 ≤ e.2.overflow :=
      fun e he => hL e (List.mem_cons_of_mem _ he)
    cases i with
    | zero =>
      cases rest with
      | nil => simp [allocateHomogeneous] at hq
      | cons e2 rest2 =>
        obtain ⟨child2, t2⟩ := e2
        have ht := (hL (child, t) (List.mem_cons_self _ _)).2
        have ht2 := (hL (child2, t2) (by simp)).1
        have hgap := gap_nonneg gaps hg idx
        simp only [allocateHomogeneous, List.getElem?_cons_zero, List.getElem?_cons_succ,
          Option.some.injEq] at hp hq
        subst hp
        subst hq
        simp only [mainPos_Add, advance_eq_shiftMain, mainPos_shiftMain]
        simp only at ht ht2
        have hsz : mainSize isVertical ⟨t.w, t.h⟩ = if isVertical then t.h else t.w := by
          cases isVertical <;> rfl
        rw [hsz]
        omega
    | succ i =>
      simp only [allocateHomogeneous, List.getElem?_cons_succ] at hp hq
      exact ih hrest _ _ i hp hq

theorem allocateDynamic_ordered (isVertical : Bool) (gaps : List Int)
    (canvases : List Nat) (origin : Point2I) (hg : ∀ g ∈ gaps, 0 ≤ g)
    (L : List (cBoxChild × Track))
    (hL : ∀ e ∈ L, 0 ≤ mainPad isVertical e.2 ∧ 0 ≤ e.2.overflow)
    (idx : Nat) (np : Point2I) (i : Nat) (p q : Placement)
    (hp : (allocateDynamic isVertical gaps canvases origin idx np L)[i]? = some p)
    (hq : (allocateDynamic isVertical gaps canvases origin idx np L)[i + 1]? = some q) :
    mainPos isVertical p.origin + mainSize isVertical p.alloc ≤ mainPos isVertical q.origin := by
  induction L generalizing idx np i with
  | nil => simp [allocateDynamic] at hp
  | cons e rest ih =>
    obtain ⟨child, t⟩ := e
    have hrest : ∀ e ∈ rest, 0 ≤ mainPad isVertical e.2 ∧ 0 ≤ e.2.overflow :=
      fun e he => hL e (List.mem_cons_of_mem _ he)
    cases i with
    | zero =>
      cases rest with
      | nil => simp [allocateDynamic] at hq
      | cons e2 rest2 =>
        obtain ⟨child2, t2⟩ := e2
        have ht := (hL (child, t) (List.mem_cons_self _ _)).2
        have ht2 := (hL (child2, t2) (by simp)).1
        have hgap := gap_nonneg gaps hg idx
        have hadd : ∀ (r : Point2I) (u : Track),
            ({ X := r.X + u.x, Y := r.Y + u.y } : Point2I) = r.Add u.x u.y := fun _ _ => rfl
        simp only [allocateDynamic, List.getElem?_cons_zero, List.getElem?_cons_succ,
          Option.some.injEq, hadd] at hp hq
        subst hp
        subst hq
        simp only [mainPos_Add, advance_eq_shiftMain, mainPos_shiftMain]
        simp only at ht ht2
        have hsz : mainSize isVertical ⟨t.w, t.h⟩ = if isVertical then t.h else t.w := by
          cases isVertical <;> rfl
        rw [hsz]
        omega
    | succ i =>
      simp only [allocateDynamic, List.getElem?_cons_succ] at hp hq
      exact ih hrest _ _ i hp hq

theorem alignHomogeneous_nonneg (isVertical : Bool) (child : cBoxChild) (t : Track)
    (hx : t.x = 0) (hy : t.y = 0) (ho : t.overflow = 0)
    (ha : ∀ a, child.widget.alignment = some a → (0 ≤ a.1 ∧ a.1 ≤ 1) ∧ (0 ≤ a.2 ∧ a.2 ≤ 1)) :
    0 ≤ mainPad isVertical (alignHomogeneous isVertical child t)
      ∧ 0 ≤ (alignHomogeneous isVertical child t).overflow := by
  cases isVertical
  · by_cases hlt : t.w < t.aw
    · rcases hal : child.widget.alignment with _ | ⟨xAlign, yAlign⟩
      · simp only [alignHomogeneous, mainPad, hlt, hal, hx, ho, Bool.false_eq_true, if_false,
          if_true]
        omega
      · have hb := floatMulToInt_bounds (t.aw - t.w) xAlign (by omega) (ha _ hal).1.1
          (ha _ hal).1.2
        simp only [alignHomogeneous, mainPad, hlt, hal, hx, ho, Bool.false_eq_true, if_false,
          if_true]
        omega
    · simp [alignHomogeneous, mainPad, hlt, hx, ho]
  · by_cases hlt : t.h < t.ah
    · rcases hal : child.widget.alignment with _ | ⟨xAlign, yAlign⟩
      · simp only [alignHomogeneous, mainPad, hlt, hal, hy, ho, if_true]
        omega
      · have hb := floatMulToInt_bounds (t.ah - t.h) yAlign (by omega) (ha _ hal).2.1
          (ha _ hal).2.2
        simp only [alignHomogeneous, mainPad, hlt, hal, hy, ho, if_true]
        omega
    · simp [alignHomogeneous, mainPad, hlt, hy, ho]

theorem alignDynamic_nonneg (isVertical : Bool) (child : cBoxChild) (t : Track)
    (hx : t.x = 0) (hy : t.y = 0) (ho : t.overflow = 0)
    (ha : ∀ a, child.widget.alignment = some a → (0 ≤ a.1 ∧ a.1 ≤ 1) ∧ (0 ≤ a.2 ∧ a.2 ≤ 1)) :
    0 ≤ mainPad isVertical (alignDynamic isVertical child t)
      ∧ 0 ≤ (alignDynamic isVertical child t).overflow := by
  rcases hal : child.widget.alignment with _ | ⟨xAlign, yAlign⟩
  · cases isVertical <;> simp [alignDynamic, mainPad, hal, hx, hy, ho]
  · cases isVertical
    · by_cases hlt : t.w < t.aw
      · have hb := floatMulToInt_bounds (t.aw - t.w) xAlign (by omega) (ha _ hal).1.1
          (ha _ hal).1.2
        simp only [alignDynamic, mainPad, hlt, hal, hx, ho, Bool.false_eq_true, if_false,
          if_true]
        omega
      · simp [alignDynamic, mainPad, hlt, hal, hx, ho]
    · by_cases hlt : t.h < t.ah
      · have hb := floatMulToInt_bounds (t.ah - t.h) yAlign (by omega) (ha _ hal).2.1
          (ha _ hal).2.2
        simp only [alignDynamic, mainPad, hlt, hal, hy, ho, if_true]
        omega
      · simp [alignDynamic, mainPad, hlt, hal, hy, ho]

theorem trackHomogeneous_zero (isVertical : Bool) (increment : Int) (alloc : Rectangle)
    (child : cBoxChild) :
    (trackHomogeneous isVertical increment alloc child).x = 0
      ∧ (trackHomogeneous isVertical increment alloc child).y = 0
      ∧ (trackHomogeneous isVertical increment alloc child).overflow = 0 := by
  unfold trackHomogeneous
  simp only
  split_ifs <;> simp

theorem trackDynamic_zero (isVertical : Bool) (increment : Int) (alloc : Rectangle)
    (child : cBoxChild) :
    (trackDynamic isVertical increment alloc child).1.x = 0
      ∧ (trackDynamic isVertical increment alloc child).1.y = 0
      ∧ (trackDynamic isVertical increment alloc child).1.overflow = 0 := by
  unfold trackDynamic
  simp only
  split_ifs <;> simp

theorem applyDist_zero (P : cBoxChild → Prop) (isVertical : Bool) (dist : List Int)
    (L : List (cBoxChild × Track)) (di : Nat)
    (hL : ∀ e ∈ L, P e.1 ∧ e.2.x = 0 ∧ e.2.y = 0 ∧ e.2.overflow = 0) :
    ∀ e ∈ applyDist isVertical dist di L,
      P e.1 ∧ e.2.x = 0 ∧ e.2.y = 0 ∧ e.2.overflow = 0 := by
  induction L generalizing di with
  | nil => intro e he; simp [applyDist] at he
  | cons e0 rest ih =>
    obtain ⟨child, t⟩ := e0
    have h0 := hL (child, t) (List.mem_cons_self _ _)
    have hrest : ∀ e ∈ rest, P e.1 ∧ e.2.x = 0 ∧ e.2.y = 0 ∧ e.2.overflow = 0 :=
      fun e he => hL e (List.mem_cons_of_mem _ he)
    intro e he
    simp only [applyDist] at he
    split_ifs at he <;> rcases List.mem_cons.mp he with rfl | hmem <;>
      first
        | exact ih _ hrest e hmem
        | exact h0

theorem dynamicTracking_zero (distribute : Int → Int → Int → Int → Int → DistResult)
    (isVertical : Bool) (gaps : List Int) (increment spacing numChildren : Int)
    (alloc : Rectangle) (children : List cBoxChild) :
    ∀ e ∈ (dynamicTracking distribute isVertical gaps increment spacing numChildren alloc
        children).1,
      e.1 ∈ children ∧ e.2.x = 0 ∧ e.2.y = 0 ∧ e.2.overflow = 0 := by
  have hbase : ∀ e ∈ (children.map fun child =>
        (child, trackDynamic isVertical increment alloc child)).map fun e => (e.1, e.2.1),
      e.1 ∈ children ∧ e.2.x = 0 ∧ e.2.y = 0 ∧ e.2.overflow = 0 := by
    intro e he
    simp only [List.map_map, List.mem_map, Function.comp_def] at he
    obtain ⟨c, hc, rfl⟩ := he
    exact ⟨hc, trackDynamic_zero isVertical increment alloc c⟩
  intro e he
  unfold dynamicTracking at he
  simp only at he
  split_ifs at he
  all_goals
    first
      | exact hbase e he
      | exact applyDist_zero (fun c => c ∈ children) _ _ _ _ hbase e he

theorem dynamicTracking_gaps (distribute : Int → Int → Int → Int → Int → DistResult)
    (isVertical : Bool) (gaps : List Int) (increment spacing numChildren : Int)
    (alloc : Rectangle) (children : List cBoxChild) (hg : ∀ g ∈ gaps, 0 ≤ g)
    (hd : ∀ total extra numExpanding : Int,
      ∀ g ∈ (distribute total extra numExpanding numChildren spacing).gaps, 0 ≤ g) :
    ∀ g ∈ (dynamicTracking distribute isVertical gaps increment spacing numChildren alloc
        children).2, 0 ≤ g := by
  intro g hmem
  unfold dynamicTracking at hmem
  simp only at hmem
  split_ifs at hmem
  all_goals
    first
      | exact hg g hmem
      | exact hd _ _ _ g hmem

/-- C8.  In both layout modes `Resize` places the children in layout order
without overlap on the packing axis: for consecutive children `i` and `i+1`,
origin(i+1) ≥ origin(i) + allocated size(i), provided the gaps returned by the
space allocator and by the distributor are non-negative and every alignment
fraction lies in [0, 1]. -/
theorem Resize_no_overlap (solve : Int → Int → Int → Int × List Int)
    (distribute : Int → Int → Int → Int → Int → DistResult) (b : CBox)
    (hgs : ∀ g ∈ (solve (getBoxChildren b).length
        (mainSize (b.orientation == Orientation.ORIENTATION_VERTICAL) b.alloc) b.spacing).2,
        0 ≤ g)
    (hgd : ∀ total extra numExpanding : Int,
      ∀ g ∈ (distribute total extra numExpanding (getBoxChildren b).length b.spacing).gaps,
        0 ≤ g)
    (hal : ∀ c ∈ b.children, ∀ a, c.widget.alignment = some a →
      (0 ≤ a.1 ∧ a.1 ≤ 1) ∧ (0 ≤ a.2 ∧ a.2 ≤ 1))
    (i : Nat) (p q : Placement)
    (hp : (Resize solve distribute b)[i]? = some p)
    (hq : (Resize solve distribute b)[i + 1]? = some q) :
    mainPos (b.orientation == Orientation.ORIENTATION_VERTICAL) p.origin
        + mainSize (b.orientation == Orientation.ORIENTATION_VERTICAL) p.alloc
      ≤ mainPos (b.orientation == Orientation.ORIENTATION_VERTICAL) q.origin := by
  have hgs2 : ∀ g ∈ (if (b.orientation == Orientation.ORIENTATION_VERTICAL) = true then
        solve (getBoxChildren b).length b.alloc.H b.spacing
      else solve (getBoxChildren b).length b.alloc.W b.spacing).2, 0 ≤ g := by
    intro g hmem
    apply hgs g
    cases hv : (b.orientation == Orientation.ORIENTATION_VERTICAL) <;>
      simpa [hv, mainSize] using hmem
  have hkid : ∀ c ∈ getBoxChildren b, ∀ a, c.widget.alignment = some a →
      (0 ≤ a.1 ∧ a.1 ≤ 1) ∧ (0 ≤ a.2 ∧ a.2 ≤ 1) :=
    fun c hc => hal c (mem_getBoxChildren b c hc).1
  unfold Resize at hp hq
  by_cases h0 : ((getBoxChildren b).length : Int) = 0
  · simp [h0] at hp
  · by_cases hh : b.homogeneous = true
    · simp only [h0, hh, if_false, if_true, resizeHomogeneous] at hp hq
      refine allocateHomogeneous_ordered _ _ _ _ hgs2 _ ?_ _ _ i p q hp hq
      intro e he
      obtain ⟨c, hc, rfl⟩ := List.mem_map.mp he
      obtain ⟨h1, h2, h3⟩ := trackHomogeneous_zero
        (b.orientation == Orientation.ORIENTATION_VERTICAL) _ b.alloc c
      exact alignHomogeneous_nonneg _ c _ h1 h2 h3 (hkid c hc)
    · simp only [h0, hh, if_false, resizeDynamicAlloc] at hp hq
      refine allocateDynamic_ordered _ _ _ _
        (dynamicTracking_gaps _ _ _ _ _ _ _ _ hgs2 hgd) _ ?_ _ _ i p q hp hq
      intro e he
      obtain ⟨e0, he0, rfl⟩ := List.mem_map.mp he
      obtain ⟨hc, h1, h2, h3⟩ := dynamicTracking_zero _ _ _ _ _ _ _ _ e0 he0
      exact alignDynamic_nonneg _ e0.1 _ h1 h2 h3 (hkid e0.1 hc)

theorem Distribute_gaps_nonneg (total extra numExpanding numChildren spacing : Int) :
    ∀ g ∈ (Distribute total extra numExpanding numChildren spacing).gaps, 0 ≤ g := by
  intro g hg
  unfold Distribute at hg
  split_ifs at hg <;> simp at hg <;> omega

/-- C8 at a concrete box: the aligned child is placed at x = 3 with width 4 and
its neighbour starts at x = 10. -/
theorem Resize_no_overlap_witness :
    (Resize SolveSpaceAlloc Distribute alignedBox)[0]?
        = some ⟨1, ⟨3, 0⟩, ⟨4, 1⟩, some (⟨3, 0⟩, ⟨4, 1⟩)⟩
    ∧ (Resize SolveSpaceAlloc Distribute alignedBox)[1]?
        = some ⟨2, ⟨10, 0⟩, ⟨10, 1⟩, some (⟨10, 0⟩, ⟨10, 1⟩)⟩
    ∧ mainPos false (⟨3, 0⟩ : Point2I) + mainSize false (⟨4, 1⟩ : Rectangle)
        ≤ mainPos false (⟨10, 0⟩ : Point2I) :=
  ⟨by decide, by decide,
    Resize_no_overlap SolveSpaceAlloc Distribute alignedBox (by decide)
      (fun total extra numExpanding => Distribute_gaps_nonneg total extra numExpanding _ _)
      (by
        intro c hc a ha
        simp only [alignedBox, List.mem_cons, List.mem_singleton, List.not_mem_nil,
          or_false] at hc
        rcases hc with rfl | rfl
        · simp only [Option.some.injEq] at ha
          subst ha
          decide
        · simp [plainWidget] at ha)
      0 ⟨1, ⟨3, 0⟩, ⟨4, 1⟩, some (⟨3, 0⟩, ⟨4, 1⟩)⟩
      ⟨2, ⟨10, 0⟩, ⟨10, 1⟩, some (⟨10, 0⟩, ⟨10, 1⟩)⟩ (by decide) (by decide)⟩

/-! ## The fill flag of a child that does not expand -/

theorem setFillOfFixed_widget (g : cBoxChild → Bool) (c : cBoxChild) :
    (setFillOfFixed g c).widget = c.widget := by
  unfold setFillOfFixed; split <;> rfl

theorem setFillOfFixed_expand (g : cBoxChild → Bool) (c : cBoxChild) :
    (setFillOfFixed g c).expand = c.expand := by
  unfold setFillOfFixed; split <;> rfl

theorem setFillOfFixed_packType (g : cBoxChild → Bool) (c : cBoxChild) :
    (setFillOfFixed g c).packType = c.packType := by
  unfold setFillOfFixed; split <;> rfl

theorem setFillOfFixed_of_expand (g : cBoxChild → Bool) (c : cBoxChild)
    (h : c.expand = true) : setFillOfFixed g c = c := by
  simp [setFillOfFixed, h]

theorem getBoxChildren_withFillOfFixed (b : CBox) (g : cBoxChild → Bool) :
    getBoxChildren (b.withFillOfFixed g) = (getBoxChildren b).map (setFillOfFixed g) := by
  simp only [getBoxChildren, CBox.withFillOfFixed, List.filter_map, List.map_append]
  congr 2 <;>
    (apply List.filter_congr
     intro c _
     simp [Function.comp, setFillOfFixed_widget, setFillOfFixed_packType])

theorem trackDynamic_setFillOfFixed (g : cBoxChild → Bool) (isVertical : Bool)
    (increment : Int) (alloc : Rectangle) (c : cBoxChild) :
    trackDynamic isVertical increment alloc (setFillOfFixed g c)
      = trackDynamic isVertical increment alloc c := by
  by_cases h : c.expand = true
  · rw [setFillOfFixed_of_expand g c h]
  · have he : (setFillOfFixed g c).expand = false := by
      rw [setFillOfFixed_expand]; simpa using h
    have hc : c.expand = false := by simpa using h
    simp [trackDynamic, he, hc, setFillOfFixed_widget]

theorem alignDynamic_setFillOfFixed (g : cBoxChild → Bool) (isVertical : Bool)
    (c : cBoxChild) (t : Track) :
    alignDynamic isVertical (setFillOfFixed g c) t = alignDynamic isVertical c t := by
  simp [alignDynamic, setFillOfFixed_widget]

theorem allocateDynamic_setFillOfFixed (g : cBoxChild → Bool) (isVertical : Bool)
    (gaps : List Int) (canvases : List Nat) (origin : Point2I) (L : List (cBoxChild × Track))
    (idx : Nat) (np : Point2I) :
    allocateDynamic isVertical gaps canvases origin idx np
        (L.map fun e => (setFillOfFixed g e.1, e.2))
      = allocateDynamic isVertical gaps canvases origin idx np L := by
  induction L generalizing idx np with
  | nil => rfl
  | cons e rest ih =>
    obtain ⟨child, t⟩ := e
    simp only [List.map_cons, allocateDynamic, ih, setFillOfFixed_widget]

theorem applyDist_setFillOfFixed (g : cBoxChild → Bool) (isVertical : Bool)
    (dist : List Int) (L : List (cBoxChild × Track)) (di : Nat) :
    applyDist isVertical dist di (L.map fun e => (setFillOfFixed g e.1, e.2))
      = (applyDist isVertical dist di L).map fun e => (setFillOfFixed g e.1, e.2) := by
  induction L generalizing di with
  | nil => rfl
  | cons e rest ih =>
    obtain ⟨child, t⟩ := e
    by_cases hx : child.expand = true
    · have hs := setFillOfFixed_of_expand g child hx
      by_cases hd : di < dist.length
      · simp [applyDist, hs, hx, hd, ih]
      · simp [applyDist, hs, hx, hd, ih]
    · have he : (setFillOfFixed g child).expand = false := by
        rw [setFillOfFixed_expand]; simpa using hx
      have hc : child.expand = false := by simpa using hx
      simp [applyDist, he, hc, ih]

theorem dynamicTracking_setFillOfFixed (g : cBoxChild → Bool)
    (distribute : Int → Int → Int → Int → Int → DistResult) (isVertical : Bool)
    (gaps : List Int) (increment spacing numChildren : Int) (alloc : Rectangle)
    (children : List cBoxChild) :
    dynamicTracking distribute isVertical gaps increment spacing numChildren alloc
        (children.map (setFillOfFixed g))
      = ((dynamicTracking distribute isVertical gaps increment spacing numChildren alloc
            children).1.map (fun e => (setFillOfFixed g e.1, e.2)),
         (dynamicTracking distribute isVertical gaps increment spacing numChildren alloc
            children).2) := by
  have hfilter : ((children.map (setFillOfFixed g)).filter fun child => child.expand).length
      = (children.filter fun child => child.expand).length := by
    rw [List.filter_map, List.length_map]
    congr 1
    apply List.filter_congr
    intro c _
    simp [Function.comp, setFillOfFixed_expand]
  have hpre : ∀ T : cBoxChild → Track,
      List.map (fun x => (setFillOfFixed g x, T x)) children
        = (List.map (fun x => (x, T x)) children).map
            (fun e => (setFillOfFixed g e.1, e.2)) := by
    intro T
    simp [List.map_map, Function.comp_def]
  simp only [dynamicTracking, List.map_map, hfilter, Function.comp_def,
    trackDynamic_setFillOfFixed]
  split_ifs <;> simp only [hpre, applyDist_setFillOfFixed]

/-- C11, the defect.  A child packed with expand = false and requesting width 4
in a homogeneous box of width 30 is allocated width 30 with fill = true and
width 4 with fill = false: `resizeHomogeneous` reads the fill flag of every
child, although the doc comment of `PackStart` and `PackEnd` says that fill has
no effect if expand is set to FALSE. -/
theorem Resize_homogeneous_reads_fill :
    (Resize SolveSpaceAlloc Distribute (fixedChildBox true true)).map
        (fun p => (p.origin, p.alloc)) = [(⟨0, 0⟩, ⟨30, 1⟩)]
    ∧ (Resize SolveSpaceAlloc Distribute (fixedChildBox true false)).map
        (fun p => (p.origin, p.alloc)) = [(⟨0, 0⟩, ⟨4, 1⟩)]
    ∧ (Resize SolveSpaceAlloc Distribute (fixedChildBox true true)).map
        (fun p => (p.origin, p.alloc))
      ≠ (Resize SolveSpaceAlloc Distribute (fixedChildBox true false)).map
        (fun p => (p.origin, p.alloc)) := by
  decide

/-- The sibling path of C11.  In a non-homogeneous box the fill flag of a child
packed with expand = false has no effect: replacing the fill flags of all such
children of any box by any other values leaves every placement (origin,
allocation and canvas) of every child unchanged. -/
theorem Resize_dynamic_fill_irrelevant (solve : Int → Int → Int → Int × List Int)
    (distribute : Int → Int → Int → Int → Int → DistResult) (b : CBox)
    (g : cBoxChild → Bool) (hh : b.homogeneous = false) :
    Resize solve distribute (b.withFillOfFixed g) = Resize solve distribute b := by
  have hb1 : (b.withFillOfFixed g).spacing = b.spacing := rfl
  have hb2 : (b.withFillOfFixed g).origin = b.origin := rfl
  have hb3 : (b.withFillOfFixed g).alloc = b.alloc := rfl
  have hb4 : (b.withFillOfFixed g).orientation = b.orientation := rfl
  have hb5 : (b.withFillOfFixed g).homogeneous = false := hh
  have hb6 : (b.withFillOfFixed g).canvases = b.canvases := rfl
  have hD : ∀ (isVertical : Bool) (L : List (cBoxChild × Track)),
      (L.map fun e => (setFillOfFixed g e.1, e.2)).map
          (fun e => (e.1, alignDynamic isVertical e.1 e.2))
        = (L.map fun e => (e.1, alignDynamic isVertical e.1 e.2)).map
            (fun e => (setFillOfFixed g e.1, e.2)) := by
    intro isVertical L
    simp only [List.map_map, Function.comp_def, alignDynamic_setFillOfFixed]
  simp only [Resize, getBoxChildren_withFillOfFixed, List.length_map, hb1, hb2, hb3, hb4, hb5,
    hb6, hh, Bool.false_eq_true, if_false, resizeDynamicAlloc, dynamicTracking_setFillOfFixed,
    hD, allocateDynamic_setFillOfFixed]

/-- The sibling path of C11 at a non-homogeneous box of width 30 whose only child
does not expand: with fill = true it is placed exactly as with fill = false,
width 4 at x = 0. -/
theorem Resize_dynamic_fill_irrelevant_witness :
    Resize SolveSpaceAlloc Distribute ((fixedChildBox false false).withFillOfFixed fun _ => true)
        = Resize SolveSpaceAlloc Distribute (fixedChildBox false false)
    ∧ ((fixedChildBox false false).withFillOfFixed fun _ => true).children
        = (fixedChildBox false true).children
    ∧ (Resize SolveSpaceAlloc Distribute (fixedChildBox false true)).map
        (fun p => (p.origin, p.alloc)) = [(⟨0, 0⟩, ⟨4, 1⟩)] :=
  ⟨Resize_dynamic_fill_irrelevant SolveSpaceAlloc Distribute (fixedChildBox false false)
      (fun _ => true) rfl, by decide, by decide⟩

/-! ## Every child gets the full cross-axis allocation -/

theorem allocateHomogeneous_alloc_mem (isVertical : Bool) (gaps : List Int)
    (canvases : List Nat) (origin : Point2I) (L : List (cBoxChild × Track)) (idx : Nat)
    (np : Point2I) :
    ∀ p ∈ allocateHomogeneous isVertical gaps canvases origin idx np L,
      ∃ e ∈ L, p.alloc = ⟨e.2.w, e.2.h⟩ := by
  induction L generalizing idx np with
  | nil => intro p hp; simp [allocateHomogeneous] at hp
  | cons e rest ih =>
    obtain ⟨child, t⟩ := e
    intro p hp
    simp only [allocateHomogeneous, List.mem_cons] at hp
    rcases hp with rfl | hp
    · exact ⟨(child, t), List.mem_cons_self _ _, rfl⟩
    · obtain ⟨e, he, hpe⟩ := ih _ _ p hp
      exact ⟨e, List.mem_cons_of_mem _ he, hpe⟩

theorem allocateDynamic_alloc_mem (isVertical : Bool) (gaps : List Int)
    (canvases : List Nat) (origin : Point2I) (L : List (cBoxChild × Track)) (idx : Nat)
    (np : Point2I) :
    ∀ p ∈ allocateDynamic isVertical gaps canvases origin idx np L,
      ∃ e ∈ L, p.alloc = ⟨e.2.w, e.2.h⟩ := by
  induction L generalizing idx np with
  | nil => intro p hp; simp [allocateDynamic] at hp
  | cons e rest ih =>
    obtain ⟨child, t⟩ := e
    intro p hp
    simp only [allocateDynamic, List.mem_cons] at hp
    rcases hp with rfl | hp
    · exact ⟨(child, t), List.mem_cons_self _ _, rfl⟩
    · obtain ⟨e, he, hpe⟩ := ih _ _ p hp
      exact ⟨e, List.mem_cons_of_mem _ he, hpe⟩

theorem crossSize_mk (isVertical : Bool) (t : Track) :
    crossSize isVertical ⟨t.w, t.h⟩ = crossOf isVertical t := by
  cases isVertical <;> rfl

theorem trackHomogeneous_cross (isVertical : Bool) (increment : Int) (alloc : Rectangle)
    (child : cBoxChild) :
    crossOf isVertical (trackHomogeneous isVertical increment alloc child)
      = crossSize isVertical alloc := by
  unfold trackHomogeneous crossOf crossSize
  cases isVertical <;> simp only <;> split_ifs <;> simp_all

theorem alignHomogeneous_cross (isVertical : Bool) (child : cBoxChild) (t : Track) :
    crossOf isVertical (alignHomogeneous isVertical child t) = crossOf isVertical t := by
  rcases hal : child.widget.alignment with _ | ⟨xAlign, yAlign⟩ <;>
    cases isVertical <;> simp only [alignHomogeneous, crossOf, hal] <;> split_ifs <;> rfl

theorem trackDynamic_cross (isVertical : Bool) (increment : Int) (alloc : Rectangle)
    (child : cBoxChild) :
    crossOf isVertical (trackDynamic isVertical increment alloc child).1
      = crossSize isVertical alloc := by
  unfold trackDynamic crossOf crossSize
  cases isVertical <;> simp only <;> split_ifs <;> simp_all

theorem alignDynamic_cross (isVertical : Bool) (child : cBoxChild) (t : Track) :
    crossOf isVertical (alignDynamic isVertical child t) = crossOf isVertical t := by
  rcases hal : child.widget.alignment with _ | ⟨xAlign, yAlign⟩ <;>
    cases isVertical <;> simp only [alignDynamic, crossOf, hal] <;> split_ifs <;> rfl

theorem applyDist_cross (isVertical : Bool) (C : Int) (dist : List Int)
    (L : List (cBoxChild × Track)) (di : Nat)
    (hL : ∀ e ∈ L, crossOf isVertical e.2 = C) :
    ∀ e ∈ applyDist isVertical dist di L, crossOf isVertical e.2 = C := by
  induction L generalizing di with
  | nil => intro e he; simp [applyDist] at he
  | cons e0 rest ih =>
    obtain ⟨child, t⟩ := e0
    have h0 : crossOf isVertical t = C := hL (child, t) (List.mem_cons_self _ _)
    have hrest : ∀ e ∈ rest, crossOf isVertical e.2 = C :=
      fun e he => hL e (List.mem_cons_of_mem _ he)
    intro e he
    simp only [applyDist] at he
    split_ifs at he <;> rcases List.mem_cons.mp he with rfl | hmem <;>
      first
        | exact ih _ hrest e hmem
        | exact h0
        | (cases isVertical <;> simp_all [crossOf])

theorem dynamicTracking_cross (distribute : Int → Int → Int → Int → Int → DistResult)
    (isVertical : Bool) (gaps : List Int) (increment spacing numChildren : Int)
    (alloc : Rectangle) (children : List cBoxChild) :
    ∀ e ∈ (dynamicTracking distribute isVertical gaps increment spacing numChildren alloc
        children).1, crossOf isVertical e.2 = crossSize isVertical alloc := by
  have hbase : ∀ e ∈ (children.map fun child =>
        (child, trackDynamic isVertical increment alloc child)).map fun e => (e.1, e.2.1),
      crossOf isVertical e.2 = crossSize isVertical alloc := by
    intro e he
    simp only [List.map_map, List.mem_map, Function.comp_def] at he
    obtain ⟨c, _, rfl⟩ := he
    exact trackDynamic_cross isVertical increment alloc c
  intro e he
  unfold dynamicTracking at he
  simp only at he
  split_ifs at he
  all_goals
    first
      | exact hbase e he
      | exact applyDist_cross _ _ _ _ _ hbase e he

/-- C12.  For every box, in both layout modes and for every combination of
expand, fill and size request, the allocation `Resize` assigns to a child has
the box's full allocated height in a horizontal box and the box's full allocated
width in a vertical box. -/
theorem Resize_cross_axis_full (solve : Int → Int → Int → Int × List Int)
    (distribute : Int → Int → Int → Int → Int → DistResult) (b : CBox) :
    ∀ p ∈ Resize solve distribute b,
      if b.orientation = Orientation.ORIENTATION_VERTICAL then p.alloc.W = b.alloc.W
      else p.alloc.H = b.alloc.H := by
  intro p hp
  have key : crossSize (b.orientation == Orientation.ORIENTATION_VERTICAL) p.alloc
      = crossSize (b.orientation == Orientation.ORIENTATION_VERTICAL) b.alloc := by
    unfold Resize at hp
    by_cases h0 : ((getBoxChildren b).length : Int) = 0
    · simp [h0] at hp
    · by_cases hh : b.homogeneous = true
      · simp only [h0, hh, if_false, if_true, resizeHomogeneous] at hp
        obtain ⟨e, he, hpe⟩ := allocateHomogeneous_alloc_mem _ _ _ _ _ _ _ p hp
        obtain ⟨c, _, rfl⟩ := List.mem_map.mp he
        rw [hpe, crossSize_mk, alignHomogeneous_cross, trackHomogeneous_cross]
      · simp only [h0, hh, if_false, resizeDynamicAlloc] at hp
        obtain ⟨e, he, hpe⟩ := allocateDynamic_alloc_mem _ _ _ _ _ _ _ p hp
        obtain ⟨e0, he0, rfl⟩ := List.mem_map.mp he
        rw [hpe, crossSize_mk, alignDynamic_cross,
          dynamicTracking_cross _ _ _ _ _ _ _ _ e0 he0]
  by_cases hv : b.orientation = Orientation.ORIENTATION_VERTICAL
  · simpa [crossSize, hv] using key
  · have hb : (b.orientation == Orientation.ORIENTATION_VERTICAL) = false := by simpa using hv
    simpa [crossSize, hv, hb] using key

/-- C12 at a vertical non-homogeneous box of width 7: the first child, packed
with expand = false and requesting 3x2, is allocated the full width 7. -/
theorem Resize_cross_axis_full_witness :
    (⟨1, ⟨2, 3⟩, ⟨7, 2⟩, some (⟨0, 0⟩, ⟨7, 2⟩)⟩ : Placement)
        ∈ Resize SolveSpaceAlloc Distribute mixedVerticalBox
    ∧ (⟨1, ⟨2, 3⟩, ⟨7, 2⟩, some (⟨0, 0⟩, ⟨7, 2⟩)⟩ : Placement).alloc.W
        = mixedVerticalBox.alloc.W :=
  ⟨by decide,
    Resize_cross_axis_full SolveSpaceAlloc Distribute mixedVerticalBox
      ⟨1, ⟨2, 3⟩, ⟨7, 2⟩, some (⟨0, 0⟩, ⟨7, 2⟩)⟩ (by decide)⟩

/-! ## Defects of the box layout and of `ReorderChild` -/

/-- C13, the defect.  In a non-homogeneous box of width 20 (slots of width 10),
a widget without alignment capability packed with expand = true, fill = false
and requesting width 4 is placed at x = 0 with width 4, and the next child
starts at x = 4, directly after it, not at the end of the slot x = 10:
`resizeDynamicAlloc` computes overflow only for `Alignable` children.  In the
homogeneous mode the same children are placed at x = 0 and x = 10. -/
theorem Resize_dynamic_unaligned_no_overflow :
    (Resize SolveSpaceAlloc Distribute (unalignedBox false)).map
        (fun p => (p.widget, p.origin.X, p.alloc.W)) = [(1, 0, 4), (2, 4, 10)]
    ∧ (Resize SolveSpaceAlloc Distribute (unalignedBox true)).map
        (fun p => (p.widget, p.origin.X, p.alloc.W)) = [(1, 0, 4), (2, 10, 10)] := by
  decide

/-- C14, the defect.  On the child list with ids `[1, 2, 3]`,
`ReorderChild(child 1, 2)` leaves `[2, 1]`: child 1 is at index 1 and index 2
does not exist; `ReorderChild(child 1, -1)` leaves `[1, 3]`: child 1 is at
index 0, not at the last index. -/
theorem ReorderChild_misplaces_child :
    (threeChildBox.ReorderChild (plainChild 1) 2).children.map (fun c => c.widget.objectID)
        = [2, 1]
    ∧ (threeChildBox.ReorderChild (plainChild 1) 2).children[2]? = none
    ∧ (threeChildBox.ReorderChild (plainChild 1) (-1)).children.map
        (fun c => c.widget.objectID) = [1, 3]
    ∧ (threeChildBox.ReorderChild (plainChild 1) (-1)).children.getLast?
        = some (plainChild 3) := by
  decide

/-- C15, the defect.  On the child list with ids `[1, 2, 3]`,
`ReorderChild(child 3, 0)` leaves `[3, 2]`: child 1, which stood at the target
index, is dropped, so the result is not a permutation of the original list. -/
theorem ReorderChild_drops_child :
    (threeChildBox.ReorderChild (plainChild 3) 0).children.map (fun c => c.widget.objectID)
        = [3, 2]
    ∧ plainChild 1 ∈ threeChildBox.children
    ∧ plainChild 1 ∉ (threeChildBox.ReorderChild (plainChild 3) 0).children
    ∧ (threeChildBox.ReorderChild (plainChild 3) 0).children.length
        ≠ threeChildBox.children.length := by
  decide

/-! ## Scrollbar policies -/

/-- C16, the defect.  After `SetPolicy(PolicyNever, PolicyAlways)` on a scrolled
viewport with both adjustments, `VerticalShowByPolicy()` is false although the
vertical policy is Always, and `HorizontalShowByPolicy()` is true although the
horizontal policy is Never: each function binds the other axis's result of
`GetPolicy()`. -/
theorem ShowByPolicy_axes_swapped :
    (scrolledViewport100x50.SetPolicy PolicyType.PolicyNever
        PolicyType.PolicyAlways).GetPolicy
      = (PolicyType.PolicyNever, PolicyType.PolicyAlways)
    ∧ (scrolledViewport100x50.SetPolicy PolicyType.PolicyNever
        PolicyType.PolicyAlways).VerticalShowByPolicy = false
    ∧ (scrolledViewport100x50.SetPolicy PolicyType.PolicyNever
        PolicyType.PolicyAlways).HorizontalShowByPolicy = true := by
  decide

/-! ## Slider geometry -/

theorem ClampI_mem (v lo hi : Int) (h : lo ≤ hi) :
    lo ≤ ClampI v lo hi ∧ ClampI v lo hi ≤ hi := by
  unfold ClampI
  split_ifs <;> omega

theorem sliderAlong_length (ratio : Int → Int → Int → Int) (s : CScrollbar)
    (upper page value troughStart troughLen : Int) (h : 2 ≤ troughLen) :
    1 ≤ (sliderAlong ratio s upper page value troughStart troughLen).1
      ∧ (sliderAlong ratio s upper page value troughStart troughLen).1 ≤ troughLen - 1 := by
  simp only [sliderAlong]
  exact ClampI_mem _ 1 (troughLen - 1) (by omega)

/-- C17.  For a scrollbar whose adjustment has `upper ≠ 0` and whose trough is at
least 2 cells long, the slider returned by `GetSliderRegion` has a length along
the scrollbar axis of at least 1 and at most trough length - 1, for every page
increment, value and slider-size setting and whatever the float expressions
evaluate to: the width for a horizontal scrollbar, the height otherwise. -/
theorem GetSliderRegion_length (ratio : Int → Int → Int → Int) (s : CScrollbar)
    (a : Adjustment) (ha : s.adjustment = some a) (hu : a.upper ≠ 0) :
    (s.orientation = Orientation.ORIENTATION_HORIZONTAL → 2 ≤ s.GetTroughRegion.W →
        1 ≤ (s.GetSliderRegion ratio).W
          ∧ (s.GetSliderRegion ratio).W ≤ s.GetTroughRegion.W - 1)
    ∧ (s.orientation ≠ Orientation.ORIENTATION_HORIZONTAL → 2 ≤ s.GetTroughRegion.H →
        1 ≤ (s.GetSliderRegion ratio).H
          ∧ (s.GetSliderRegion ratio).H ≤ s.GetTroughRegion.H - 1) := by
  constructor
  · intro ho ht
    have hb := sliderAlong_length ratio s a.upper a.pageIncrement a.value
      s.GetTroughRegion.X s.GetTroughRegion.W ht
    have hw : (s.GetSliderRegion ratio).W
        = (sliderAlong ratio s a.upper a.pageIncrement a.value s.GetTroughRegion.X
            s.GetTroughRegion.W).1 := by
      have hn : ¬ (sliderAlong ratio s a.upper a.pageIncrement a.value s.GetTroughRegion.X
          s.GetTroughRegion.W).1 < 0 := by omega
      simp [CScrollbar.GetSliderRegion, ha, hu, ho, Region.Floor, hn]
    rw [hw]
    exact hb
  · intro ho ht
    have hb := sliderAlong_length ratio s a.upper a.pageIncrement a.value
      s.GetTroughRegion.Y s.GetTroughRegion.H ht
    have hw : (s.GetSliderRegion ratio).H
        = (sliderAlong ratio s a.upper a.pageIncrement a.value s.GetTroughRegion.Y
            s.GetTroughRegion.H).1 := by
      have hn : ¬ (sliderAlong ratio s a.upper a.pageIncrement a.value s.GetTroughRegion.Y
          s.GetTroughRegion.H).1 < 0 := by omega
      simp [CScrollbar.GetSliderRegion, ha, hu, ho, Region.Floor, hn]
    rw [hw]
    exact hb

/-- C17 at a horizontal scrollbar with a trough of 10 cells: the slider is 9
cells long. -/
theorem GetSliderRegion_length_witness :
    longSliderScrollbar.GetTroughRegion.W = 10
    ∧ (longSliderScrollbar.GetSliderRegion floatRatioToInt).W = 9
    ∧ 1 ≤ (longSliderScrollbar.GetSliderRegion floatRatioToInt).W
    ∧ (longSliderScrollbar.GetSliderRegion floatRatioToInt).W
        ≤ longSliderScrollbar.GetTroughRegion.W - 1 :=
  ⟨by decide, by decide,
    ((GetSliderRegion_length floatRatioToInt longSliderScrollbar ⟨5, 0, 11, 1, 20, 40⟩ rfl
      (by decide)).1 rfl (by decide)).1,
    ((GetSliderRegion_length floatRatioToInt longSliderScrollbar ⟨5, 0, 11, 1, 20, 40⟩ rfl
      (by decide)).1 rfl (by decide)).2⟩

/-- C18, the claim refuted.  A horizontal scrollbar of 12 cells with the default
steppers has the trough [1, 11); with value 5, upper 11 and page increment 20
the slider is 9 cells long, which leaves a single free cell, and
`GetSliderRegion` places it at x = 2, so it ends at 11, flush against the end of
the trough, although the value lies strictly between 0 and upper. -/
theorem slider_flush_at_end_counterexample :
    longSliderScrollbar.GetTroughRegion = ⟨1, 0, 10, 1⟩
    ∧ longSliderScrollbar.GetSliderRegion floatRatioToInt = ⟨2, 0, 9, 1⟩
    ∧ (longSliderScrollbar.GetSliderRegion floatRatioToInt).X
        + (longSliderScrollbar.GetSliderRegion floatRatioToInt).W
      = longSliderScrollbar.GetTroughRegion.X + longSliderScrollbar.GetTroughRegion.W := by
  decide

theorem floatRatioToInt_bounds (value upper room : Int) (hv : 0 < value)
    (hlt : value < upper) (hr : 1 ≤ room) :
    0 ≤ floatRatioToInt value upper room ∧ floatRatioToInt value upper room ≤ room - 1 := by
  have hu : 0 < upper := by omega
  have hprod : 0 ≤ value * room := mul_nonneg (le_of_lt hv) (by omega)
  unfold floatRatioToInt
  rw [Int.tdiv_eq_ediv hprod (le_of_lt hu)]
  constructor
  · exact Int.ediv_nonneg hprod (le_of_lt hu)
  · have h1 : value * room < room * upper := by
      have := mul_lt_mul_of_pos_right hlt (show (0 : Int) < room by omega)
      linarith [mul_comm room upper]
    have h2 : value * room / upper < room := Int.ediv_lt_of_lt_mul hu h1
    omega

theorem sliderAlong_inside (s : CScrollbar) (upper page value troughStart troughLen : Int)
    (hv : 0 < value) (hlt : value < upper) (h0 : 0 ≤ troughStart)
    (hfree : (sliderAlong floatRatioToInt s upper page value troughStart troughLen).1 + 2
      ≤ troughLen)
    (hlen : 2 ≤ troughLen) :
    troughStart + 1 ≤ (sliderAlong floatRatioToInt s upper page value troughStart troughLen).2
      ∧ (sliderAlong floatRatioToInt s upper page value troughStart troughLen).2
          + (sliderAlong floatRatioToInt s upper page value troughStart troughLen).1
        ≤ troughStart + troughLen - 1 := by
  have hb := sliderAlong_length floatRatioToInt s upper page value troughStart troughLen hlen
  simp only [sliderAlong] at hb hfree ⊢
  generalize ClampI
    (if s.sliderSizeFixed = true then ClampI s.sliderLength s.minSliderLength troughLen
      else if FloorI (troughLen - 2) 1 > 1 then
        floatRatioToInt page upper (FloorI (troughLen - 2) 1)
      else if s.minSliderLength > 0 then s.minSliderLength else 1) 1 (troughLen - 1) = len
    at hb hfree ⊢
  have hr := floatRatioToInt_bounds value upper (troughLen - len) hv hlt (by omega)
  generalize floatRatioToInt value upper (troughLen - len) = inc at hr ⊢
  unfold ClampI
  split_ifs <;> omega

/-- C18 as amended.  For a scrollbar whose adjustment has a value strictly
between 0 and upper, whose trough starts at a non-negative coordinate and whose
slider leaves at least two cells of the trough free, the slider returned by
`GetSliderRegion` is flush against neither end of the trough: it starts at least
one cell after the trough's start and ends at least one cell before the trough's
end (along x for a horizontal scrollbar, along y otherwise; the float
expressions taken in exact arithmetic). -/
theorem GetSliderRegion_inside (s : CScrollbar) (a : Adjustment)
    (ha : s.adjustment = some a) (hv : 0 < a.value) (hlt : a.value < a.upper) :
    (s.orientation = Orientation.ORIENTATION_HORIZONTAL → 0 ≤ s.GetTroughRegion.X →
        (s.GetSliderRegion floatRatioToInt).W + 2 ≤ s.GetTroughRegion.W →
        s.GetTroughRegion.X + 1 ≤ (s.GetSliderRegion floatRatioToInt).X
          ∧ (s.GetSliderRegion floatRatioToInt).X + (s.GetSliderRegion floatRatioToInt).W
              ≤ s.GetTroughRegion.X + s.GetTroughRegion.W - 1)
    ∧ (s.orientation ≠ Orientation.ORIENTATION_HORIZONTAL → 0 ≤ s.GetTroughRegion.Y →
        (s.GetSliderRegion floatRatioToInt).H + 2 ≤ s.GetTroughRegion.H →
        s.GetTroughRegion.Y + 1 ≤ (s.GetSliderRegion floatRatioToInt).Y
          ∧ (s.GetSliderRegion floatRatioToInt).Y + (s.GetSliderRegion floatRatioToInt).H
              ≤ s.GetTroughRegion.Y + s.GetTroughRegion.H - 1) := by
  have hu : a.upper ≠ 0 := by omega
  constructor
  · intro ho h0 hfree
    have hW : (s.GetSliderRegion floatRatioToInt).W
        = (if (sliderAlong floatRatioToInt s a.upper a.pageIncrement a.value
              s.GetTroughRegion.X s.GetTroughRegion.W).1 < 0 then 0
            else (sliderAlong floatRatioToInt s a.upper a.pageIncrement a.value
              s.GetTroughRegion.X s.GetTroughRegion.W).1) := by
      simp [CScrollbar.GetSliderRegion, ha, hu, ho, Region.Floor]
    have hX : (s.GetSliderRegion floatRatioToInt).X
        = (sliderAlong floatRatioToInt s a.upper a.pageIncrement a.value
              s.GetTroughRegion.X s.GetTroughRegion.W).2 := by
      simp [CScrollbar.GetSliderRegion, ha, hu, ho, Region.Floor]
    have hlen : 2 ≤ s.GetTroughRegion.W := by
      rw [hW] at hfree
      split_ifs at hfree <;> omega
    have hb := sliderAlong_length floatRatioToInt s a.upper a.pageIncrement a.value
      s.GetTroughRegion.X s.GetTroughRegion.W hlen
    have hn : ¬ (sliderAlong floatRatioToInt s a.upper a.pageIncrement a.value
        s.GetTroughRegion.X s.GetTroughRegion.W).1 < 0 := by omega
    rw [if_neg hn] at hW
    rw [hW] at hfree ⊢
    rw [hX]
    exact sliderAlong_inside s _ _ _ _ _ hv hlt h0 hfree hlen
  · intro ho h0 hfree
    have hW : (s.GetSliderRegion floatRatioToInt).H
        = (if (sliderAlong floatRatioToInt s a.upper a.pageIncrement a.value
              s.GetTroughRegion.Y s.GetTroughRegion.H).1 < 0 then 0
            else (sliderAlong floatRatioToInt s a.upper a.pageIncrement a.value
              s.GetTroughRegion.Y s.GetTroughRegion.H).1) := by
      simp [CScrollbar.GetSliderRegion, ha, hu, ho, Region.Floor]
    have hX : (s.GetSliderRegion floatRatioToInt).Y
        = (sliderAlong floatRatioToInt s a.upper a.pageIncrement a.value
              s.GetTroughRegion.Y s.GetTroughRegion.H).2 := by
      simp [CScrollbar.GetSliderRegion, ha, hu, ho, Region.Floor]
    have hlen : 2 ≤ s.GetTroughRegion.H := by
      rw [hW] at hfree
      split_ifs at hfree <;> omega
    have hb := sliderAlong_length floatRatioToInt s a.upper a.pageIncrement a.value
      s.GetTroughRegion.Y s.GetTroughRegion.H hlen
    have hn : ¬ (sliderAlong floatRatioToInt s a.upper a.pageIncrement a.value
        s.GetTroughRegion.Y s.GetTroughRegion.H).1 < 0 := by omega
    rw [if_neg hn] at hW
    rw [hW] at hfree ⊢
    rw [hX]
    exact sliderAlong_inside s _ _ _ _ _ hv hlt h0 hfree hlen

/-- The amended C18 at a horizontal scrollbar of 12 cells whose adjustment holds
value 1, upper 60 and page increment 20: the trough is [1, 11), the slider is 2
cells long and lies at [2, 4). -/
theorem GetSliderRegion_inside_witness :
    shortSliderScrollbar.GetTroughRegion = ⟨1, 0, 10, 1⟩
    ∧ shortSliderScrollbar.GetSliderRegion floatRatioToInt = ⟨2, 0, 2, 1⟩
    ∧ shortSliderScrollbar.GetTroughRegion.X + 1
        ≤ (shortSliderScrollbar.GetSliderRegion floatRatioToInt).X
    ∧ (shortSliderScrollbar.GetSliderRegion floatRatioToInt).X
          + (shortSliderScrollbar.GetSliderRegion floatRatioToInt).W
        ≤ shortSliderScrollbar.GetTroughRegion.X + shortSliderScrollbar.GetTroughRegion.W - 1 :=
  ⟨by decide, by decide,
    ((GetSliderRegion_inside shortSliderScrollbar ⟨1, 0, 60, 1, 20, 40⟩ rfl (by decide)
      (by decide)).1 rfl (by decide) (by decide)).1,
    ((GetSliderRegion_inside shortSliderScrollbar ⟨1, 0, 60, 1, 20, 40⟩ rfl (by decide)
      (by decide)).1 rfl (by decide) (by decide)).2⟩

/-! ## Alignment -/

/-- C19, the defect.  `SetPadding` writes its four arguments to the x-align,
y-align, x-scale and y-scale properties and never to the padding properties, so
`GetPadding` returns afterwards what it returned before, whatever the property
store does with the integers: after `SetPadding(1, 2, 3, 4)` on an alignment
with all paddings 0 it returns (0, 0, 0, 0). -/
theorem SetPadding_keeps_padding :
    (∀ (setIntProperty : ℚ → Int → ℚ) (a : CAlignment) (top bottom left right : Int),
        (a.SetPadding setIntProperty top bottom left right).GetPadding = a.GetPadding)
    ∧ (sampleAlignment.SetPadding (fun old _ => old) 1 2 3 4).GetPadding = (0, 0, 0, 0) := by
  refine ⟨?_, by decide⟩
  intro setIntProperty a top bottom left right
  unfold CAlignment.SetPadding
  split <;> rfl

theorem floatMulToInt_one (delta : Int) : floatMulToInt delta 1 = delta := by
  simp [floatMulToInt]

theorem floatMulToInt_zero (a : ℚ) : floatMulToInt 0 a = 0 := by
  simp [floatMulToInt]

/-- C20.  If an alignment's xScale and yScale are both 1, then for every xAlign
and yAlign, every child size request and every allocation with positive width
and height, `Resize` gives the child the alignment's full allocation at the
alignment's own origin. -/
theorem Alignment_Resize_full_scale (a : CAlignment) (child : Widget)
    (hchild : a.child = some child) (hx : a.xScale = 1) (hy : a.yScale = 1)
    (hW : 0 < a.alloc.W) (hH : 0 < a.alloc.H) :
    a.Resize = { childOrigin := some a.origin, childAlloc := some a.alloc } := by
  obtain ⟨⟨ox, oy⟩, ⟨aw, ah⟩, xa, ya, xs, ys, pt, pb, pl, pr, ch⟩ := a
  simp only at hchild hx hy hW hH
  subst hchild hx hy
  have hz : ¬ (aw ≤ 0 ∧ ah ≤ 0) := by omega
  have h1 : ¬ aw < 0 := by omega
  have h2 : ¬ ah < 0 := by omega
  simp only [CAlignment.Resize, hz, if_false, Rectangle.Floor, h1, h2, floatMulToInt_one,
    sub_self, floatMulToInt_zero, add_zero]
  generalize (if child.reqW ≤ -1 then aw else child.reqW) = sW
  generalize (if child.reqH ≤ -1 then ah else child.reqH) = sH
  by_cases h : sW = aw ∧ sH = ah
  · obtain ⟨e1, e2⟩ := h
    subst e1 e2
    simp
  · have e1 : ∀ u v : Int, u + (v - u) = v := fun u v => by ring
    simp [h, e1]

/-- C20 at an alignment at (2, 3) with allocation 20x10 and alignment fractions
1/2: the child requesting 4x2 gets 20x10 at (2, 3). -/
theorem Alignment_Resize_full_scale_witness :
    fullScaleAlignment.Resize
      = { childOrigin := some ⟨2, 3⟩, childAlloc := some ⟨20, 10⟩ } :=
  Alignment_Resize_full_scale fullScaleAlignment (plainWidget 1 4 2) rfl rfl rfl
    (by decide) (by decide)

/-! ## Scrollbar initialisation and the backward stepper -/

theorem Init_already (s : CScrollbar) (h : CTypeTag.TypeScrollbar ∈ s.typeTags) :
    s.Init = (true, s) := by
  simp [CScrollbar.Init, InitTypeItem, h]

theorem Init_first (s : CScrollbar) (h : CTypeTag.TypeScrollbar ∉ s.typeTags) :
    s.Init.1 = false ∧ CTypeTag.TypeScrollbar ∈ s.Init.2.typeTags
      ∧ (s.orientation = Orientation.ORIENTATION_NONE →
          s.Init.2.orientation = Orientation.ORIENTATION_VERTICAL) := by
  refine ⟨?_, ?_, ?_⟩
  · simp [CScrollbar.Init, InitTypeItem, h]
  · simp only [CScrollbar.Init, InitTypeItem, h, if_false, CRange.Init, CScrollbar.Resize]
    split_ifs <;> simp
  · intro ho
    simp [CScrollbar.Init, InitTypeItem, h, CScrollbar.Resize, ho]

theorem Init_iterate (s : CScrollbar) (h : CTypeTag.TypeScrollbar ∈ s.typeTags) (n : Nat) :
    (fun t : CScrollbar => t.Init.2)^[n] s = s := by
  induction n with
  | zero => rfl
  | succ n ih =>
    rw [Function.iterate_succ_apply, Init_already s h]
    exact ih

/-- C21.  The first `Init` of a scrollbar (its type item not yet initialised as
a scrollbar) whose orientation is unset returns false and leaves the orientation
vertical; after it, however many further `Init` calls were made, the scrollbar
is the one the first call left (so its orientation is still vertical) and the
next `Init` returns true. -/
theorem Init_once (s : CScrollbar) (hfirst : CTypeTag.TypeScrollbar ∉ s.typeTags)
    (hunset : s.orientation = Orientation.ORIENTATION_NONE) :
    s.Init.1 = false
    ∧ s.Init.2.orientation = Orientation.ORIENTATION_VERTICAL
    ∧ ∀ n : Nat,
        (fun t : CScrollbar => t.Init.2)^[n] s.Init.2 = s.Init.2
        ∧ ((fun t : CScrollbar => t.Init.2)^[n] s.Init.2).Init.1 = true
        ∧ ((fun t : CScrollbar => t.Init.2)^[n] s.Init.2).orientation
            = Orientation.ORIENTATION_VERTICAL := by
  obtain ⟨h1, h2, h3⟩ := Init_first s hfirst
  refine ⟨h1, h3 hunset, fun n => ?_⟩
  rw [Init_iterate _ h2 n, Init_already _ h2]
  exact ⟨rfl, rfl, h3 hunset⟩

/-- C21 at the zero-valued scrollbar of the test: `Init` returns false, a second
`Init` returns true, and the orientation is vertical afterwards. -/
theorem Init_once_witness :
    zeroScrollbar.Init.1 = false
    ∧ zeroScrollbar.Init.2.Init.1 = true
    ∧ zeroScrollbar.Init.2.Init.2.orientation = Orientation.ORIENTATION_VERTICAL :=
  ⟨(Init_once zeroScrollbar (by decide) rfl).1,
   ((Init_once zeroScrollbar (by decide) rfl).2.2 0).2.1,
   ((Init_once zeroScrollbar (by decide) rfl).2.2 1).2.2⟩

theorem SetHasBackwardStepper_with_button (s : CScrollbar) (b : Bool)
    (h : s.backwardStepper = true) :
    (s.SetHasBackwardStepper b).map CScrollbar.GetHasBackwardStepper = some b := by
  simp [CScrollbar.SetHasBackwardStepper, CScrollbar.GetHasBackwardStepper, h]

theorem SetHasBackwardStepper_without_button (s : CScrollbar) (b : Bool)
    (h : s.backwardStepper = false) : s.SetHasBackwardStepper b = none := by
  simp [CScrollbar.SetHasBackwardStepper, h]

/-- C22.  A scrollbar made by `NewVScrollbar` reports `GetHasBackwardStepper()`
= true, and for either value of `b` the call `SetHasBackwardStepper(b)` on it
completes and leaves a scrollbar that reports `GetHasBackwardStepper()` = b. -/
theorem NewVScrollbar_backward_stepper :
    NewVScrollbar.GetHasBackwardStepper = true
    ∧ ∀ b : Bool,
        (NewVScrollbar.SetHasBackwardStepper b).map CScrollbar.GetHasBackwardStepper
          = some b := by
  decide

/-! ## An aligned child inside its slot -/

theorem floatMulToInt_eq_floor (delta : Int) (a : ℚ) (hd : 0 ≤ delta) (h0 : 0 ≤ a) :
    floatMulToInt delta a = ⌊(delta : ℚ) * a⌋ := by
  have hnum : 0 ≤ a.num := Rat.num_nonneg.mpr h0
  have hden : (0 : Int) ≤ a.den := by exact_mod_cast Nat.zero_le a.den
  have hq : (delta : ℚ) * a = ((delta * a.num : Int) : ℚ) / ((a.den : Nat) : ℚ) := by
    conv_lhs => rw [← Rat.num_div_den a]
    push_cast
    ring
  unfold floatMulToInt
  rw [Int.tdiv_eq_ediv (mul_nonneg hd hnum) hden, hq, Rat.floor_intCast_div_natCast]

theorem leadingOffset_eq (isVertical : Bool) (t : Track) (a : ℚ × ℚ)
    (ha0 : 0 ≤ mainAlign isVertical a)
    (hlt : childSize isVertical t < slotSize isVertical t) :
    floatMulToInt (slotSize isVertical t - childSize isVertical t) (mainAlign isVertical a)
      = leadingOffset isVertical t a :=
  floatMulToInt_eq_floor _ _ (by omega) ha0

theorem alignHomogeneousBy_exact (isVertical : Bool) (child : cBoxChild) (t : Track) :
    alignHomogeneousBy floatMulToInt isVertical child t = alignHomogeneous isVertical child t :=
  rfl

theorem alignDynamicBy_exact (isVertical : Bool) (child : cBoxChild) (t : Track) :
    alignDynamicBy floatMulToInt isVertical child t = alignDynamic isVertical child t :=
  rfl

theorem ResizeBy_exact (solve : Int → Int → Int → Int × List Int)
    (distribute : Int → Int → Int → Int → Int → DistResult) (b : CBox) :
    ResizeBy floatMulToInt solve distribute b = Resize solve distribute b :=
  rfl

theorem mkRat_mul_eq (x y : ℚ) : mkRat (x.num * y.num) (x.den * y.den) = x * y := by
  rw [Rat.mul_def, Rat.normalize_eq_mkRat]

theorem float64MulToInt_exact (delta : Int) (a : ℚ)
    (hd : float64Round (delta : ℚ) = delta) (ha : float64Round a = a)
    (hp : float64Round ((delta : ℚ) * a) = (delta : ℚ) * a) (h0 : 0 ≤ (delta : ℚ) * a) :
    float64MulToInt delta a = ⌊(delta : ℚ) * a⌋ := by
  simp only [float64MulToInt, hd, ha, mkRat_mul_eq, hp]
  rw [Int.tdiv_eq_ediv (Rat.num_nonneg.mpr h0) (Int.natCast_nonneg _), Rat.floor_def]

theorem alignHomogeneousBy_slot (mul : Int → ℚ → Int) (isVertical : Bool) (child : cBoxChild)
    (t : Track) (a : ℚ × ℚ) (hal : child.widget.alignment = some a)
    (hlt : childSize isVertical t < slotSize isVertical t) :
    alignHomogeneousBy mul isVertical child t
      = if isVertical then
          { t with
            y := t.y + mul (t.ah - t.h) a.2
            overflow := t.overflow + (t.ah - t.h - mul (t.ah - t.h) a.2) }
        else
          { t with
            x := t.x + mul (t.aw - t.w) a.1
            overflow := t.overflow + (t.aw - t.w - mul (t.aw - t.w) a.1) } := by
  obtain ⟨xAlign, yAlign⟩ := a
  cases isVertical <;> simp only [childSize, slotSize, Bool.false_eq_true, if_false, if_true] at hlt
    <;> simp [alignHomogeneousBy, hal, hlt]

theorem alignDynamicBy_slot (mul : Int → ℚ → Int) (isVertical : Bool) (child : cBoxChild)
    (t : Track) (a : ℚ × ℚ) (hal : child.widget.alignment = some a)
    (hlt : childSize isVertical t < slotSize isVertical t) :
    alignDynamicBy mul isVertical child t
      = if isVertical then
          { t with
            y := t.y + mul (t.ah - t.h) a.2
            overflow := t.overflow + (t.ah - t.h - mul (t.ah - t.h) a.2) }
        else
          { t with
            x := t.x + mul (t.aw - t.w) a.1
            overflow := t.overflow + (t.aw - t.w - mul (t.aw - t.w) a.1) } := by
  obtain ⟨xAlign, yAlign⟩ := a
  cases isVertical <;> simp only [childSize, slotSize, Bool.false_eq_true, if_false, if_true] at hlt
    <;> simp [alignDynamicBy, hal, hlt]

theorem allocateHomogeneous_head (isVertical : Bool) (gaps : List Int) (canvases : List Nat)
    (origin cursor : Point2I) (idx : Nat) (child : cBoxChild) (T : Track)
    (rest : List (cBoxChild × Track)) (pad slot : Int)
    (hpad : mainPad isVertical T = pad) (hcross : (if isVertical then T.x else T.y) = 0)
    (hslot : pad + childSize isVertical T + T.overflow = slot) :
    ∃ pl : Placement,
      allocateHomogeneous isVertical gaps canvases origin idx cursor ((child, T) :: rest)
        = pl :: allocateHomogeneous isVertical gaps canvases origin (idx + 1)
            (shiftMain isVertical cursor (slot + gapAfter gaps idx)) rest
      ∧ pl.widget = child.widget.objectID
      ∧ pl.origin = shiftMain isVertical cursor pad
      ∧ pl.alloc = ⟨T.w, T.h⟩ := by
  have h1 : cursor.Add T.x T.y = shiftMain isVertical cursor pad := by
    cases isVertical <;> simp_all [mainPad, shiftMain, Point2I.Add]
  have h2 : advance isVertical gaps idx T (cursor.Add T.x T.y)
      = shiftMain isVertical cursor (slot + gapAfter gaps idx) := by
    rw [advance_eq_shiftMain, h1, shiftMain_shiftMain, ← hslot]
    congr 1
    simp only [childSize, gapAfter]
    ring
  refine ⟨⟨child.widget.objectID, cursor.Add T.x T.y, ⟨T.w, T.h⟩,
      if child.widget.objectID ∈ canvases then
        some (⟨(cursor.Add T.x T.y).X - origin.X, (cursor.Add T.x T.y).Y - origin.Y⟩,
          ⟨T.aw, T.ah⟩)
      else none⟩, ?_, rfl, h1, rfl⟩
  rw [allocateHomogeneous, h2]

theorem allocateDynamic_head (isVertical : Bool) (gaps : List Int) (canvases : List Nat)
    (origin cursor : Point2I) (idx : Nat) (child : cBoxChild) (T : Track)
    (rest : List (cBoxChild × Track)) (pad slot : Int)
    (hpad : mainPad isVertical T = pad) (hcross : (if isVertical then T.x else T.y) = 0)
    (hslot : pad + childSize isVertical T + T.overflow = slot) :
    ∃ pl : Placement,
      allocateDynamic isVertical gaps canvases origin idx cursor ((child, T) :: rest)
        = pl :: allocateDynamic isVertical gaps canvases origin (idx + 1)
            (shiftMain isVertical cursor (slot + gapAfter gaps idx)) rest
      ∧ pl.widget = child.widget.objectID
      ∧ pl.origin = shiftMain isVertical cursor pad
      ∧ pl.alloc = ⟨T.w, T.h⟩ := by
  have h1 : ({ X := cursor.X + T.x, Y := cursor.Y + T.y } : Point2I)
      = shiftMain isVertical cursor pad := by
    cases isVertical <;> simp_all [mainPad, shiftMain]
  have h2 : advance isVertical gaps idx T { X := cursor.X + T.x, Y := cursor.Y + T.y }
      = shiftMain isVertical cursor (slot + gapAfter gaps idx) := by
    rw [advance_eq_shiftMain, h1, shiftMain_shiftMain, ← hslot]
    congr 1
    simp only [childSize, gapAfter]
    ring
  refine ⟨⟨child.widget.objectID, ⟨cursor.X + T.x, cursor.Y + T.y⟩, ⟨T.w, T.h⟩,
      if child.widget.objectID ∈ canvases then
        some (⟨cursor.X + T.x - origin.X, cursor.Y + T.y - origin.Y⟩, ⟨T.w, T.h⟩)
      else none⟩, ?_, rfl, h1, rfl⟩
  rw [allocateDynamic, h2]

theorem aligned_track (mul : Int → ℚ → Int) (isVertical : Bool) (t T : Track) (a : ℚ × ℚ)
    (hx : t.x = 0) (hy : t.y = 0) (ho : t.overflow = 0)
    (hT : T = if isVertical then
          { t with
            y := t.y + mul (t.ah - t.h) a.2
            overflow := t.overflow + (t.ah - t.h - mul (t.ah - t.h) a.2) }
        else
          { t with
            x := t.x + mul (t.aw - t.w) a.1
            overflow := t.overflow + (t.aw - t.w - mul (t.aw - t.w) a.1) }) :
    mainPad isVertical T
        = mul (slotSize isVertical t - childSize isVertical t) (mainAlign isVertical a)
      ∧ T.overflow
          = slotSize isVertical t - childSize isVertical t
            - mul (slotSize isVertical t - childSize isVertical t) (mainAlign isVertical a)
      ∧ (if isVertical then T.x else T.y) = 0
      ∧ childSize isVertical T = childSize isVertical t
      ∧ T.w = t.w ∧ T.h = t.h := by
  subst hT
  cases isVertical
  · simp [slotSize, childSize, mainAlign, mainPad, hx, hy, ho]
  · simp [slotSize, childSize, mainAlign, mainPad, hx, hy, ho]

/-- C23, the claim refuted.  In float64 arithmetic the offset is not always
`floor(delta * a)`.  A child of width 7 in a slot of 10 (`delta = 3`) whose
alignment fraction is the float64 `1.0 / 3.0`, a little less than one third, is
offset by 1 in both modes, because the float64 product rounds up to 1.0, while
`floor(delta * a)` is 0.  A child of width 50 in a slot of 150 (`delta = 100`)
with the alignment fraction 0.29 is offset by 28 in both modes, because the
float64 nearest to 0.29 is a little less than 0.29, while `floor(100 * 0.29)` is
29. -/
theorem float64_offset_counterexample :
    (0 ≤ oneThirdFloat64 ∧ oneThirdFloat64 ≤ 1)
    ∧ childSize false (trackHomogeneous false 10 ⟨20, 1⟩ (alignedChild oneThirdFloat64 7)) + 3
        = slotSize false (trackHomogeneous false 10 ⟨20, 1⟩ (alignedChild oneThirdFloat64 7))
    ∧ mainPad false (alignHomogeneousBy float64MulToInt false (alignedChild oneThirdFloat64 7)
        (trackHomogeneous false 10 ⟨20, 1⟩ (alignedChild oneThirdFloat64 7))) = 1
    ∧ mainPad false (alignDynamicBy float64MulToInt false (alignedChild oneThirdFloat64 7)
        (trackDynamic false 10 ⟨20, 1⟩ (alignedChild oneThirdFloat64 7)).1) = 1
    ∧ leadingOffset false (trackHomogeneous false 10 ⟨20, 1⟩ (alignedChild oneThirdFloat64 7))
        (oneThirdFloat64, oneThirdFloat64) = 0
    ∧ leadingOffset false (trackDynamic false 10 ⟨20, 1⟩ (alignedChild oneThirdFloat64 7)).1
        (oneThirdFloat64, oneThirdFloat64) = 0
    ∧ ((ResizeBy float64MulToInt SolveSpaceAlloc Distribute
        (alignedRow true 20 oneThirdFloat64 7)).map fun p => (p.origin.X, p.alloc.W))
      = [(1, 7), (10, 10)]
    ∧ ((ResizeBy float64MulToInt SolveSpaceAlloc Distribute
        (alignedRow false 20 oneThirdFloat64 7)).map fun p => (p.origin.X, p.alloc.W))
      = [(1, 7), (10, 10)]
    ∧ mainPad false (alignHomogeneousBy float64MulToInt false (alignedChild (mkRat 29 100) 50)
        (trackHomogeneous false 150 ⟨300, 1⟩ (alignedChild (mkRat 29 100) 50))) = 28
    ∧ mainPad false (alignDynamicBy float64MulToInt false (alignedChild (mkRat 29 100) 50)
        (trackDynamic false 150 ⟨300, 1⟩ (alignedChild (mkRat 29 100) 50)).1) = 28
    ∧ leadingOffset false (trackHomogeneous false 150 ⟨300, 1⟩ (alignedChild (mkRat 29 100) 50))
        (mkRat 29 100, mkRat 29 100) = 29
    ∧ ((ResizeBy float64MulToInt SolveSpaceAlloc Distribute
        (alignedRow true 300 (mkRat 29 100) 50)).map fun p => (p.origin.X, p.alloc.W))
      = [(28, 50), (150, 150)]
    ∧ ((ResizeBy float64MulToInt SolveSpaceAlloc Distribute
        (alignedRow false 300 (mkRat 29 100) 50)).map fun p => (p.origin.X, p.alloc.W))
      = [(28, 50), (150, 150)] :=
  ⟨by decide, by decide, by decide, by decide,
    (leadingOffset_eq false _ _ (by decide) (by decide)).symm.trans (by decide),
    (leadingOffset_eq false _ _ (by decide) (by decide)).symm.trans (by decide),
    by decide, by decide, by decide, by decide,
    (leadingOffset_eq false _ _ (by decide) (by decide)).symm.trans (by decide),
    by decide, by decide⟩

/-- C23 as amended.  Take an `Alignable` child whose size on the packing axis
is smaller than its slot by `delta > 0`, at the moment the layout solves
positions (tracking entry `t`, not yet offset), and let `pad` be what the float
expression `int(float64(delta) * a)` evaluates to for the alignment fraction `a`
of that axis.  In both modes the leading offset is `pad`, the trailing overflow
is `delta - pad`, offset + child size + overflow is the slot size, and the
allocation loop, reaching the child at index `idx` with its cursor at the start
of the slot, places the child at cursor + `pad` with its own size and lays out
the following children from cursor + slot size + gap.  The first part is
`resizeHomogeneous`, the second `resizeDynamicAlloc`.  The third part: in
float64 arithmetic `pad` is `floor(delta * a)` whenever `delta`, `a ≥ 0` and
their product are float64 values, that is, whenever nothing is rounded. -/
theorem aligned_child_in_slot (mul : Int → ℚ → Int) (isVertical : Bool) (gaps : List Int)
    (canvases : List Nat) (origin cursor : Point2I) (idx : Nat) (child : cBoxChild) (t : Track)
    (rest : List (cBoxChild × Track)) (a : ℚ × ℚ)
    (hal : child.widget.alignment = some a)
    (hx : t.x = 0) (hy : t.y = 0) (ho : t.overflow = 0)
    (hlt : childSize isVertical t < slotSize isVertical t) :
    (mainPad isVertical (alignHomogeneousBy mul isVertical child t)
        = mul (slotSize isVertical t - childSize isVertical t) (mainAlign isVertical a)
      ∧ (alignHomogeneousBy mul isVertical child t).overflow
          = slotSize isVertical t - childSize isVertical t
            - mul (slotSize isVertical t - childSize isVertical t) (mainAlign isVertical a)
      ∧ mainPad isVertical (alignHomogeneousBy mul isVertical child t) + childSize isVertical t
          + (alignHomogeneousBy mul isVertical child t).overflow = slotSize isVertical t
      ∧ ∃ pl : Placement,
          allocateHomogeneous isVertical gaps canvases origin idx cursor
              ((child, alignHomogeneousBy mul isVertical child t) :: rest)
            = pl :: allocateHomogeneous isVertical gaps canvases origin (idx + 1)
                (shiftMain isVertical cursor (slotSize isVertical t + gapAfter gaps idx)) rest
          ∧ pl.widget = child.widget.objectID
          ∧ pl.origin = shiftMain isVertical cursor
              (mul (slotSize isVertical t - childSize isVertical t) (mainAlign isVertical a))
          ∧ pl.alloc = ⟨t.w, t.h⟩)
    ∧ (mainPad isVertical (alignDynamicBy mul isVertical child t)
        = mul (slotSize isVertical t - childSize isVertical t) (mainAlign isVertical a)
      ∧ (alignDynamicBy mul isVertical child t).overflow
          = slotSize isVertical t - childSize isVertical t
            - mul (slotSize isVertical t - childSize isVertical t) (mainAlign isVertical a)
      ∧ mainPad isVertical (alignDynamicBy mul isVertical child t) + childSize isVertical t
          + (alignDynamicBy mul isVertical child t).overflow = slotSize isVertical t
      ∧ ∃ pl : Placement,
          allocateDynamic isVertical gaps canvases origin idx cursor
              ((child, alignDynamicBy mul isVertical child t) :: rest)
            = pl :: allocateDynamic isVertical gaps canvases origin (idx + 1)
                (shiftMain isVertical cursor (slotSize isVertical t + gapAfter gaps idx)) rest
          ∧ pl.widget = child.widget.objectID
          ∧ pl.origin = shiftMain isVertical cursor
              (mul (slotSize isVertical t - childSize isVertical t) (mainAlign isVertical a))
          ∧ pl.alloc = ⟨t.w, t.h⟩)
    ∧ (0 ≤ mainAlign isVertical a →
        float64Round ((slotSize isVertical t - childSize isVertical t : Int) : ℚ)
          = ((slotSize isVertical t - childSize isVertical t : Int) : ℚ) →
        float64Round (mainAlign isVertical a) = mainAlign isVertical a →
        float64Round (((slotSize isVertical t - childSize isVertical t : Int) : ℚ)
            * mainAlign isVertical a)
          = ((slotSize isVertical t - childSize isVertical t : Int) : ℚ)
            * mainAlign isVertical a →
        float64MulToInt (slotSize isVertical t - childSize isVertical t)
            (mainAlign isVertical a)
          = leadingOffset isVertical t a) := by
  refine ⟨?_, ?_, ?_⟩
  · obtain ⟨h1, h2, h3, h4, h5, h6⟩ := aligned_track mul isVertical t _ a hx hy ho
      (alignHomogeneousBy_slot mul isVertical child t a hal hlt)
    refine ⟨h1, h2, by omega, ?_⟩
    have := allocateHomogeneous_head isVertical gaps canvases origin cursor idx child
      (alignHomogeneousBy mul isVertical child t) rest _ (slotSize isVertical t) h1 h3
      (by rw [h4, h2]; omega)
    rwa [h5, h6] at this
  · obtain ⟨h1, h2, h3, h4, h5, h6⟩ := aligned_track mul isVertical t _ a hx hy ho
      (alignDynamicBy_slot mul isVertical child t a hal hlt)
    refine ⟨h1, h2, by omega, ?_⟩
    have := allocateDynamic_head isVertical gaps canvases origin cursor idx child
      (alignDynamicBy mul isVertical child t) rest _ (slotSize isVertical t) h1 h3
      (by rw [h4, h2]; omega)
    rwa [h5, h6] at this
  · intro ha0 hd ha hp
    have hdel : (0 : ℚ) ≤ ((slotSize isVertical t - childSize isVertical t : Int) : ℚ) := by
      exact_mod_cast (by omega : (0 : Int) ≤ slotSize isVertical t - childSize isVertical t)
    exact float64MulToInt_exact _ _ hd ha hp (mul_nonneg hdel ha0)

/-- The amended C23 at a horizontal box of width 20 with two children, hence
slots of 10 cells: the child requesting width 4 with the alignment fraction 1/2
has `delta = 6`; nothing is rounded, the offset is `floor(6 / 2) = 3`, and in
both modes `Resize` in float64 arithmetic places the child at x = 3 and the next
child at x = 10. -/
theorem aligned_child_in_slot_witness :
    float64MulToInt 6 (mkRat 1 2)
        = leadingOffset false (trackHomogeneous false 10 ⟨20, 1⟩ (alignedChild (mkRat 1 2) 4))
            (mkRat 1 2, mkRat 1 2)
    ∧ float64MulToInt 6 (mkRat 1 2) = 3
    ∧ ((ResizeBy float64MulToInt SolveSpaceAlloc Distribute
        (alignedRow true 20 (mkRat 1 2) 4)).map fun p => (p.origin.X, p.alloc.W))
      = [(3, 4), (10, 10)]
    ∧ ((ResizeBy float64MulToInt SolveSpaceAlloc Distribute
        (alignedRow false 20 (mkRat 1 2) 4)).map fun p => (p.origin.X, p.alloc.W))
      = [(3, 4), (10, 10)] :=
  ⟨(aligned_child_in_slot float64MulToInt false [0, 0] [1, 2] ⟨0, 0⟩ ⟨0, 0⟩ 0
      (alignedChild (mkRat 1 2) 4) (trackHomogeneous false 10 ⟨20, 1⟩ (alignedChild (mkRat 1 2) 4))
      [] (mkRat 1 2, mkRat 1 2) rfl rfl rfl rfl (by decide)).2.2 (by decide) (by decide)
      (by decide) (by rw [← mkRat_mul_eq]; decide),
    by decide, by decide, by decide⟩

/-! ## The children a box lays out -/

/-- C24.  For every child list, `getBoxChildren` returns the visible
Start-packed children in child-list order followed by the visible End-packed
children in child-list order; the result is a rearrangement of the visible
children (each visible child occurs as often as in the child list, hidden
children do not occur), every element is a child of the box with the packing
stored for it, and the length is the number of visible Start-packed children
plus the number of visible End-packed children. -/
theorem getBoxChildren_visible_partition (b : CBox) :
    getBoxChildren b
        = ((b.children.filter fun c => c.widget.visible).filter
            fun c => (c.packType == PackType.PackStart))
          ++ ((b.children.filter fun c => c.widget.visible).filter
            fun c => (c.packType == PackType.PackEnd))
    ∧ (getBoxChildren b).Perm (b.children.filter fun c => c.widget.visible)
    ∧ (∀ c, c ∈ getBoxChildren b ↔ c ∈ b.children ∧ c.widget.visible = true)
    ∧ (∀ c, (getBoxChildren b).count c
        = if c.widget.visible then b.children.count c else 0)
    ∧ (getBoxChildren b).length
        = b.children.countP (fun c => c.widget.visible
            && (c.packType == PackType.PackStart))
          + b.children.countP (fun c => c.widget.visible
            && (c.packType == PackType.PackEnd)) := by
  have hsplit : getBoxChildren b
      = ((b.children.filter fun c => c.widget.visible).filter
          fun c => (c.packType == PackType.PackStart))
        ++ ((b.children.filter fun c => c.widget.visible).filter
          fun c => (c.packType == PackType.PackEnd)) := by
    simp only [getBoxChildren, List.filter_filter]
    congr 1 <;> apply List.filter_congr <;> intro c _ <;>
      cases c.widget.visible <;> cases c.packType <;> rfl
  have hend : (fun c : cBoxChild => (c.packType == PackType.PackEnd))
      = fun c => !(c.packType == PackType.PackStart) := by
    funext c
    cases c.packType <;> rfl
  have hperm : (getBoxChildren b).Perm (b.children.filter fun c => c.widget.visible) := by
    rw [hsplit, hend]
    exact List.filter_append_perm _ _
  refine ⟨hsplit, hperm, ?_, ?_, ?_⟩
  · intro c
    rw [hperm.mem_iff, List.mem_filter]
  · intro c
    rw [hperm.count_eq]
    by_cases hv : c.widget.visible = true
    · rw [if_pos hv, List.count_filter (by simpa using hv)]
    · rw [if_neg hv]
      exact List.count_eq_zero_of_not_mem fun hm => hv (by simpa using (List.mem_filter.mp hm).2)
  · simp [getBoxChildren, List.countP_eq_length_filter]

/-! ## Expanding, filling children: both modes agree -/

theorem allocate_modes_agree (isVertical : Bool) (gaps : List Int) (canvases : List Nat)
    (origin : Point2I) (f g : cBoxChild → Track) :
    ∀ (children : List cBoxChild) (idx : Nat) (p : Point2I),
      (∀ c ∈ children, (f c).x = (g c).x ∧ (f c).y = (g c).y ∧ (f c).w = (g c).w
        ∧ (f c).h = (g c).h ∧ (f c).overflow = (g c).overflow
        ∧ (f c).aw = (f c).w ∧ (f c).ah = (f c).h) →
      allocateHomogeneous isVertical gaps canvases origin idx p
          (children.map fun c => (c, f c))
        = allocateDynamic isVertical gaps canvases origin idx p
            (children.map fun c => (c, g c)) := by
  intro children
  induction children with
  | nil => intro idx p _; rfl
  | cons c rest ih =>
    intro idx p h
    obtain ⟨hx, hy, hw, hh, ho, haw, hah⟩ := h c (List.mem_cons_self _ _)
    have hadv : advance isVertical gaps idx (f c) (p.Add (g c).x (g c).y)
        = advance isVertical gaps idx (g c) (p.Add (g c).x (g c).y) := by
      simp only [advance, hw, hh, ho]
    simp only [List.map_cons, allocateHomogeneous, allocateDynamic, hx, hy, haw, hah, hw, hh,
      hadv]
    rw [ih (idx + 1) _ fun c hc => h c (List.mem_cons_of_mem _ hc)]
    rfl

theorem trackDynamic_filling (isVertical : Bool) (increment : Int) (alloc : Rectangle)
    (c : cBoxChild) (he : c.expand = true) (hf : c.fill = true) :
    (trackDynamic isVertical increment alloc c).2 = 0
      ∧ (trackDynamic isVertical increment alloc c).1.x = 0
      ∧ (trackDynamic isVertical increment alloc c).1.y = 0
      ∧ (trackDynamic isVertical increment alloc c).1.overflow = 0
      ∧ (trackDynamic isVertical increment alloc c).1.w
          = (if isVertical then alloc.W else increment)
      ∧ (trackDynamic isVertical increment alloc c).1.h
          = (if isVertical then increment else alloc.H)
      ∧ (trackDynamic isVertical increment alloc c).1.aw
          = (if isVertical then alloc.W else increment)
      ∧ (trackDynamic isVertical increment alloc c).1.ah
          = (if isVertical then increment else alloc.H) := by
  simp [trackDynamic, he, hf]

theorem trackHomogeneous_filling (isVertical : Bool) (increment : Int) (alloc : Rectangle)
    (c : cBoxChild) (hf : c.fill = true) :
    (trackHomogeneous isVertical increment alloc c).x = 0
      ∧ (trackHomogeneous isVertical increment alloc c).y = 0
      ∧ (trackHomogeneous isVertical increment alloc c).overflow = 0
      ∧ (trackHomogeneous isVertical increment alloc c).w
          = (if isVertical then alloc.W else increment)
      ∧ (trackHomogeneous isVertical increment alloc c).h
          = (if isVertical then increment else alloc.H)
      ∧ (trackHomogeneous isVertical increment alloc c).aw
          = (if isVertical then alloc.W else increment)
      ∧ (trackHomogeneous isVertical increment alloc c).ah
          = (if isVertical then increment else alloc.H) := by
  simp [trackHomogeneous, hf]

theorem alignHomogeneous_full (isVertical : Bool) (c : cBoxChild) (t : Track)
    (hw : t.aw = t.w) (hh : t.ah = t.h) : alignHomogeneous isVertical c t = t := by
  cases isVertical <;> simp [alignHomogeneous, hw, hh]

theorem alignDynamic_full (isVertical : Bool) (c : cBoxChild) (t : Track)
    (hw : t.aw = t.w) (hh : t.ah = t.h) : alignDynamic isVertical c t = t := by
  rcases hal : c.widget.alignment with _ | ⟨xAlign, yAlign⟩ <;> cases isVertical <;>
    simp [alignDynamic, hal, hw, hh]

theorem dynamicTracking_filling (distribute : Int → Int → Int → Int → Int → DistResult)
    (isVertical : Bool) (gaps : List Int) (increment spacing numChildren : Int)
    (alloc : Rectangle) (children : List cBoxChild)
    (h : ∀ c ∈ children, c.expand = true ∧ c.fill = true) :
    dynamicTracking distribute isVertical gaps increment spacing numChildren alloc children
      = (children.map fun c => (c, (trackDynamic isVertical increment alloc c).1), gaps) := by
  have hsum : (children.map fun c => (trackDynamic isVertical increment alloc c).2).sum = 0 := by
    apply List.sum_eq_zero
    intro x hx
    obtain ⟨c, hc, rfl⟩ := List.mem_map.mp hx
    exact (trackDynamic_filling isVertical increment alloc c (h c hc).1 (h c hc).2).1
  simp only [dynamicTracking, List.map_map, Function.comp_def, hsum, gt_iff_lt,
    lt_self_iff_false, if_false]

/-- C26.  For children that all have expand = true and fill = true, and for the
same increment, gaps, origin, cursor and allocation, `resizeDynamicAlloc` and
`resizeHomogeneous` produce the same placements: every child gets the same
origin, the same allocation and the same canvas origin and size.  Hence
`Resize` lays such a box out identically whether it is homogeneous or not. -/
theorem resizeDynamicAlloc_eq_resizeHomogeneous
    (solve : Int → Int → Int → Int × List Int)
    (distribute : Int → Int → Int → Int → Int → DistResult) (canvases : List Nat)
    (isVertical : Bool) (gaps : List Int) (increment spacing numChildren : Int)
    (origin nextPoint : Point2I) (alloc : Rectangle) (children : List cBoxChild)
    (h : ∀ c ∈ children, c.expand = true ∧ c.fill = true) :
    resizeDynamicAlloc distribute canvases isVertical gaps increment spacing numChildren
        origin nextPoint alloc children
      = resizeHomogeneous canvases isVertical gaps increment numChildren origin nextPoint
          alloc children
    ∧ ∀ b : CBox, getBoxChildren b = children →
        Resize solve distribute { b with homogeneous := false }
          = Resize solve distribute { b with homogeneous := true } := by
  have key : ∀ (canvases : List Nat) (isVertical : Bool) (gaps : List Int)
      (increment spacing numChildren : Int) (origin nextPoint : Point2I) (alloc : Rectangle),
      resizeDynamicAlloc distribute canvases isVertical gaps increment spacing numChildren
          origin nextPoint alloc children
        = resizeHomogeneous canvases isVertical gaps increment numChildren origin nextPoint
            alloc children := by
    intro canvases isVertical gaps increment spacing numChildren origin nextPoint alloc
    simp only [resizeDynamicAlloc, resizeHomogeneous,
      dynamicTracking_filling distribute isVertical gaps increment spacing numChildren alloc
        children h, List.map_map, Function.comp_def]
    symm
    apply allocate_modes_agree
    intro c hc
    obtain ⟨d0, d1, d2, d3, d4, d5, d6, d7⟩ :=
      trackDynamic_filling isVertical increment alloc c (h c hc).1 (h c hc).2
    obtain ⟨e1, e2, e3, e4, e5, e6, e7⟩ :=
      trackHomogeneous_filling isVertical increment alloc c (h c hc).2
    rw [alignHomogeneous_full isVertical c _ (e6.trans e4.symm) (e7.trans e5.symm),
      alignDynamic_full isVertical c _ (d6.trans d4.symm) (d7.trans d5.symm)]
    refine ⟨e1.trans d1.symm, e2.trans d2.symm, e4.trans d4.symm, e5.trans d5.symm,
      e3.trans d3.symm, e6.trans e4.symm, e7.trans e5.symm⟩
  refine ⟨key _ _ _ _ _ _ _ _ _, ?_⟩
  intro b hb
  have hg : ∀ v : Bool, getBoxChildren { b with homogeneous := v } = children := fun _ => hb
  simp only [Resize, hg, key, Bool.false_eq_true, if_false, if_true]

/-- C26 at a box of width 30 with two expanding, filling children: the
non-homogeneous and the homogeneous layout both give each child 15 cells, at
x = 0 and x = 15. -/
theorem resizeDynamicAlloc_eq_resizeHomogeneous_witness :
    (∀ c ∈ getBoxChildren (paddedBox false 3), c.expand = true ∧ c.fill = true)
    ∧ Resize SolveSpaceAlloc Distribute (paddedBox false 3)
        = Resize SolveSpaceAlloc Distribute (paddedBox true 3)
    ∧ Resize SolveSpaceAlloc Distribute (paddedBox false 3)
        = [⟨1, ⟨0, 0⟩, ⟨15, 1⟩, some (⟨0, 0⟩, ⟨15, 1⟩)⟩,
           ⟨2, ⟨15, 0⟩, ⟨15, 1⟩, some (⟨15, 0⟩, ⟨15, 1⟩)⟩] :=
  ⟨by decide,
    (resizeDynamicAlloc_eq_resizeHomogeneous SolveSpaceAlloc Distribute [] false [] 0 0 0
      ⟨0, 0⟩ ⟨0, 0⟩ ⟨0, 0⟩ (getBoxChildren (paddedBox false 3)) (by decide)).2
      (paddedBox false 3) rfl,
    by decide⟩

/-! ## Notifications of an unchanged viewport -/

/-- C25, the defect.  A viewport with allocation 40x20 and a child requesting
100x50 is resized twice.  The second `Resize` changes no field of either
adjustment (both stay at upper 60 and 30 with the values 7 and 3) and yet
announces `changed` once on each of them. -/
theorem CViewport_Resize_announces_unchanged :
    scrollingViewport.afterResize.hAdjustment = some ⟨7, 0, 60, 1, 20, 40⟩
    ∧ scrollingViewport.afterResize.vAdjustment = some ⟨3, 0, 30, 1, 10, 20⟩
    ∧ scrollingViewport.afterResize.Resize.hAdjustment = scrollingViewport.afterResize.hAdjustment
    ∧ scrollingViewport.afterResize.Resize.vAdjustment = scrollingViewport.afterResize.vAdjustment
    ∧ scrollingViewport.afterResize.ResizeChanged = (1, 1) := by
  decide

/-! ## Scrolling never leaves the allocation uncovered -/

/-- C27, the claim refuted.  The child of a scrolled viewport of 40x20 was
100x50 and scrolled fully to the right; its height request is now 10.  The
resize pass still reserves the column of the vertical scrollbar (horizontal
upper 61) and places the child at x = -61, so the child ends at x = 39, one
short of origin + allocation = 40, while after the pass the vertical scrollbar
is reported as hidden. -/
theorem stale_cross_axis_counterexample :
    shrunkChildViewport.resizeViewport.childOrigin = some ⟨-61, 0⟩
    ∧ shrunkChildViewport.resizeViewport.childAlloc = some ⟨100, 10⟩
    ∧ shrunkChildViewport.alloc.W ≤ 100
    ∧ shrunkChildViewport.afterResizeViewport.VerticalShowByPolicy = false
    ∧ (-61 : Int) + 100 < shrunkChildViewport.origin.X + shrunkChildViewport.alloc.W := by
  decide

theorem hSettings_value (s : CScrolledViewport) (sizeW : Int) (h : s.alloc.W ≤ sizeW) :
    0 ≤ (hSettings s sizeW).getD 0 0
      ∧ (hSettings s sizeW).getD 0 0
          ≤ sizeW - s.alloc.W + (if s.VerticalShowByPolicy then 1 else 0) := by
  have hup : 0 ≤ sizeW - s.alloc.W + (if s.VerticalShowByPolicy then 1 else 0) := by
    split <;> omega
  rcases ha : s.hAdjustment with _ | a
  · simpa [hSettings, h, ha] using hup
  · simpa [hSettings, h, ha] using ClampI_mem a.GetValue 0 _ hup

theorem vSettings_value (s : CScrolledViewport) (sizeH : Int) (h : s.alloc.H ≤ sizeH) :
    0 ≤ (vSettings s sizeH).getD 0 0
      ∧ (vSettings s sizeH).getD 0 0
          ≤ sizeH - s.alloc.H + (if s.HorizontalShowByPolicy then 1 else 0) := by
  have hup : 0 ≤ sizeH - s.alloc.H + (if s.HorizontalShowByPolicy then 1 else 0) := by
    split <;> omega
  rcases ha : s.vAdjustment with _ | a
  · simpa [vSettings, h, ha] using hup
  · simpa [vSettings, h, ha] using ClampI_mem a.GetValue 0 _ hup

/-- C27 as amended.  In the resize pass of a scrolled viewport with a non-zero
allocation and a child, the child is given the origin and the size of the region
that `makeAdjustments` returns, and on every axis where that size is at least
the allocation, whatever the adjustments held before: the child's origin is
at most the container's origin, the child's origin + size is at least container
origin + allocation - 1, and it is at least container origin + allocation when
the cross-axis scrollbar is reported as hidden by the adjustments the pass
starts from.  The first half is the horizontal axis, the second the vertical
axis. -/
theorem resizeViewport_covers_allocation (s : CScrolledViewport) (child : Widget)
    (hchild : s.child = some child) (hW : s.alloc.W ≠ 0) (hH : s.alloc.H ≠ 0) :
    s.resizeViewport.childOrigin
        = some ⟨s.makeAdjustments.region.X, s.makeAdjustments.region.Y⟩
    ∧ s.resizeViewport.childAlloc
        = some ⟨s.makeAdjustments.region.W, s.makeAdjustments.region.H⟩
    ∧ (s.alloc.W ≤ s.makeAdjustments.region.W →
        s.makeAdjustments.region.X ≤ s.origin.X
        ∧ s.origin.X + s.alloc.W - 1 ≤ s.makeAdjustments.region.X + s.makeAdjustments.region.W
        ∧ (s.VerticalShowByPolicy = false →
            s.origin.X + s.alloc.W
              ≤ s.makeAdjustments.region.X + s.makeAdjustments.region.W))
    ∧ (s.alloc.H ≤ s.makeAdjustments.region.H →
        s.makeAdjustments.region.Y ≤ s.origin.Y
        ∧ s.origin.Y + s.alloc.H - 1 ≤ s.makeAdjustments.region.Y + s.makeAdjustments.region.H
        ∧ (s.HorizontalShowByPolicy = false →
            s.origin.Y + s.alloc.H
              ≤ s.makeAdjustments.region.Y + s.makeAdjustments.region.H)) := by
  have hz : ¬ (s.alloc.W = 0 ∨ s.alloc.H = 0) := by tauto
  refine ⟨by simp [CScrolledViewport.resizeViewport, hchild],
    by simp [CScrolledViewport.resizeViewport, hchild], ?_, ?_⟩
  · simp only [CScrolledViewport.makeAdjustments, hz, hchild, if_false]
    generalize (if child.reqW ≤ -1 then
      s.alloc.W - (if s.VerticalShowByPolicy = true then 1 else 0) else child.reqW) = sizeW
    intro hge
    have hb := hSettings_value s sizeW hge
    generalize (hSettings s sizeW).getD 0 0 = v at hb ⊢
    refine ⟨by omega, ?_, ?_⟩
    · split_ifs at hb <;> omega
    · intro hv
      rw [hv] at hb
      simp only [Bool.false_eq_true, if_false] at hb
      omega
  · simp only [CScrolledViewport.makeAdjustments, hz, hchild, if_false]
    generalize (if child.reqH ≤ -1 then
      s.alloc.H - (if s.HorizontalShowByPolicy = true then 1 else 0) else child.reqH) = sizeH
    intro hge
    have hb := vSettings_value s sizeH hge
    generalize (vSettings s sizeH).getD 0 0 = v at hb ⊢
    refine ⟨by omega, ?_, ?_⟩
    · split_ifs at hb <;> omega
    · intro hv
      rw [hv] at hb
      simp only [Bool.false_eq_true, if_false] at hb
      omega

/-- The amended C27 at the second pass over the viewport of the counterexample:
the vertical scrollbar is reported as hidden when the pass starts, the child is
placed at x = -60 and ends at x = 40 = origin + allocation. -/
theorem resizeViewport_covers_allocation_witness :
    shrunkChildViewport.afterResizeViewport.VerticalShowByPolicy = false
    ∧ shrunkChildViewport.afterResizeViewport.resizeViewport.childOrigin = some ⟨-60, 0⟩
    ∧ shrunkChildViewport.afterResizeViewport.origin.X
          + shrunkChildViewport.afterResizeViewport.alloc.W
        ≤ shrunkChildViewport.afterResizeViewport.makeAdjustments.region.X
          + shrunkChildViewport.afterResizeViewport.makeAdjustments.region.W :=
  ⟨by decide, by decide,
    ((resizeViewport_covers_allocation shrunkChildViewport.afterResizeViewport
      (plainWidget 1 100 10) rfl (by decide) (by decide)).2.2.1 (by decide)).2.2 (by decide)⟩

end Ctk
